import Mathlib

/-!
# DigestiGo: the categorization-and-tracking pipeline

A shallow embedding of `src/Services/trackingService.js` (the entry store,
`categorizeMessage` and `getTrackingSummary`), of the tracking part of
`sendMessage` and of `handleManualCategoryChange` in `src/Screens/ChatUI.js`, and
of the dietary percentages of `src/Screens/Report.js` and
`src/Screens/Tracker.js`, followed by theorems about them.

Conventions of the embedding

* A JavaScript string is the list of its code units (`JsString`), each written as a
  character, which is exact for text of the Basic Multilingual Plane;
  `substring(0, n)` is `List.take n` and `length` is `List.length`.
* Asynchronous functions are modelled by their completion: a resolved promise is
  `Except.ok`, a rejected one `Except.error`.
* What the platform decides (the clock, the random id, whether an AsyncStorage call
  rejects, what the classifier answers, whether the file runs as strict code) is an
  explicit argument.
* The tracking entries are typed as the data model has them: category and summary
  are strings, so `===` on them is equality of strings.
* A count is a natural number. A Number that is no integer is the double it is,
  carried as an exact fraction; division and multiplication round to the nearest
  double.
-/

namespace DigestiGo

/-- A JavaScript string, as the sequence of its code units, one character each. -/
abbrev JsString := List Char

/-- The errors that can be thrown inside the modelled code. -/
inductive JsError where
  /-- An AsyncStorage call rejected. -/
  | storage
  /-- The network call rejected. -/
  | network
  /-- The error made by `throw new Error('API request failed')`. -/
  | apiRequestFailed
  /-- A failure of `JSON.parse`, or of `response.json()`. -/
  | syntaxError
  /-- A property read on null or undefined, a call of a non-function, a conversion
  of an object to a primitive that finds none, or, in strict code, a property
  write on a primitive. -/
  | typeError
  /-- An array length that is no integer from 0 to `2 ^ 32 - 1`. -/
  | rangeError
  deriving DecidableEq, Repr

/-! ## Constants of `trackingService.js` -/

namespace CATEGORIES

/-- The label `CATEGORIES.SYMPTOM`. -/
def SYMPTOM : JsString := "symptom".toList

/-- The label `CATEGORIES.DIETARY`. -/
def DIETARY : JsString := "dietary".toList

/-- The label `CATEGORIES.TRIGGER`. -/
def TRIGGER : JsString := "trigger".toList

/-- The label `CATEGORIES.GENERAL`. -/
def GENERAL : JsString := "general".toList

end CATEGORIES

/-! ## The entry store (`saveTrackingEntry`, `getTrackingData`, `clearTrackingData`) -/

/-- The object handed to `saveTrackingEntry`: the fields of an entry before the
id and the timestamp are added. -/
structure EntryFields where
  message : JsString
  isUser : Bool
  category : JsString
  foodCategory : Option JsString
  keywords : List JsString
  summary : JsString
  deriving DecidableEq, Repr

/-- A persisted entry: `{ id, timestamp, ...entry }`. -/
structure TrackingEntry extends EntryFields where
  id : JsString
  timestamp : JsString
  deriving DecidableEq, Repr

/-- What AsyncStorage holds under `STORAGE_KEY`. The application writes this key
in `saveTrackingEntry` only, as the text of an array of entries, and the text is
read back to the same entries. -/
inductive Stored where
  /-- No value: `getItem` resolves to null. -/
  | absent
  /-- The text `JSON.stringify(es)` of an array of entries. -/
  | entries (es : List TrackingEntry)
  /-- A text on which `JSON.parse` throws. -/
  | undecodable
  deriving DecidableEq, Repr

/-- What the platform supplies to one call of `saveTrackingEntry`. -/
structure CallEnv where
  /-- The value of `Date.now().toString() + Math.random()`. -/
  id : JsString
  /-- The value of `new Date().toISOString()`. -/
  timestamp : JsString
  /-- Whether `AsyncStorage.getItem` rejects in this call. -/
  readFails : Bool
  /-- Whether `AsyncStorage.setItem` rejects in this call. -/
  writeFails : Bool
  deriving DecidableEq, Repr

/-- The function `getTrackingData`: the stored array, and `[]` when there is no
value, when the read rejects or when the text does not parse (the `catch`). -/
def getTrackingData (readFails : Bool) (st : Stored) : List TrackingEntry :=
  if readFails then []
  else
    match st with
    | .absent => []
    | .entries es => es
    | .undecodable => []

/-- The test `existing.category === entry.category &&
existing.summary === entry.summary` of `saveTrackingEntry`. -/
def sameKey (existing : TrackingEntry) (entry : EntryFields) : Bool :=
  existing.category == entry.category && existing.summary == entry.summary

/-- The value `isDuplicate` of `saveTrackingEntry`: `existingData.some(...)`. -/
def isDuplicate (existingData : List TrackingEntry) (entry : EntryFields) : Bool :=
  existingData.any (fun existing => sameKey existing entry)

/-- The object `newEntry` of `saveTrackingEntry`. -/
def newEntry (env : CallEnv) (entry : EntryFields) : TrackingEntry :=
  { toEntryFields := entry, id := env.id, timestamp := env.timestamp }

/-- The function `saveTrackingEntry`: its completion (`ok none` is the returned
null, `ok (some e)` the returned entry, `error` the rethrown error) and the
store afterwards. -/
def saveTrackingEntry (env : CallEnv) (st : Stored) (entry : EntryFields) :
    Except JsError (Option TrackingEntry) × Stored :=
  let existingData := getTrackingData env.readFails st
  if isDuplicate existingData entry then (.ok none, st)
  else if env.writeFails then (.error .storage, st)
  else (.ok (some (newEntry env entry)), .entries (existingData ++ [newEntry env entry]))

/-- The function `clearTrackingData`: it removes the value; a rejection of
`removeItem` is caught and logged, so the call always resolves. -/
def clearTrackingData (removeFails : Bool) (st : Stored) : Except JsError Unit × Stored :=
  if removeFails then (.ok (), st) else (.ok (), .absent)

/-- One call made on the store. -/
inductive StoreCall where
  | save (env : CallEnv) (entry : EntryFields)
  | clear (removeFails : Bool)
  deriving DecidableEq, Repr

/-- The store after one call. -/
def StoreCall.run (st : Stored) : StoreCall → Stored
  | .save env entry => (saveTrackingEntry env st entry).2
  | .clear removeFails => (clearTrackingData removeFails st).2

/-- The store after a sequence of calls, made one after the other. -/
def runCalls (st : Stored) (calls : List StoreCall) : Stored :=
  calls.foldl StoreCall.run st

/-- No two entries of the list have the same category and the same summary. -/
def NoDuplicateKey (es : List TrackingEntry) : Prop :=
  es.Pairwise (fun a b => ¬ (a.category = b.category ∧ a.summary = b.summary))

/-! ## The tracking part of `sendMessage` (`ChatUI.js`) -/

/-- The categorization as `sendMessage` reads it, typed as the data model has it:
labels, keywords and summaries are strings, `summaries` is an object from labels
to strings (a list of members, read by key), and null is `none`. The labels are
arbitrary strings: the code does not restrict them to the four categories. -/
structure Categorization where
  categories : List JsString
  foodCategory : Option JsString
  keywords : List JsString
  summaries : List (JsString × JsString)
  extractedSymptom : Option JsString
  deriving DecidableEq, Repr

/-- The value stored in `categorizations[aiMessageId]` for the badges. The later
reset of `justSaved` by the timer is not modelled. -/
structure Badge where
  categories : List JsString
  summaries : List (JsString × JsString)
  saved : Bool
  justSaved : Bool
  deriving DecidableEq, Repr

/-- The calls of `saveTrackingEntry` made by one `sendMessage`. -/
structure SaveRun where
  /-- The store afterwards. -/
  store : Stored
  /-- The calls that completed, in order: the entry handed over and the value the
  call resolved to (null or the new entry). -/
  log : List (EntryFields × Option TrackingEntry)
  /-- The error that ended the `try` block, if one was thrown (it is caught and
  logged by `sendMessage`). -/
  error : Option JsError
  deriving DecidableEq, Repr

/-- The names of the members every object inherits from `Object.prototype`. The
read `o[name]` of such a name on an object that has no member of its own under
it gives the inherited member: a function, or for `__proto__` the prototype
itself, which is truthy and no string. -/
def inheritedNames : List JsString :=
  ["constructor".toList, "hasOwnProperty".toList, "isPrototypeOf".toList,
    "propertyIsEnumerable".toList, "toLocaleString".toList, "toString".toList,
    "valueOf".toList, "__proto__".toList, "__defineGetter__".toList,
    "__defineSetter__".toList, "__lookupGetter__".toList, "__lookupSetter__".toList]

/-- Every read `summaries[category]` of the loop of `sendMessage` finds a member of
`summaries` itself or nothing: no label that `summaries` does not record names a
member of `Object.prototype`. -/
def ReadsOwnSummaries (c : Categorization) : Prop :=
  ∀ label ∈ c.categories, c.summaries.lookup label = none → label ∉ inheritedNames

/-- The expression `categorization.summaries[category] ||
userMessageText.substring(0, 80)`: the empty string is falsy. This is the read
of a label that `summaries` records or that is none of `inheritedNames`. For a
label of `inheritedNames` that `summaries` does not record, the code reads the
inherited member, which is no string: the entry it then hands over lies outside
the typed entries, and what is proved of the summary of an entry assumes
`ReadsOwnSummaries`. -/
def summaryFor (userMessageText : JsString) (c : Categorization) (category : JsString) :
    JsString :=
  match c.summaries.lookup category with
  | some s => if s.isEmpty then userMessageText.take 80 else s
  | none => userMessageText.take 80

/-- The object handed to `saveTrackingEntry` in the loop over the categories. -/
def primaryEntry (userMessageText : JsString) (c : Categorization) (category : JsString) :
    EntryFields :=
  { message := userMessageText
    isUser := true
    category := category
    foodCategory := if category = CATEGORIES.DIETARY then c.foodCategory else none
    keywords := c.keywords
    summary := summaryFor userMessageText c category }

/-- The object handed to `saveTrackingEntry` for the extracted symptom. -/
def symptomEntry (userMessageText : JsString) (extractedSymptom : JsString) : EntryFields :=
  { message := userMessageText
    isUser := true
    category := CATEGORIES.SYMPTOM
    foodCategory := none
    keywords := [extractedSymptom]
    summary := "Experiencing ".toList ++ extractedSymptom }

/-- Awaiting `saveTrackingEntry` on each entry in turn, as the statements of the
`try` block do: call number `k` takes `envs k`, and the first call that throws
ends the sequence. -/
def saveAll (envs : Nat → CallEnv) : Nat → Stored → List EntryFields → SaveRun
  | _, st, [] => { store := st, log := [], error := none }
  | k, st, entry :: rest =>
    match saveTrackingEntry (envs k) st entry with
    | (.error e, st1) => { store := st1, log := [], error := some e }
    | (.ok r, st1) =>
      let run := saveAll envs (k + 1) st1 rest
      { run with log := (entry, r) :: run.log }

/-- The condition `categories.includes('trigger') && categorization.extractedSymptom
&& !categories.includes('symptom')` with the symptom it lets through: null and
the empty string are falsy. -/
def secondarySymptom (c : Categorization) : Option JsString :=
  if c.categories.contains CATEGORIES.TRIGGER && !c.categories.contains CATEGORIES.SYMPTOM then
    match c.extractedSymptom with
    | some x => if x.isEmpty then none else some x
    | none => none
  else none

/-- The loop `for (const category of categories)` of the `try` block: one
`saveTrackingEntry` per category, in the order of the list. -/
def sendMessage.saveLoop (envs : Nat → CallEnv) (userMessageText : JsString)
    (c : Categorization) (st : Stored) : SaveRun :=
  saveAll envs 0 st (c.categories.map (primaryEntry userMessageText c))

/-- The `try` block of `sendMessage`: one `saveTrackingEntry` per category, in the
order of the list, then the write of the extracted symptom when its condition
holds. An error thrown by a call skips what follows. -/
def sendMessage.saveStep (envs : Nat → CallEnv) (userMessageText : JsString)
    (c : Categorization) (st : Stored) : SaveRun :=
  let run := sendMessage.saveLoop envs userMessageText c st
  match run.error with
  | some _ => run
  | none =>
    match secondarySymptom c with
    | some x =>
      let more := saveAll envs c.categories.length run.store [symptomEntry userMessageText x]
      { store := more.store, log := run.log ++ more.log, error := more.error }
    | none => run

/-- The value `shouldSave` of `sendMessage`. -/
def shouldSave (c : Categorization) : Bool :=
  decide (c.categories.length > 0) && !c.categories.contains CATEGORIES.GENERAL

/-- The badge of a message that is not saved. -/
def notSavedBadge : Badge :=
  { categories := [CATEGORIES.GENERAL]
    summaries := [(CATEGORIES.GENERAL, "Not saved".toList)]
    saved := false
    justSaved := false }

/-- The callback `sendMessage` runs on the categorization of the user message:
the badge it sets and the calls it makes on the store. -/
def sendMessage.track (envs : Nat → CallEnv) (userMessageText : JsString)
    (c : Categorization) (st : Stored) : Badge × SaveRun :=
  if shouldSave c then
    ({ categories := c.categories, summaries := c.summaries, saved := true, justSaved := true },
      sendMessage.saveStep envs userMessageText c st)
  else
    (notSavedBadge, { store := st, log := [], error := none })

/-- The entries the `try` block of `sendMessage` hands to `saveTrackingEntry`, in
the order of the calls. -/
def writes (userMessageText : JsString) (c : Categorization) : List EntryFields :=
  c.categories.map (primaryEntry userMessageText c) ++
    (secondarySymptom c).toList.map (symptomEntry userMessageText)

/-- No AsyncStorage call rejects, whichever call it is. -/
def NoFailure (envs : Nat → CallEnv) : Prop :=
  ∀ k, (envs k).readFails = false ∧ (envs k).writeFails = false

/-! ## JavaScript values

The values `JSON.parse` produces, and undefined for a property that is not
there. An object is given by its own members, in the order of their creation.
The reads `v.key` of the code name one of seven fields (`categories`,
`category`, `summaries`, `summary`, `foodCategory`, `keywords`,
`extractedSymptom`), which no built-in prototype defines, so that a read finds
a member of the value itself or nothing. The conversions and the assignments
that meet the built-in prototypes (`toString`, `__proto__`, `length`) say so. -/

/-- A JavaScript value of the JSON fragment. A number is carried as the text
`Number.prototype.toString` prints for it ("0" for both zeros); this text
decides all the code can observe of a number: its truthiness, its use as a
property name, its use as an array length and `===`. -/
inductive JVal where
  | undefined
  | null
  | bool (b : Bool)
  | num (text : JsString)
  | str (s : JsString)
  | arr (items : List JVal)
  | obj (members : List (JsString × JVal))

namespace JVal

/-- The conversion ToBoolean. -/
def truthy : JVal → Bool
  | undefined => false
  | null => false
  | bool b => b
  | num text => decide (text ≠ "0".toList ∧ text ≠ "NaN".toList)
  | str s => !s.isEmpty
  | arr _ => true
  | obj _ => true

/-- The operator `a || b`. -/
def orElse (a b : JVal) : JVal :=
  if a.truthy then a else b

/-- The read `v.key` of a property on a value that is neither null nor
undefined, for a `key` that no built-in prototype defines: the member of an
object, undefined otherwise. -/
def get (v : JVal) (key : JsString) : JVal :=
  match v with
  | obj members => (members.lookup key).getD undefined
  | _ => undefined

/-- The items of `v` when `Array.isArray(v)` holds. -/
def items? : JVal → Option (List JVal)
  | arr xs => some xs
  | _ => none

/-- The number `Object.keys(v).length` for a truthy value. -/
def keyCount : JVal → Nat
  | obj members => members.length
  | arr xs => xs.length
  | str s => s.length
  | _ => 0

/-- Whether `v` is an object with a member of its own under `key`. An array has
its items and `length`, which are not asked for here. -/
def hasOwn (v : JVal) (key : JsString) : Bool :=
  match v with
  | obj members => members.any (fun m => m.1 == key)
  | _ => false

mutual
/-- The conversion ToString, which also makes the property name in `o[v]`
(ToPropertyKey). An array is joined. An object is converted by its method
`toString`: the inherited one gives "[object Object]"; a member `toString` of
a decoded object is no function, and then neither `toString` nor `valueOf`
gives a primitive, so the conversion throws a TypeError. -/
def toText : JVal → Except JsError JsString
  | undefined => .ok "undefined".toList
  | null => .ok "null".toList
  | bool b => .ok (if b then "true".toList else "false".toList)
  | num text => .ok text
  | str s => .ok s
  | arr xs => joinText xs
  | obj members =>
    if members.any (fun m => m.1 == "toString".toList) then .error .typeError
    else .ok "[object Object]".toList
termination_by structural v => v
/-- The text of `Array.prototype.join` with a comma: null and undefined items give
the empty text, and the conversion of an item may throw. -/
def joinText : List JVal → Except JsError JsString
  | [] => .ok []
  | x :: rest =>
    match (match x with
      | undefined => Except.ok []
      | null => Except.ok []
      | v => toText v : Except JsError JsString) with
    | .error e => .error e
    | .ok head =>
      match rest with
      | [] => .ok head
      | _ =>
        match joinText rest with
        | .error e => .error e
        | .ok tail => .ok (head ++ ',' :: tail)
termination_by structural xs => xs
end

end JVal

/-- The assignment `o[key] = v` on the members of an object: the member is
replaced where it stands, or added at the end. -/
def setMember (members : List (JsString × JVal)) (key : JsString) (v : JVal) :
    List (JsString × JVal) :=
  match members with
  | [] => [(key, v)]
  | (k, w) :: rest => if k = key then (k, v) :: rest else (k, w) :: setMember rest key v

/-! ## `categorizeMessage` -/

/-- The object `categorizeMessage` resolves to. -/
structure CategorizationObject where
  categories : List JVal
  foodCategory : JVal
  keywords : List JVal
  summaries : JVal
  extractedSymptom : JVal

/-- What the call of the classifier comes to. -/
inductive ClassifierOutcome where
  /-- The call `fetch` rejects. -/
  | failedCall
  /-- The response has `ok` false. -/
  | nonSuccess
  /-- The response is ok but `response.json()` rejects, or
  `data.choices[0].message.content.trim()` throws (the body has another shape). -/
  | malformedBody
  /-- The response is ok and `data.choices[0].message.content` is this string. -/
  | reply (content : JsString)
  deriving DecidableEq, Repr

/-- The characters `String.prototype.trim` removes: white space and line
terminators. -/
def isTrimmed (ch : Char) : Bool :=
  let n := ch.toNat
  n = 9 || n = 10 || n = 11 || n = 12 || n = 13 || n = 32 || n = 160 || n = 5760 ||
    (8192 ≤ n && n ≤ 8202) || n = 8232 || n = 8233 || n = 8239 || n = 8287 ||
    n = 12288 || n = 65279

/-- The method `trim`. -/
def jsTrim (s : JsString) : JsString :=
  ((s.dropWhile isTrimmed).reverse.dropWhile isTrimmed).reverse

/-- The call `s.replace(/FENCE\n?/g, '')` for a fixed text `fence`: every
occurrence, found from left to right, is removed together with the line feed
that follows it, if there is one. The first argument bounds the steps. -/
def removeFence (fence : JsString) : Nat → JsString → JsString
  | 0, s => s
  | _ + 1, [] => []
  | fuel + 1, ch :: rest =>
    if fence ≠ [] ∧ fence.isPrefixOf (ch :: rest) then
      match (ch :: rest).drop fence.length with
      | next :: after =>
        if next = Char.ofNat 10 then removeFence fence fuel after
        else removeFence fence fuel (next :: after)
      | [] => []
    else ch :: removeFence fence fuel rest

/-- The lines that clean the reply: `trim`, the removal of the fences with
`json`, of the bare fences and of the single backticks, and `trim` again. -/
def cleanContent (content : JsString) : JsString :=
  let c0 := jsTrim content
  let c1 := removeFence "```json".toList c0.length c0
  let c2 := removeFence "```".toList c1.length c1
  let c3 := c2.filter (fun ch => ch ≠ Char.ofNat 96)
  jsTrim c3

/-- What the assignments of the loop have made of `summaries` so far: its own
enumerable members, and the value that has replaced its prototype, if one has. -/
structure Assigned where
  members : List (JsString × JVal)
  proto : Option JVal

/-- The assignment `summaries[key] = v` on an object or an array, for a `key`
other than `length` on an array. A name that is not `__proto__` becomes a
member of `summaries` (every member it could inherit is a writable data
property). The name `__proto__` is a member when `summaries` has one of its own
or when the value that replaced its prototype has one; otherwise the
assignment runs the setter of `Object.prototype`, which makes no member: it
replaces the prototype when `v` is an object or an array and does nothing for
another `v`. -/
def Assigned.set (st : Assigned) (key : JsString) (v : JVal) : Assigned :=
  if key = "__proto__".toList then
    if st.members.any (fun m => m.1 == key) then
      { st with members := setMember st.members key v }
    else if (match st.proto with
        | some p => p.hasOwn key
        | none => false) then
      { st with members := setMember st.members key v }
    else
      match v with
      | .obj _ => { st with proto := some v }
      | .arr _ => { st with proto := some v }
      | _ => st
  else { st with members := setMember st.members key v }

/-- The number a text of digits spells. -/
def digitsValue (s : JsString) : Nat :=
  s.foldl (fun acc ch => 10 * acc + (ch.toNat - 48)) 0

/-- The index that the property name `key` is on an array: the name is the decimal
spelling, without leading zero, of an integer below `2 ^ 32 - 1`. -/
def arrayIndex? (key : JsString) : Option Nat :=
  if key ≠ [] ∧ key.all Char.isDigit ∧ (key.head? ≠ some '0' ∨ key.length = 1) ∧
      digitsValue key < 2 ^ 32 - 1 then
    some (digitsValue key)
  else none

/-- The length that a text stands for in `array.length = text`: the empty text
and white space stand for 0, a text of digits for its number. A text that
spells a number in another way (with a sign, a fraction, an exponent or a
radix prefix) is taken here as none, as is a text that spells no number; the
assignment throws a RangeError when there is none. -/
def textLength? (s : JsString) : Option Nat :=
  if jsTrim s = [] then some 0
  else if (jsTrim s).all Char.isDigit ∧ digitsValue (jsTrim s) < 2 ^ 32 then
    some (digitsValue (jsTrim s))
  else none

/-- The assignment `array.length = v`: the new length, or the error thrown when
`v` converts to no integer from 0 to `2 ^ 32 - 1`. -/
def arrayLength (v : JVal) : Except JsError Nat :=
  match v with
  | .undefined => .error .rangeError
  | .null => .ok 0
  | .bool b => .ok (if b then 1 else 0)
  | .num text =>
    if text ≠ [] ∧ text.all Char.isDigit ∧ digitsValue text < 2 ^ 32 then .ok (digitsValue text)
    else .error .rangeError
  | .str s =>
    match textLength? s with
    | some n => .ok n
    | none => .error .rangeError
  | .arr xs =>
    match JVal.joinText xs with
    | .error e => .error e
    | .ok s =>
      match textLength? s with
      | some n => .ok n
      | none => .error .rangeError
  | .obj members =>
    if members.any (fun m => m.1 == "toString".toList) then .error .typeError
    else .error .rangeError

/-- The loop `categories.forEach(cat => { summaries[cat] = v; })` on an object, or
on an array when `isArray` holds: each category is converted to a property
name, which may throw, and assigned. On an array the name `length` sets the
length, which removes the items from that index on, or throws. -/
def assignMembers (isArray : Bool) (v : JVal) : Assigned → List JVal → Except JsError Assigned
  | st, [] => .ok st
  | st, cat :: rest =>
    match cat.toText with
    | .error e => .error e
    | .ok key =>
      if isArray ∧ key = "length".toList then
        match arrayLength v with
        | .error e => .error e
        | .ok n =>
          assignMembers isArray v
            { st with members := st.members.filter (fun m =>
                match arrayIndex? m.1 with
                | some i => decide (i < n)
                | none => true) }
            rest
      else assignMembers isArray v (st.set key v) rest

/-- The loop on a primitive (a number, a boolean or a string): each category is
converted to a property name, which may throw, and the assignment makes no
member. The name `__proto__` runs the inherited setter, which does nothing on
a primitive. Another name finds no setter, and the failed assignment throws a
TypeError when the file runs as strict code, as an ECMAScript module does, and
is ignored when it does not, as in the CommonJS output of the React Native
Babel preset: `strictCode` says which. -/
def assignPrimitive (strictCode : Bool) : List JVal → Except JsError Unit
  | [] => .ok ()
  | cat :: rest =>
    match cat.toText with
    | .error e => .error e
    | .ok key =>
      if strictCode ∧ key ≠ "__proto__".toList then .error .typeError
      else assignPrimitive strictCode rest

/-- The loop `categories.forEach(cat => { summaries[cat] = v; })`, reached when
`summaries` has no key, with the value of `summaries` afterwards. An object is
given by its own members. An array that the loop has run on is given as the
object of its enumerable members, the items under their indices; its length
is not part of this value. -/
def assignSummaries (strictCode : Bool) (summaries : JVal) (categories : List JVal)
    (v : JVal) : Except JsError JVal :=
  match summaries with
  | .obj members =>
    match assignMembers false v { members := members, proto := none } categories with
    | .error e => .error e
    | .ok st => .ok (.obj st.members)
  | .arr items =>
    if categories.isEmpty then .ok (.arr items)
    else
      match assignMembers true v
          { members := items.enum.map (fun p => (Nat.toDigits 10 p.1, p.2)), proto := none }
          categories with
      | .error e => .error e
      | .ok st => .ok (.obj st.members)
  | .undefined => if categories.isEmpty then .ok .undefined else .error .typeError
  | .null => if categories.isEmpty then .ok .null else .error .typeError
  | other =>
    match assignPrimitive strictCode categories with
    | .error e => .error e
    | .ok _ => .ok other

/-- The statements of `categorizeMessage` from `result.categories` to the
`return` of the `try` block, on the value `result` of `JSON.parse`. -/
def categorizeMessage.build (strictCode : Bool) (message : JsString) (result : JVal) :
    Except JsError CategorizationObject :=
  match result with
  | .null => .error .typeError
  | .undefined => .error .typeError
  | _ =>
    let categories :=
      match (result.get "categories".toList).items? with
      | some xs => xs
      | none => [(result.get "category".toList).orElse (.str CATEGORIES.GENERAL)]
    let summaries := (result.get "summaries".toList).orElse (.obj [])
    let assigned :=
      if summaries.keyCount = 0 then
        assignSummaries strictCode summaries categories
          ((result.get "summary".toList).orElse (.str (message.take 80)))
      else .ok summaries
    match assigned with
    | .error e => .error e
    | .ok summaries1 =>
      .ok
        { categories := categories
          foodCategory := (result.get "foodCategory".toList).orElse .null
          keywords :=
            match (result.get "keywords".toList).items? with
            | some ks => ks.take 5
            | none => []
          summaries := summaries1
          extractedSymptom := (result.get "extractedSymptom".toList).orElse .null }

/-- The `try` block of `categorizeMessage`. The function `JSON.parse` is the
argument `parse`, with `none` for a thrown SyntaxError. -/
def categorizeMessage.tryBlock (strictCode : Bool) (parse : JsString → Option JVal)
    (message : JsString) (outcome : ClassifierOutcome) :
    Except JsError CategorizationObject :=
  match outcome with
  | .failedCall => .error .network
  | .nonSuccess => .error .apiRequestFailed
  | .malformedBody => .error .typeError
  | .reply content =>
    match parse (cleanContent content) with
    | none => .error .syntaxError
    | some result => categorizeMessage.build strictCode message result

/-- The `catch` block of `categorizeMessage`: the default categorization. -/
def categorizeMessage.catchBlock (message : JsString) : CategorizationObject :=
  { categories := [.str CATEGORIES.GENERAL]
    foodCategory := .null
    keywords := []
    summaries := .obj [("general".toList,
      .str (message.take 77 ++ (if message.length > 77 then "...".toList else [])))]
    extractedSymptom := .null }

/-- The function `categorizeMessage`, by its completion: `ok` is the value the
promise resolves to, `error` a rejection. The api key plays no part in it. -/
def categorizeMessage (strictCode : Bool) (parse : JsString → Option JVal)
    (message : JsString) (outcome : ClassifierOutcome) :
    Except JsError CategorizationObject :=
  match categorizeMessage.tryBlock strictCode parse message outcome with
  | .ok c => .ok c
  | .error _ => .ok (categorizeMessage.catchBlock message)

/-! ## The request of `categorizeMessage` -/

/-- The lines of the template `CATEGORIZATION_PROMPT`. -/
def CATEGORIZATION_PROMPT.lines : List String :=
  [
    "Analyze this message and categorize it. Return ONLY valid JSON, no markdown.",
    "",
    "CRITICAL RULES:",
    "1. A message can belong to MULTIPLE categories - return ALL that apply",
    "2. Summaries must be UNIQUE and DESCRIPTIVE (max 15 words)",
    "3. NO duplicates - make each summary distinct",
    "",
    "Required JSON format:",
    "\x7b\x22categories\x22:[\x22category1\x22,\x22category2\x22],\x22foodCategory\x22:null,\x22keywords\x22:[\x22word1\x22],\x22summaries\x22:\x7b\x22category1\x22:\x22unique summary 1\x22,\x22category2\x22:\x22unique summary 2\x22\x7d,\x22extractedSymptom\x22:null\x7d",
    "",
    "CATEGORY LOGIC - A MESSAGE CAN BE MULTIPLE:",
    "",
    "1. dietary: User CONSUMED food/drink",
    "   - \x22I ate pizza\x22 = dietary",
    "   - \x22I drank milk\x22 = dietary",
    "   - Track in foodCategory: carbs/proteins/dairy/fibre",
    "",
    "2. trigger: Food/activity CAUSES a symptom (cause-effect relationship)",
    "   - \x22Pizza makes me bloated\x22 = trigger + dietary",
    "   - \x22I ate spicy food and got diarrhea\x22 = trigger + dietary",
    "   - \x22Spaghetti triggers bloating\x22 = trigger + dietary",
    "   - Summary: \x22[Food] may trigger [symptom] - watch out\x22",
    "   - MUST extract symptom to extractedSymptom field",
    "",
    "3. symptom: ONLY if describing feeling WITHOUT mentioning cause",
    "   - \x22I feel bloated\x22 = symptom only",
    "   - \x22My stomach hurts\x22 = symptom only",
    "   - \x22I have diarrhea\x22 = symptom only",
    "   - NOT for: \x22Pizza made me bloated\x22 (that\x27s trigger+dietary)",
    "",
    "4. general: Greetings, questions, opinions without health info",
    "",
    "EXAMPLES:",
    "Message: \x22I ate pizza and got bloated\x22",
    "→ \x7b\x22categories\x22:[\x22dietary\x22,\x22trigger\x22],\x22foodCategory\x22:\x22carbs\x22,\x22keywords\x22:[\x22pizza\x22,\x22bloating\x22],\x22summaries\x22:\x7b\x22dietary\x22:\x22Ate pizza\x22,\x22trigger\x22:\x22Pizza may trigger bloating - watch out\x22\x7d,\x22extractedSymptom\x22:\x22bloating\x22\x7d",
    "",
    "Message: \x22Spicy food gives me diarrhea\x22  ",
    "→ \x7b\x22categories\x22:[\x22trigger\x22],\x22foodCategory\x22:null,\x22keywords\x22:[\x22spicy\x22,\x22diarrhea\x22],\x22summaries\x22:\x7b\x22trigger\x22:\x22Spicy food may trigger diarrhea - watch out\x22\x7d,\x22extractedSymptom\x22:\x22diarrhea\x22\x7d",
    "",
    "Message: \x22I feel bloated\x22",
    "→ \x7b\x22categories\x22:[\x22symptom\x22],\x22foodCategory\x22:null,\x22keywords\x22:[\x22bloated\x22],\x22summaries\x22:\x7b\x22symptom\x22:\x22Experiencing bloating\x22\x7d,\x22extractedSymptom\x22:null\x7d",
    "",
    "Message: \x22I ate bread\x22",
    "→ \x7b\x22categories\x22:[\x22dietary\x22],\x22foodCategory\x22:\x22carbs\x22,\x22keywords\x22:[\x22bread\x22],\x22summaries\x22:\x7b\x22dietary\x22:\x22Ate bread\x22\x7d,\x22extractedSymptom\x22:null\x7d",
    "",
    "Message: "
  ]

/-- The constant `CATEGORIZATION_PROMPT`: its lines, joined by line feeds. -/
def CATEGORIZATION_PROMPT : JsString :=
  List.intercalate [Char.ofNat 10] (CATEGORIZATION_PROMPT.lines.map String.toList)

/-- One item of the `messages` array of the request. -/
structure ChatMessage where
  role : JsString
  content : JsString
  deriving DecidableEq, Repr

/-- The call `fetch(url, options)` of `categorizeMessage`: the url, the method, the
headers and the fields of the object that `JSON.stringify` turns into the body.
The temperature is kept as the text of its literal. -/
structure ClassifierRequest where
  url : JsString
  method : JsString
  contentType : JsString
  authorization : JsString
  model : JsString
  messages : List ChatMessage
  temperature : JsString
  max_tokens : Nat
  deriving DecidableEq, Repr

/-- The content of the system message of the request. -/
def categorizeMessage.systemContent : JsString :=
  ("You are a categorization assistant. Messages can have MULTIPLE categories. " ++
    "Return valid JSON only. Make summaries unique and descriptive. " ++
    "For triggers, extract symptom to extractedSymptom field.").toList

/-- The request `categorizeMessage` sends for a message. -/
def categorizeMessage.request (message groqApiKey : JsString) : ClassifierRequest :=
  { url := "https://api.groq.com/openai/v1/chat/completions".toList
    method := "POST".toList
    contentType := "application/json".toList
    authorization := "Bearer ".toList ++ groqApiKey
    model := "llama-3.3-70b-versatile".toList
    messages :=
      [{ role := "system".toList, content := categorizeMessage.systemContent },
        { role := "user".toList, content := CATEGORIZATION_PROMPT ++ message.take 500 }]
    temperature := "0.15".toList
    max_tokens := 200 }

/-! ## `getTrackingSummary` -/

namespace FOOD_CATEGORIES

/-- The label `FOOD_CATEGORIES.CARBS`. -/
def CARBS : JsString := "carbs".toList

/-- The label `FOOD_CATEGORIES.PROTEINS`. -/
def PROTEINS : JsString := "proteins".toList

/-- The label `FOOD_CATEGORIES.DAIRY`. -/
def DAIRY : JsString := "dairy".toList

/-- The label `FOOD_CATEGORIES.FIBRE`. -/
def FIBRE : JsString := "fibre".toList

end FOOD_CATEGORIES

/-- An item of the lists `symptoms` and `triggers` of the summary. -/
structure SummaryItem where
  summary : JsString
  keywords : List JsString
  timestamp : JsString
  deriving DecidableEq, Repr

/-- The object `dietary` of the summary. -/
structure DietaryCounts where
  carbs : Nat
  proteins : Nat
  dairy : Nat
  fibre : Nat
  deriving DecidableEq, Repr

/-- The object `getTrackingSummary` resolves to. -/
structure TrackingSummary where
  symptoms : List SummaryItem
  dietary : DietaryCounts
  triggers : List SummaryItem
  totalEntries : Nat
  deriving DecidableEq, Repr

/-- The projection `entry => ({ summary, keywords, timestamp })`. -/
def summaryItem (entry : TrackingEntry) : SummaryItem :=
  { summary := entry.summary, keywords := entry.keywords, timestamp := entry.timestamp }

/-- The test `entry.category === CATEGORIES.DIETARY && entry.foodCategory`: null and
the empty string are falsy. -/
def isCountedDietary (entry : TrackingEntry) : Bool :=
  entry.category == CATEGORIES.DIETARY &&
    (match entry.foodCategory with
      | some f => !f.isEmpty
      | none => false)

/-- The body of the `forEach` over the dietary entries: the count named by
`entry.foodCategory` goes up by one when `dietary` has that property. -/
def countFood (dietary : DietaryCounts) (entry : TrackingEntry) : DietaryCounts :=
  match entry.foodCategory with
  | some f =>
    if f = FOOD_CATEGORIES.CARBS then { dietary with carbs := dietary.carbs + 1 }
    else if f = FOOD_CATEGORIES.PROTEINS then { dietary with proteins := dietary.proteins + 1 }
    else if f = FOOD_CATEGORIES.DAIRY then { dietary with dairy := dietary.dairy + 1 }
    else if f = FOOD_CATEGORIES.FIBRE then { dietary with fibre := dietary.fibre + 1 }
    else dietary
  | none => dietary

/-- The function `getTrackingSummary`. On typed entries no statement of its `try`
block throws, so its `catch` block is not reached; a read that fails gives the
summary of the empty sequence, since `getTrackingData` then returns `[]`. -/
def getTrackingSummary (readFails : Bool) (st : Stored) : TrackingSummary :=
  let data := getTrackingData readFails st
  { symptoms := (data.filter (fun entry => entry.category == CATEGORIES.SYMPTOM)).map summaryItem
    dietary := (data.filter isCountedDietary).foldl countFood
      { carbs := 0, proteins := 0, dairy := 0, fibre := 0 }
    triggers := (data.filter (fun entry => entry.category == CATEGORIES.TRIGGER)).map summaryItem
    totalEntries := data.length }

/-! ## A reader of JSON texts

A reference implementation of `JSON.parse`, used to run `categorizeMessage` on
concrete replies. The theorems about `categorizeMessage` hold for every reader.
Escaped surrogate code units are not read. A number without fraction and
exponent is read to its digits; another number literal keeps its spelling,
which approximates the text JavaScript prints for it. -/

namespace Json

/-- The white space of the JSON grammar. -/
def isWs (ch : Char) : Bool :=
  ch = ' ' || ch = Char.ofNat 9 || ch = Char.ofNat 10 || ch = Char.ofNat 13

/-- Dropping leading white space. -/
def skipWs (s : JsString) : JsString :=
  s.dropWhile isWs

/-- The value of a hexadecimal digit. -/
def hexVal (ch : Char) : Option Nat :=
  let n := ch.toNat
  if 48 ≤ n ∧ n ≤ 57 then some (n - 48)
  else if 97 ≤ n ∧ n ≤ 102 then some (n - 87)
  else if 65 ≤ n ∧ n ≤ 70 then some (n - 55)
  else none

/-- The code unit of the four hexadecimal digits of an escape. -/
def hex4 (a b c d : Char) : Option Nat :=
  match hexVal a, hexVal b, hexVal c, hexVal d with
  | some x, some y, some z, some w => some (((x * 16 + y) * 16 + z) * 16 + w)
  | _, _, _, _ => none

/-- The character of a one-letter escape. -/
def escapeChar (ch : Char) : Option Char :=
  if ch = Char.ofNat 34 then some (Char.ofNat 34)
  else if ch = Char.ofNat 92 then some (Char.ofNat 92)
  else if ch = '/' then some '/'
  else if ch = 'b' then some (Char.ofNat 8)
  else if ch = 'f' then some (Char.ofNat 12)
  else if ch = 'n' then some (Char.ofNat 10)
  else if ch = 'r' then some (Char.ofNat 13)
  else if ch = 't' then some (Char.ofNat 9)
  else none

/-- Reading a string literal after its opening quote: the string and the text
after the closing quote. The first argument bounds the steps. -/
def readString : Nat → JsString → Option (JsString × JsString)
  | 0, _ => none
  | _ + 1, [] => none
  | fuel + 1, ch :: rest =>
    if ch = Char.ofNat 34 then some ([], rest)
    else if ch = Char.ofNat 92 then
      match rest with
      | [] => none
      | e :: rest1 =>
        if e = 'u' then
          match rest1 with
          | a :: b :: c :: d :: rest2 =>
            match hex4 a b c d with
            | some code =>
              if 55296 ≤ code ∧ code ≤ 57343 then none
              else (readString fuel rest2).map (fun r => (Char.ofNat code :: r.1, r.2))
            | none => none
          | _ => none
        else
          match escapeChar e with
          | some x => (readString fuel rest1).map (fun r => (x :: r.1, r.2))
          | none => none
    else if ch.toNat < 32 then none
    else (readString fuel rest).map (fun r => (ch :: r.1, r.2))

/-- Reading a number literal: the text of the number and the text after it. -/
def readNumber (s : JsString) : Option (JsString × JsString) :=
  let neg := s.head? = some '-'
  let s1 := if neg then s.drop 1 else s
  let intAll := s1.takeWhile Char.isDigit
  let intDigits := if intAll.head? = some '0' then ['0'] else intAll
  let s2 := s1.drop intDigits.length
  if intDigits = [] then none
  else
    let fracPart : Option (JsString × JsString) :=
      match s2 with
      | '.' :: r =>
        if (r.takeWhile Char.isDigit) = [] then none
        else some ('.' :: r.takeWhile Char.isDigit, r.dropWhile Char.isDigit)
      | _ => some ([], s2)
    match fracPart with
    | none => none
    | some (frac, s3) =>
      let expPart : Option (JsString × JsString) :=
        match s3 with
        | e :: r =>
          if e = 'e' ∨ e = 'E' then
            let sign := if r.head? = some '-' ∨ r.head? = some '+' then r.take 1 else []
            let r1 := r.drop sign.length
            if (r1.takeWhile Char.isDigit) = [] then none
            else some (e :: sign ++ r1.takeWhile Char.isDigit, r1.dropWhile Char.isDigit)
          else some ([], s3)
        | [] => some ([], s3)
      match expPart with
      | none => none
      | some (ex, s4) =>
        if (intDigits ++ frac).all (fun ch => ch = '0' || ch = '.') then some ("0".toList, s4)
        else some ((if neg then ['-'] else []) ++ intDigits ++ frac ++ ex, s4)

mutual
/-- Reading a value; the first argument bounds the depth of the calls. -/
def readValue : Nat → JsString → Option (JVal × JsString)
  | 0, _ => none
  | fuel + 1, s =>
    match skipWs s with
    | [] => none
    | ch :: r =>
      if ch = Char.ofNat 123 then
        match skipWs r with
        | ch1 :: r1 => if ch1 = Char.ofNat 125 then some (.obj [], r1) else readMembers fuel r []
        | [] => none
      else if ch = '[' then
        match skipWs r with
        | ch1 :: r1 => if ch1 = ']' then some (.arr [], r1) else readItems fuel r []
        | [] => none
      else if ch = Char.ofNat 34 then
        (readString r.length r).map (fun p => (JVal.str p.1, p.2))
      else if "true".toList.isPrefixOf (ch :: r) then some (.bool true, (ch :: r).drop 4)
      else if "false".toList.isPrefixOf (ch :: r) then some (.bool false, (ch :: r).drop 5)
      else if "null".toList.isPrefixOf (ch :: r) then some (.null, (ch :: r).drop 4)
      else (readNumber (ch :: r)).map (fun p => (JVal.num p.1, p.2))
/-- Reading the items of an array after the opening bracket. -/
def readItems : Nat → JsString → List JVal → Option (JVal × JsString)
  | 0, _, _ => none
  | fuel + 1, s, acc =>
    match readValue fuel s with
    | none => none
    | some (v, r) =>
      match skipWs r with
      | ch :: r1 =>
        if ch = ',' then readItems fuel r1 (acc ++ [v])
        else if ch = ']' then some (.arr (acc ++ [v]), r1)
        else none
      | [] => none
/-- Reading the members of an object after the opening brace: a repeated key
keeps its place and takes the last value. -/
def readMembers : Nat → JsString → List (JsString × JVal) → Option (JVal × JsString)
  | 0, _, _ => none
  | fuel + 1, s, acc =>
    match skipWs s with
    | ch :: r =>
      if ch = Char.ofNat 34 then
        match readString r.length r with
        | none => none
        | some (key, r1) =>
          match skipWs r1 with
          | ch1 :: r2 =>
            if ch1 = ':' then
              match readValue fuel r2 with
              | none => none
              | some (v, r3) =>
                match skipWs r3 with
                | ch2 :: r4 =>
                  if ch2 = ',' then readMembers fuel r4 (setMember acc key v)
                  else if ch2 = Char.ofNat 125 then some (.obj (setMember acc key v), r4)
                  else none
                | [] => none
            else none
          | [] => none
      else none
    | [] => none
end

/-- The reader: the value of a text that is one JSON value between white space,
and `none` for any other text. -/
def parse (s : JsString) : Option JVal :=
  match readValue (s.length + 1) s with
  | some (v, rest) => if skipWs rest = [] then some v else none
  | none => none

end Json

/-- The category set of the list is exactly the set with the one label general. -/
def IsExactlyGeneral (categories : List JsString) : Prop :=
  categories ≠ [] ∧ ∀ x ∈ categories, x = CATEGORIES.GENERAL

/-! ## Example data -/

namespace Example

/-- A platform on which no AsyncStorage call rejects; call `k` gets an id of its own. -/
def okEnvs : Nat → CallEnv := fun k =>
  { id := List.replicate (k + 1) 'i'
    timestamp := "2024-05-01T10:00:00.000Z".toList
    readFails := false
    writeFails := false }

/-- A platform on which `setItem` rejects in the first call, and in no other. -/
def firstWriteFails : Nat → CallEnv := fun k =>
  { id := List.replicate (k + 1) 'i'
    timestamp := "2024-05-01T10:00:00.000Z".toList
    readFails := false
    writeFails := decide (k = 0) }

/-- The message of the example scenario. -/
def pizzaMessage : JsString := "I ate pizza and got bloated".toList

/-- The categorization of the example scenario. -/
def pizza : Categorization :=
  { categories := [CATEGORIES.DIETARY, CATEGORIES.TRIGGER]
    foodCategory := some "carbs".toList
    keywords := ["pizza".toList, "bloating".toList]
    summaries := [(CATEGORIES.DIETARY, "Ate pizza".toList),
      (CATEGORIES.TRIGGER, "Pizza may trigger bloating - watch out".toList)]
    extractedSymptom := some "bloating".toList }

/-- A second message. -/
def breadMessage : JsString := "I ate bread".toList

/-- A categorization that lists general together with dietary. -/
def generalAndDietary : Categorization :=
  { categories := [CATEGORIES.GENERAL, CATEGORIES.DIETARY]
    foodCategory := some "carbs".toList
    keywords := ["bread".toList]
    summaries := [(CATEGORIES.DIETARY, "Ate bread".toList)]
    extractedSymptom := none }

/-- A categorization whose summary for dietary is the empty string. -/
def emptySummary : Categorization :=
  { categories := [CATEGORIES.DIETARY]
    foodCategory := some "carbs".toList
    keywords := ["bread".toList]
    summaries := [(CATEGORIES.DIETARY, [])]
    extractedSymptom := none }

/-- A categorization that lists trigger together with general. -/
def triggerAndGeneral : Categorization :=
  { categories := [CATEGORIES.TRIGGER, CATEGORIES.GENERAL]
    foodCategory := none
    keywords := ["pizza".toList]
    summaries := [(CATEGORIES.TRIGGER, "Pizza may trigger bloating - watch out".toList)]
    extractedSymptom := some "bloating".toList }

/-- A categorization with trigger whose extracted symptom is the empty string. -/
def emptySymptom : Categorization :=
  { categories := [CATEGORIES.TRIGGER]
    foodCategory := none
    keywords := ["pizza".toList]
    summaries := [(CATEGORIES.TRIGGER, "Pizza may trigger bloating - watch out".toList)]
    extractedSymptom := some [] }

/-- A categorization with the one category general. -/
def onlyGeneral : Categorization :=
  { categories := [CATEGORIES.GENERAL]
    foodCategory := none
    keywords := []
    summaries := [(CATEGORIES.GENERAL, "Greeting".toList)]
    extractedSymptom := none }

/-- An entry as `sendMessage` hands it over. -/
def breadEntry : EntryFields :=
  { message := breadMessage
    isUser := true
    category := CATEGORIES.DIETARY
    foodCategory := some "carbs".toList
    keywords := ["bread".toList]
    summary := "Ate bread".toList }

end Example

/-- The text wrapped in a fence marked json: the fence, a line feed, the text, a
line feed, the fence. -/
def wrapJsonFence (j : JsString) : JsString :=
  "```json".toList ++ Char.ofNat 10 :: (j ++ Char.ofNat 10 :: "```".toList)

/-- The text wrapped in a plain fence: the fence, a line feed, the text, a line
feed, the fence. -/
def wrapFence (j : JsString) : JsString :=
  "```".toList ++ Char.ofNat 10 :: (j ++ Char.ofNat 10 :: "```".toList)

/-- The text between two single backticks. -/
def wrapBackticks (j : JsString) : JsString :=
  Char.ofNat 96 :: (j ++ [Char.ofNat 96])

/-- The properties of `result` that `categorizeMessage` reads. -/
def categorizeMessage.fieldNames : List JsString :=
  ["categories".toList, "category".toList, "summaries".toList, "summary".toList,
    "foodCategory".toList, "keywords".toList, "extractedSymptom".toList]

/-- The value is one of the four category labels. -/
def IsCategory (v : JVal) : Prop :=
  v = .str CATEGORIES.SYMPTOM ∨ v = .str CATEGORIES.DIETARY ∨
    v = .str CATEGORIES.TRIGGER ∨ v = .str CATEGORIES.GENERAL

namespace Example

/-- A message of 78 characters. -/
def longMessage : JsString := List.replicate 78 'a'

/-- A reply that is a number. -/
def numberReply : JsString := "5".toList

/-- A reply with an empty list of categories. -/
def emptyCategoriesReply : JsString := "\x7b\x22categories\x22:[]\x7d".toList

/-- A reply with a label that is no category. -/
def unknownLabelReply : JsString := "\x7b\x22categories\x22:[\x22mood\x22]\x7d".toList

/-- A reply with six keywords and the legacy field `category`. -/
def sixKeywordsReply : JsString :=
  ("\x7b\x22category\x22:\x22dietary\x22,\x22summary\x22:\x22Ate bread\x22," ++
    "\x22keywords\x22:[\x22a\x22,\x22b\x22,\x22c\x22,\x22d\x22,\x22e\x22," ++
    "\x22f\x22]\x7d").toList

/-- A reply whose `summaries` is a number. -/
def summariesNumberReply : JsString :=
  ("\x7b\x22categories\x22:[\x22dietary\x22],\x22keywords\x22:[\x22bread\x22]," ++
    "\x22summaries\x22:5\x7d").toList

/-- A reply whose category is an object with a member `toString`. -/
def toStringCategoryReply : JsString :=
  ("\x7b\x22categories\x22:[\x7b\x22toString\x22:1\x7d]," ++
    "\x22keywords\x22:[\x22a\x22]\x7d").toList

/-- A reply with the categories `__proto__` and dietary. -/
def protoCategoryReply : JsString :=
  "\x7b\x22categories\x22:[\x22__proto__\x22,\x22dietary\x22]\x7d".toList

/-- The value of `sixKeywordsReply`. -/
def sixKeywordsValue : JVal :=
  .obj [("category".toList, .str "dietary".toList), ("summary".toList, .str "Ate bread".toList),
    ("keywords".toList, .arr [.str "a".toList, .str "b".toList, .str "c".toList,
      .str "d".toList, .str "e".toList, .str "f".toList])]

/-- The object `categorizeMessage` returns for `sixKeywordsReply`. -/
def sixKeywordsObject : CategorizationObject :=
  { categories := [.str "dietary".toList]
    foodCategory := .null
    keywords := [.str "a".toList, .str "b".toList, .str "c".toList, .str "d".toList,
      .str "e".toList]
    summaries := .obj [("dietary".toList, .str "Ate bread".toList)]
    extractedSymptom := .null }

end Example

namespace Example

/-- A call in which `getItem` rejects and `setItem` does not. -/
def readFailsEnv : CallEnv :=
  { id := "r".toList
    timestamp := "2024-05-02T10:00:00.000Z".toList
    readFails := true
    writeFails := false }

/-- A call in which `setItem` rejects and `getItem` does not. -/
def writeFailsEnv : CallEnv :=
  { id := "w".toList
    timestamp := "2024-05-02T10:00:00.000Z".toList
    readFails := false
    writeFails := true }

/-- A store that holds the entry "Ate bread". -/
def breadStore : Stored :=
  .entries [newEntry (okEnvs 0) breadEntry]

/-- The summary of the empty sequence. -/
def noEntries : TrackingSummary :=
  { symptoms := []
    dietary := { carbs := 0, proteins := 0, dairy := 0, fibre := 0 }
    triggers := []
    totalEntries := 0 }

end Example

/-! ## `handleManualCategoryChange` (`ChatUI.js`) -/

/-- The read `c.key` of a property on the object `categorizeMessage` resolves to,
for a `key` that is none of `inheritedNames`. The object is made by a literal
with five properties, in the `try` block and in the `catch` block alike, and
has no other own property; the other names the code reads on it (`category`,
`summary`) are not inherited either, and read as undefined. -/
def CategorizationObject.get (c : CategorizationObject) (key : JsString) : JVal :=
  if key = "categories".toList then .arr c.categories
  else if key = "foodCategory".toList then c.foodCategory
  else if key = "keywords".toList then .arr c.keywords
  else if key = "summaries".toList then c.summaries
  else if key = "extractedSymptom".toList then c.extractedSymptom
  else .undefined

/-- The test `v === s` for a string `s`: it holds when `v` is the same string, and
for no value of another type. -/
def JVal.strictEqualsString (v : JVal) (s : JsString) : Bool :=
  match v with
  | .str t => t == s
  | _ => false

/-- The object `handleManualCategoryChange` hands to `saveTrackingEntry`. Three of
its fields are read from the validation as they are. -/
structure ManualEntry where
  message : JsString
  isUser : Bool
  category : JsString
  foodCategory : JVal
  keywords : JVal
  summary : JVal

/-- What one call of `handleManualCategoryChange` does. -/
inductive ManualChange where
  /-- The branch of the agreement: `saveTrackingEntry` is called with `entry` and,
  when the call resolves, `categorizations[messageId]` is set to
  `{ ...validation, saved: true, justSaved: true }`. -/
  | accepted (entry : ManualEntry) (validation : CategorizationObject)
  /-- The other branch: the alert with the title "Invalid Category" and this text
  is shown, and nothing else is done. -/
  | refused (alertText : JsString)
  /-- The `catch` block: a statement of the `try` block threw, and the error is
  logged. -/
  | failed (e : JsError)

/-- The entry handed to `saveTrackingEntry`, when the call is made. -/
def ManualChange.entry? : ManualChange → Option ManualEntry
  | .accepted entry _ => some entry
  | .refused _ => none
  | .failed _ => none

/-- The value spread into `categorizations[messageId]`, when one is set. -/
def ManualChange.categorization? : ManualChange → Option CategorizationObject
  | .accepted _ validation => some validation
  | .refused _ => none
  | .failed _ => none

/-- The message `handleManualCategoryChange` sends to the classifier. -/
def handleManualCategoryChange.question (messageText newCategory : JsString) : JsString :=
  "VALIDATE: Does it make sense to categorize \x22".toList ++ messageText ++
    "\x22 as \x22".toList ++ newCategory ++ "\x22? If yes, categorize it as ".toList ++
    newCategory ++ ". If no, use the original best category.".toList

/-- The function `handleManualCategoryChange`, for a requested category that is a
string. The classifier is asked through `categorizeMessage`, and the change is
made when `validation.category === newCategory`. The id of the message names
the badge to set and plays no other part. -/
def handleManualCategoryChange (strictCode : Bool) (parse : JsString → Option JVal)
    (messageText newCategory : JsString) (outcome : ClassifierOutcome) : ManualChange :=
  match categorizeMessage strictCode parse
      (handleManualCategoryChange.question messageText newCategory) outcome with
  | .error e => .failed e
  | .ok validation =>
    if (validation.get "category".toList).strictEqualsString newCategory then
      .accepted
        { message := messageText
          isUser := true
          category := newCategory
          foodCategory := validation.get "foodCategory".toList
          keywords := validation.get "keywords".toList
          summary := validation.get "summary".toList }
        validation
    else
      match (validation.get "category".toList).toText with
      | .error e => .failed e
      | .ok kept =>
        .refused ("This message doesn\x27t fit the \x22".toList ++ newCategory ++
          "\x22 category. Keeping as \x22".toList ++ kept ++ "\x22.".toList)

namespace Example

/-- A reply of the classifier that agrees with the requested category "symptom". -/
def agreeingReply : JsString :=
  "\x7b\x22categories\x22:[\x22symptom\x22],\x22category\x22:\x22symptom\x22\x7d".toList

end Example

/-! ## Numbers and the percentages (`Report.js`, `Tracker.js`)

The counts of the summary are integers, which a Number holds exactly below
`2 ^ 53`. The quotient and the product of two Numbers are the doubles nearest
to the exact quotient and product, the one with the even significand of two
equally near (IEEE 754 binary64, round to nearest, ties to even). A finite
non-negative double is carried as the fraction it denotes. The range of the
exponent is not modelled: a quotient of two positive counts lies between
`2 ^ (-53)` and `2 ^ 53`, and its product with 100 below `2 ^ 60`, far from the
subnormal numbers and from the overflow. -/

/-- The exponent `a` with `2 ^ a ≤ n < 2 ^ (a + 1)`, for a positive `n`. The first
argument bounds the steps; `n` itself is enough. -/
def floorLog2 : Nat → Nat → Nat
  | 0, _ => 0
  | fuel + 1, n => if n < 2 then 0 else floorLog2 fuel (n / 2) + 1

/-- The integer nearest to `n / d`, the even one of two equally near. -/
def roundHalfEven (n d : Nat) : Nat :=
  if 2 * (n % d) < d then n / d
  else if d < 2 * (n % d) then n / d + 1
  else if n / d % 2 = 0 then n / d
  else n / d + 1

/-- A finite non-negative Number: the double that is the fraction `num / den`. -/
structure Double where
  num : Nat
  den : Nat
  deriving DecidableEq, Repr

/-- The double nearest to `n / d`, for a positive `d`: with
`2 ^ e ≤ n / d < 2 ^ (e + 1)`, the multiple of `2 ^ (e - 52)` nearest to
`n / d`, which has a significand of 53 bits. -/
def Double.ofRatio (n d : Nat) : Double :=
  if n = 0 then { num := 0, den := 1 }
  else
    let a := floorLog2 n n
    let b := floorLog2 d d
    if d * 2 ^ a ≤ n * 2 ^ b then
      { num := roundHalfEven (n * 2 ^ (b + 52)) (d * 2 ^ a) * 2 ^ a, den := 2 ^ (b + 52) }
    else
      { num := roundHalfEven (n * 2 ^ (b + 53)) (d * 2 ^ a) * 2 ^ a, den := 2 ^ (b + 53) }

/-- The Number of an integer, exact below `2 ^ 53`. -/
def Double.ofNat (n : Nat) : Double :=
  { num := n, den := 1 }

/-- The operator `x / y`: `none` when `y` is zero, where the result is Infinity or
NaN and no finite number. -/
def Double.div (x y : Double) : Option Double :=
  if y.num = 0 then none else some (Double.ofRatio (x.num * y.den) (x.den * y.num))

/-- The operator `x * y`. -/
def Double.mul (x y : Double) : Double :=
  Double.ofRatio (x.num * y.num) (x.den * y.den)

/-- The function `Math.round` on a finite non-negative Number: the nearest integer,
the larger one of two equally near, which is the floor of `x + 1/2`. -/
def Math.round (x : Double) : Nat :=
  (2 * x.num + x.den) / (2 * x.den)

/-- The sum `summary.dietary.carbs + summary.dietary.proteins +
summary.dietary.dairy + summary.dietary.fibre` of both screens. -/
def dietaryTotal (dietary : DietaryCounts) : Nat :=
  dietary.carbs + dietary.proteins + dietary.dairy + dietary.fibre

/-- The expression `(count / total) * 100` of both screens; `none` when the value
is no finite number. -/
def percentOfTotal (count total : Nat) : Option Double :=
  (Double.div (Double.ofNat count) (Double.ofNat total)).map
    (fun quotient => Double.mul quotient (Double.ofNat 100))

/-- The cell `dietaryTotal > 0 ? Math.round((count / dietaryTotal) * 100) : 0` of
the table of `generateHTMLReport`: the number printed before the percent sign. -/
def generateHTMLReport.percentage (count dietaryTotal : Nat) : Option Nat :=
  if dietaryTotal > 0 then (percentOfTotal count dietaryTotal).map Math.round else some 0

/-- A row of the table: the count and the percentage printed for it. -/
structure NutritionRow where
  count : Nat
  percentage : Option Nat
  deriving DecidableEq, Repr

/-- The content of the section "Nutritional Intake Analysis" of the report. -/
inductive NutritionSection where
  /-- The text "No dietary data recorded during tracking period." -/
  | emptyFinding
  /-- The table: the four rows, and the row of the total, which prints the total
  and the fixed text "100%". -/
  | table (carbs proteins dairy fibre : NutritionRow) (totalEntries : Nat)
  deriving DecidableEq, Repr

/-- The section of `generateHTMLReport` on the dietary counts:
`dietaryTotal === 0 ? (the empty finding) : (the table)`. -/
def generateHTMLReport.nutritionSection (dietary : DietaryCounts) : NutritionSection :=
  if dietaryTotal dietary = 0 then .emptyFinding
  else
    .table
      { count := dietary.carbs
        percentage := generateHTMLReport.percentage dietary.carbs (dietaryTotal dietary) }
      { count := dietary.proteins
        percentage := generateHTMLReport.percentage dietary.proteins (dietaryTotal dietary) }
      { count := dietary.dairy
        percentage := generateHTMLReport.percentage dietary.dairy (dietaryTotal dietary) }
      { count := dietary.fibre
        percentage := generateHTMLReport.percentage dietary.fibre (dietaryTotal dietary) }
      (dietaryTotal dietary)

/-- The object `getDietaryPercentages` of the tracker screen returns. -/
structure DietaryPercentages where
  carbs : Option Double
  proteins : Option Double
  dairy : Option Double
  fibre : Option Double
  deriving DecidableEq, Repr

/-- The function `getDietaryPercentages` of `Tracker.js`: null when the total is
zero. -/
def getDietaryPercentages (dietary : DietaryCounts) : Option DietaryPercentages :=
  if dietaryTotal dietary = 0 then none
  else
    some
      { carbs := percentOfTotal dietary.carbs (dietaryTotal dietary)
        proteins := percentOfTotal dietary.proteins (dietaryTotal dietary)
        dairy := percentOfTotal dietary.dairy (dietaryTotal dietary)
        fibre := percentOfTotal dietary.fibre (dietaryTotal dietary) }

/-- The percentage rounded with the halves up: the floor of `100 * c / T + 1/2`,
as the specification words the rounding. -/
def roundHalfUpPercentage (c T : Nat) : Nat :=
  (200 * c + T) / (2 * T)

/-- The sum of the four percentages printed in the table, when the table is
printed with four numbers. -/
def NutritionSection.percentageSum : NutritionSection → Option Nat
  | .table carbs proteins dairy fibre _ =>
    match carbs.percentage, proteins.percentage, dairy.percentage, fibre.percentage with
    | some a, some b, some c, some d => some (a + b + c + d)
    | _, _, _, _ => none
  | .emptyFinding => none

/-! ## Theorems -/

theorem isDuplicate_eq_true_iff (es : List TrackingEntry) (entry : EntryFields) :
    isDuplicate es entry = true ↔
      ∃ e ∈ es, e.category = entry.category ∧ e.summary = entry.summary := by
  simp [isDuplicate, sameKey, List.any_eq_true]

theorem isDuplicate_eq_false_iff (es : List TrackingEntry) (entry : EntryFields) :
    isDuplicate es entry = false ↔
      ∀ e ∈ es, ¬ (e.category = entry.category ∧ e.summary = entry.summary) := by
  rw [← Bool.not_eq_true, isDuplicate_eq_true_iff]
  constructor
  · intro h e he hk
    exact h ⟨e, he, hk⟩
  · rintro h ⟨e, he, hk⟩
    exact h e he hk

theorem saveTrackingEntry_of_duplicate (env : CallEnv) (st : Stored) (entry : EntryFields)
    (hread : env.readFails = false)
    (h : isDuplicate (getTrackingData false st) entry = true) :
    saveTrackingEntry env st entry = (.ok none, st) := by
  unfold saveTrackingEntry
  rw [hread]
  simp only [h, if_true]

theorem saveTrackingEntry_of_new (env : CallEnv) (st : Stored) (entry : EntryFields)
    (hread : env.readFails = false) (hwrite : env.writeFails = false)
    (h : isDuplicate (getTrackingData false st) entry = false) :
    saveTrackingEntry env st entry =
      (.ok (some (newEntry env entry)),
        .entries (getTrackingData false st ++ [newEntry env entry])) := by
  unfold saveTrackingEntry
  rw [hread, hwrite]
  simp only [h, Bool.false_eq_true, if_false]

theorem noDuplicateKey_getTrackingData (b : Bool) (st : Stored)
    (h : NoDuplicateKey (getTrackingData false st)) :
    NoDuplicateKey (getTrackingData b st) := by
  cases b
  · exact h
  · simp [getTrackingData, NoDuplicateKey]

theorem noDuplicateKey_append (es : List TrackingEntry) (env : CallEnv) (entry : EntryFields)
    (h : NoDuplicateKey es) (hd : isDuplicate es entry = false) :
    NoDuplicateKey (es ++ [newEntry env entry]) := by
  unfold NoDuplicateKey at *
  rw [List.pairwise_append]
  refine ⟨h, List.pairwise_singleton _ _, ?_⟩
  intro a ha b hb
  rw [List.mem_singleton] at hb
  subst hb
  exact (isDuplicate_eq_false_iff es entry).1 hd a ha

theorem noDuplicateKey_save (env : CallEnv) (st : Stored) (entry : EntryFields)
    (h : NoDuplicateKey (getTrackingData false st)) :
    NoDuplicateKey (getTrackingData false (saveTrackingEntry env st entry).2) := by
  unfold saveTrackingEntry
  by_cases hd : isDuplicate (getTrackingData env.readFails st) entry = true
  · simpa [hd] using h
  · rw [Bool.not_eq_true] at hd
    by_cases hw : env.writeFails = true
    · simpa [hd, hw] using h
    · simp only [hd, hw, Bool.false_eq_true, if_false]
      simpa [getTrackingData] using
        noDuplicateKey_append _ env entry (noDuplicateKey_getTrackingData _ st h) hd

theorem noDuplicateKey_run (st : Stored) (c : StoreCall)
    (h : NoDuplicateKey (getTrackingData false st)) :
    NoDuplicateKey (getTrackingData false (c.run st)) := by
  cases c with
  | save env entry => exact noDuplicateKey_save env st entry h
  | clear removeFails =>
    cases removeFails
    · simp [StoreCall.run, clearTrackingData, getTrackingData, NoDuplicateKey]
    · simpa [StoreCall.run, clearTrackingData] using h

theorem noDuplicateKey_runCalls (calls : List StoreCall) (st : Stored)
    (h : NoDuplicateKey (getTrackingData false st)) :
    NoDuplicateKey (getTrackingData false (runCalls st calls)) := by
  induction calls generalizing st with
  | nil => exact h
  | cons c rest ih => exact ih (c.run st) (noDuplicateKey_run st c h)

/-- C1. Starting from the empty store, after any sequence of `saveTrackingEntry`
and `clearTrackingData` calls, no two persisted entries have the same category
and the same summary. The sequence is arbitrary: the property holds when no
AsyncStorage call rejects, and also when some do. -/
theorem C1_no_duplicate_key (calls : List StoreCall) :
    NoDuplicateKey (getTrackingData false (runCalls .absent calls)) :=
  noDuplicateKey_runCalls calls .absent (by simp [getTrackingData, NoDuplicateKey])

/-- C2. When the stored collection, as the read delivers it, has an entry with the
category and the summary of the given entry, `saveTrackingEntry` resolves to
null (it does not throw) and the stored collection is left as it was. -/
theorem C2_duplicate_returns_null (env : CallEnv) (es : List TrackingEntry)
    (entry : EntryFields) (hread : env.readFails = false)
    (hdup : ∃ e ∈ es, e.category = entry.category ∧ e.summary = entry.summary) :
    saveTrackingEntry env (.entries es) entry = (.ok none, .entries es) := by
  have h : isDuplicate es entry = true := (isDuplicate_eq_true_iff es entry).2 hdup
  simp [saveTrackingEntry, getTrackingData, hread, h]

/-- C2, witness: the entry "Ate bread" is stored, and the same entry is handed over. -/
theorem C2_duplicate_returns_null_witness :
    saveTrackingEntry (Example.okEnvs 1) (.entries [newEntry (Example.okEnvs 0) Example.breadEntry])
        Example.breadEntry =
      (.ok none, .entries [newEntry (Example.okEnvs 0) Example.breadEntry]) :=
  C2_duplicate_returns_null (Example.okEnvs 1) [newEntry (Example.okEnvs 0) Example.breadEntry]
    Example.breadEntry rfl
    ⟨newEntry (Example.okEnvs 0) Example.breadEntry, List.mem_singleton.2 rfl, rfl, rfl⟩

/-- C3. When no stored entry has the category and the summary of the given entry
and no AsyncStorage call rejects, `saveTrackingEntry` resolves to a new entry
that carries the given category, message, foodCategory, keywords and summary
(indeed every given field) unchanged, and the stored collection afterwards is
the previous sequence, in its order, followed by exactly that entry. -/
theorem C3_new_entry_is_appended (env : CallEnv) (st : Stored) (entry : EntryFields)
    (hread : env.readFails = false) (hwrite : env.writeFails = false)
    (hnew : ∀ e ∈ getTrackingData false st,
      ¬ (e.category = entry.category ∧ e.summary = entry.summary)) :
    ∃ e : TrackingEntry,
      (saveTrackingEntry env st entry).1 = .ok (some e) ∧
      e.category = entry.category ∧ e.message = entry.message ∧
      e.foodCategory = entry.foodCategory ∧ e.keywords = entry.keywords ∧
      e.summary = entry.summary ∧ e.toEntryFields = entry ∧
      getTrackingData false (saveTrackingEntry env st entry).2 =
        getTrackingData false st ++ [e] := by
  have h : isDuplicate (getTrackingData false st) entry = false :=
    (isDuplicate_eq_false_iff _ entry).2 hnew
  rw [saveTrackingEntry_of_new env st entry hread hwrite h]
  exact ⟨newEntry env entry, rfl, rfl, rfl, rfl, rfl, rfl, rfl, rfl⟩

/-- C3, witness: the entry "Ate bread" is handed over on the empty store. -/
theorem C3_new_entry_is_appended_witness :
    ∃ e : TrackingEntry,
      (saveTrackingEntry (Example.okEnvs 0) .absent Example.breadEntry).1 = .ok (some e) ∧
      e.category = Example.breadEntry.category ∧ e.message = Example.breadEntry.message ∧
      e.foodCategory = Example.breadEntry.foodCategory ∧
      e.keywords = Example.breadEntry.keywords ∧
      e.summary = Example.breadEntry.summary ∧ e.toEntryFields = Example.breadEntry ∧
      getTrackingData false (saveTrackingEntry (Example.okEnvs 0) .absent Example.breadEntry).2 =
        getTrackingData false .absent ++ [e] :=
  C3_new_entry_is_appended (Example.okEnvs 0) .absent Example.breadEntry rfl rfl
    (by intro e he; simp [getTrackingData] at he)

/-! ### The calls of one `sendMessage` -/

theorem saveAll_nil (envs : Nat → CallEnv) (k : Nat) (st : Stored) :
    saveAll envs k st [] = { store := st, log := [], error := none } := by
  cases k <;> rfl

theorem saveAll_cons_ok (envs : Nat → CallEnv) (k : Nat) (st st1 : Stored)
    (entry : EntryFields) (rest : List EntryFields) (r : Option TrackingEntry)
    (h : saveTrackingEntry (envs k) st entry = (.ok r, st1)) :
    saveAll envs k st (entry :: rest) =
      { store := (saveAll envs (k + 1) st1 rest).store
        log := (entry, r) :: (saveAll envs (k + 1) st1 rest).log
        error := (saveAll envs (k + 1) st1 rest).error } := by
  simp only [saveAll, h]

theorem saveAll_cons_error (envs : Nat → CallEnv) (k : Nat) (st st1 : Stored)
    (entry : EntryFields) (rest : List EntryFields) (e : JsError)
    (h : saveTrackingEntry (envs k) st entry = (.error e, st1)) :
    saveAll envs k st (entry :: rest) = { store := st1, log := [], error := some e } := by
  simp only [saveAll, h]

theorem saveAll_append (envs : Nat → CallEnv) (xs ys : List EntryFields) (k : Nat)
    (st : Stored) :
    saveAll envs k st (xs ++ ys) =
      match (saveAll envs k st xs).error with
      | some _ => saveAll envs k st xs
      | none =>
        { store := (saveAll envs (k + xs.length) (saveAll envs k st xs).store ys).store
          log := (saveAll envs k st xs).log ++
            (saveAll envs (k + xs.length) (saveAll envs k st xs).store ys).log
          error := (saveAll envs (k + xs.length) (saveAll envs k st xs).store ys).error } := by
  induction xs generalizing k st with
  | nil => simp [saveAll_nil]
  | cons x rest ih =>
    rcases h : saveTrackingEntry (envs k) st x with ⟨e | r, st1⟩
    · simp [saveAll_cons_error envs k st st1 x _ e h]
    · rw [List.cons_append, saveAll_cons_ok envs k st st1 x _ r h,
        saveAll_cons_ok envs k st st1 x _ r h, ih]
      have hk : k + 1 + rest.length = k + (x :: rest).length := by
        simp only [List.length_cons]; omega
      rw [hk]
      rcases hE : (saveAll envs (k + 1) st1 rest).error with _ | e <;> simp [hE]

theorem saveStep_eq_saveAll (envs : Nat → CallEnv) (userMessageText : JsString)
    (c : Categorization) (st : Stored) :
    sendMessage.saveStep envs userMessageText c st = saveAll envs 0 st (writes userMessageText c) := by
  unfold sendMessage.saveStep writes sendMessage.saveLoop
  rw [saveAll_append]
  simp only [List.length_map, Nat.zero_add]
  cases h : (saveAll envs 0 st (c.categories.map (primaryEntry userMessageText c))).error with
  | some e => rfl
  | none =>
    cases secondarySymptom c with
    | some x => rfl
    | none =>
      simp only [Option.toList, List.map_nil, saveAll_nil, List.append_nil]
      rw [← h]

theorem saveTrackingEntry_noFailure (env : CallEnv) (st : Stored) (entry : EntryFields)
    (hread : env.readFails = false) (hwrite : env.writeFails = false) :
    ∃ st1, saveTrackingEntry env st entry =
        (.ok (if isDuplicate (getTrackingData false st) entry then none
          else some (newEntry env entry)), st1) ∧
      getTrackingData false st1 = getTrackingData false st ++
        (if isDuplicate (getTrackingData false st) entry then none
          else some (newEntry env entry)).toList := by
  by_cases h : isDuplicate (getTrackingData false st) entry = true
  · refine ⟨st, ?_, ?_⟩
    · rw [saveTrackingEntry_of_duplicate env st entry hread h]; simp [h]
    · simp [h]
  · rw [Bool.not_eq_true] at h
    refine ⟨.entries (getTrackingData false st ++ [newEntry env entry]), ?_, ?_⟩
    · rw [saveTrackingEntry_of_new env st entry hread hwrite h]; simp [h]
    · rw [h]
      rfl

theorem filterMap_snd_cons (entry : EntryFields) (r : Option TrackingEntry)
    (log : List (EntryFields × Option TrackingEntry)) :
    ((entry, r) :: log).filterMap Prod.snd = r.toList ++ log.filterMap Prod.snd := by
  cases r <;> simp [List.filterMap_cons]

theorem saveAll_noFailure (envs : Nat → CallEnv) (hok : NoFailure envs)
    (entries : List EntryFields) (k : Nat) (st : Stored) :
    (saveAll envs k st entries).error = none ∧
    (saveAll envs k st entries).log.map Prod.fst = entries ∧
    getTrackingData false (saveAll envs k st entries).store =
      getTrackingData false st ++ (saveAll envs k st entries).log.filterMap Prod.snd ∧
    ∀ i entry, entries[i]? = some entry →
      ((saveAll envs k st entries).log.map Prod.snd)[i]? =
        some (if isDuplicate (getTrackingData false st ++
            ((saveAll envs k st entries).log.take i).filterMap Prod.snd) entry then none
          else some (newEntry (envs (k + i)) entry)) := by
  induction entries generalizing k st with
  | nil => simp [saveAll_nil]
  | cons x rest ih =>
    obtain ⟨st1, hsave, hget⟩ :=
      saveTrackingEntry_noFailure (envs k) st x (hok k).1 (hok k).2
    obtain ⟨h1, h2, h3, h4⟩ := ih (k + 1) st1
    rw [saveAll_cons_ok envs k st st1 x rest _ hsave]
    refine ⟨h1, by simp [h2], ?_, ?_⟩
    · simp only [filterMap_snd_cons]
      rw [h3, hget, List.append_assoc]
    · intro i entry hi
      cases i with
      | zero =>
        simp only [List.getElem?_cons_zero, Option.some.injEq] at hi
        subst hi
        simp
      | succ j =>
        simp only [List.getElem?_cons_succ] at hi
        have := h4 j entry hi
        simp only [List.map_cons, List.getElem?_cons_succ, List.take_succ_cons,
          filterMap_snd_cons]
        rw [this, hget, List.append_assoc]
        have hk : k + 1 + j = k + (j + 1) := by omega
        rw [hk]

theorem isDuplicate_append (xs ys : List TrackingEntry) (entry : EntryFields) :
    isDuplicate (xs ++ ys) entry = (isDuplicate xs entry || isDuplicate ys entry) := by
  simp [isDuplicate, List.any_append]

theorem isDuplicate_newEntry (env : CallEnv) (entry : EntryFields) :
    isDuplicate [newEntry env entry] entry = true := by
  simp [isDuplicate, sameKey, newEntry]

theorem saveAll_mono (envs : Nat → CallEnv) (hok : NoFailure envs)
    (entries : List EntryFields) (k : Nat) (st : Stored) (x : EntryFields)
    (hx : isDuplicate (getTrackingData false st) x = true) :
    isDuplicate (getTrackingData false (saveAll envs k st entries).store) x = true := by
  rw [(saveAll_noFailure envs hok entries k st).2.2.1, isDuplicate_append, hx]
  rfl

theorem saveAll_covers (envs : Nat → CallEnv) (hok : NoFailure envs)
    (entries : List EntryFields) (k : Nat) (st : Stored) :
    ∀ x ∈ entries,
      isDuplicate (getTrackingData false (saveAll envs k st entries).store) x = true := by
  induction entries generalizing k st with
  | nil => simp
  | cons e rest ih =>
    obtain ⟨st1, hsave, hget⟩ :=
      saveTrackingEntry_noFailure (envs k) st e (hok k).1 (hok k).2
    have hstore : (saveAll envs k st (e :: rest)).store = (saveAll envs (k + 1) st1 rest).store := by
      rw [saveAll_cons_ok envs k st st1 e rest _ hsave]
    intro x hx
    rw [hstore]
    rcases List.mem_cons.1 hx with rfl | hx
    · apply saveAll_mono envs hok
      rw [hget, isDuplicate_append]
      by_cases hd : isDuplicate (getTrackingData false st) x = true
      · simp [hd]
      · rw [Bool.not_eq_true] at hd
        simp only [hd, Bool.false_eq_true, if_false, Option.toList, Bool.false_or]
        exact isDuplicate_newEntry _ _
    · exact ih (k + 1) st1 x hx

theorem saveAll_of_covered (envs : Nat → CallEnv) (hok : NoFailure envs)
    (entries : List EntryFields) (k : Nat) (st : Stored)
    (h : ∀ x ∈ entries, isDuplicate (getTrackingData false st) x = true) :
    saveAll envs k st entries =
      { store := st, log := entries.map (fun x => (x, none)), error := none } := by
  induction entries generalizing k with
  | nil => simp [saveAll_nil]
  | cons e rest ih =>
    have he := h e (List.mem_cons_self _ _)
    rw [saveAll_cons_ok envs k st st e rest none
      (saveTrackingEntry_of_duplicate (envs k) st e (hok k).1 he),
      ih (k + 1) (fun x hx => h x (List.mem_cons_of_mem _ hx))]
    rfl

theorem readsOwnSummaries_pizza : ReadsOwnSummaries Example.pizza := by
  intro label hl hnone
  simp only [Example.pizza, List.mem_cons, List.mem_singleton, List.not_mem_nil, or_false] at hl
  rcases hl with rfl | rfl <;> exact absurd hnone (by decide)

/-- C4. Re-processing is idempotent for a categorization whose summaries are read as
members of the object `summaries` itself (`ReadsOwnSummaries`: no label without
a recorded summary names a member of `Object.prototype`): when the `try` block
of `sendMessage` (the write per category and the write of the extracted symptom)
is run a second time on the same message and the same categorization, with no
AsyncStorage call rejecting, every call of the second run resolves to null, no
entry is added, and the stored collection is the one the first run left. The
same holds for the whole callback of `sendMessage`. For a label such as
`constructor` without a recorded summary the code hands over the inherited
member as summary, which the stored text does not keep, and each run adds an
entry: that case is excluded here. -/
theorem C4_reprocessing_writes_nothing (envs1 envs2 : Nat → CallEnv)
    (userMessageText : JsString) (c : Categorization) (st : Stored)
    (h1 : NoFailure envs1) (h2 : NoFailure envs2) (hlab : ReadsOwnSummaries c) :
    (sendMessage.saveStep envs2 userMessageText c (sendMessage.saveStep envs1 userMessageText c st).store).store =
        (sendMessage.saveStep envs1 userMessageText c st).store ∧
    (∀ p ∈ (sendMessage.saveStep envs2 userMessageText c (sendMessage.saveStep envs1 userMessageText c st).store).log,
        p.2 = none) ∧
    (sendMessage.saveStep envs2 userMessageText c (sendMessage.saveStep envs1 userMessageText c st).store).error = none ∧
    (sendMessage.track envs2 userMessageText c
        (sendMessage.track envs1 userMessageText c st).2.store).2.store =
      (sendMessage.track envs1 userMessageText c st).2.store ∧
    (∀ p ∈ (sendMessage.track envs2 userMessageText c
        (sendMessage.track envs1 userMessageText c st).2.store).2.log, p.2 = none) := by
  have _ := hlab
  have key : sendMessage.saveStep envs2 userMessageText c (sendMessage.saveStep envs1 userMessageText c st).store =
      { store := (sendMessage.saveStep envs1 userMessageText c st).store
        log := (writes userMessageText c).map (fun x => (x, none))
        error := none } := by
    rw [saveStep_eq_saveAll envs2, saveStep_eq_saveAll envs1]
    exact saveAll_of_covered envs2 h2 _ 0 _ (saveAll_covers envs1 h1 _ 0 st)
  have hlog : ∀ p ∈ (writes userMessageText c).map
      (fun x => ((x, none) : EntryFields × Option TrackingEntry)), p.2 = none := by
    intro p hp
    obtain ⟨x, _, rfl⟩ := List.mem_map.1 hp
    rfl
  refine ⟨by rw [key], by rw [key]; exact hlog, by rw [key], ?_, ?_⟩
  · unfold sendMessage.track
    by_cases hs : shouldSave c = true
    · simp only [hs, if_true]; rw [key]
    · simp [hs]
  · unfold sendMessage.track
    by_cases hs : shouldSave c = true
    · simp only [hs, if_true]; rw [key]; exact hlog
    · simp [hs]

/-- C4, witness: the example scenario, processed twice from the empty store. -/
theorem C4_reprocessing_writes_nothing_witness :
    NoFailure Example.okEnvs ∧ ReadsOwnSummaries Example.pizza ∧
    (sendMessage.saveStep Example.okEnvs Example.pizzaMessage Example.pizza
        (sendMessage.saveStep Example.okEnvs Example.pizzaMessage Example.pizza .absent).store).store =
      (sendMessage.saveStep Example.okEnvs Example.pizzaMessage Example.pizza .absent).store ∧
    (getTrackingData false
      (sendMessage.saveStep Example.okEnvs Example.pizzaMessage Example.pizza .absent).store).length = 3 :=
  ⟨fun _ => ⟨rfl, rfl⟩, readsOwnSummaries_pizza,
    (C4_reprocessing_writes_nothing Example.okEnvs Example.okEnvs Example.pizzaMessage
      Example.pizza .absent (fun _ => ⟨rfl, rfl⟩) (fun _ => ⟨rfl, rfl⟩)
      readsOwnSummaries_pizza).1,
    by decide⟩

theorem saveLoop_error (envs : Nat → CallEnv) (hok : NoFailure envs)
    (userMessageText : JsString) (c : Categorization) (st : Stored) :
    (sendMessage.saveLoop envs userMessageText c st).error = none :=
  (saveAll_noFailure envs hok _ 0 st).1

theorem saveLoop_log_length (envs : Nat → CallEnv) (hok : NoFailure envs)
    (userMessageText : JsString) (c : Categorization) (st : Stored) :
    (sendMessage.saveLoop envs userMessageText c st).log.length = c.categories.length := by
  have h := congrArg List.length (saveAll_noFailure envs hok
    (c.categories.map (primaryEntry userMessageText c)) 0 st).2.1
  simpa [sendMessage.saveLoop] using h

theorem saveStep_log_take (envs : Nat → CallEnv) (hok : NoFailure envs)
    (userMessageText : JsString) (c : Categorization) (st : Stored) :
    (sendMessage.saveStep envs userMessageText c st).log.take c.categories.length =
      (sendMessage.saveLoop envs userMessageText c st).log := by
  have hlen := saveLoop_log_length envs hok userMessageText c st
  unfold sendMessage.saveStep
  simp only [saveLoop_error envs hok]
  cases secondarySymptom c with
  | none => simp [← hlen]
  | some x => simp [← hlen]

theorem shouldSave_eq_true_iff (c : Categorization) :
    shouldSave c = true ↔ c.categories ≠ [] ∧ CATEGORIES.GENERAL ∉ c.categories := by
  simp [shouldSave, List.length_pos]

theorem saveAll_all_new (envs : Nat → CallEnv) (hok : NoFailure envs)
    (entries : List EntryFields) (k : Nat) (st : Stored)
    (hpair : entries.Pairwise (fun a b => ¬ (a.category = b.category ∧ a.summary = b.summary)))
    (hnone : ∀ x ∈ entries, isDuplicate (getTrackingData false st) x = false) :
    ((saveAll envs k st entries).log.filterMap Prod.snd).map TrackingEntry.toEntryFields =
      entries ∧
    ∀ p ∈ (saveAll envs k st entries).log, p.2 ≠ none := by
  induction entries generalizing k st with
  | nil => simp [saveAll_nil]
  | cons e rest ih =>
    have he := hnone e (List.mem_cons_self _ _)
    rw [saveAll_cons_ok envs k st _ e rest _
      (saveTrackingEntry_of_new (envs k) st e (hok k).1 (hok k).2 he)]
    rw [List.pairwise_cons] at hpair
    have hrest : ∀ x ∈ rest, isDuplicate (getTrackingData false
        (Stored.entries (getTrackingData false st ++ [newEntry (envs k) e]))) x = false := by
      intro x hx
      have h1 := hnone x (List.mem_cons_of_mem _ hx)
      have h2 := hpair.1 x hx
      have h3 : isDuplicate [newEntry (envs k) e] x = false := by
        rw [isDuplicate_eq_false_iff]
        intro y hy
        rw [List.mem_singleton] at hy
        subst hy
        exact h2
      show isDuplicate (getTrackingData false st ++ [newEntry (envs k) e]) x = false
      rw [isDuplicate_append, h1, h3]
      rfl
    obtain ⟨ih1, ih2⟩ := ih (k + 1) _ hpair.2 hrest
    refine ⟨?_, ?_⟩
    · simp only [filterMap_snd_cons, Option.toList, List.singleton_append, List.map_cons, ih1]
      rfl
    · intro p hp
      rcases List.mem_cons.1 hp with rfl | hp
      · simp
      · exact ih2 p hp

theorem primaryEntry_summary_of_recorded (userMessageText : JsString) (c : Categorization)
    (label s : JsString) (h : c.summaries.lookup label = some s) (hs : s ≠ []) :
    (primaryEntry userMessageText c label).summary = s := by
  cases s with
  | nil => exact absurd rfl hs
  | cons a t => simp [primaryEntry, summaryFor, h]

theorem primaryEntry_summary_of_absent (userMessageText : JsString) (c : Categorization)
    (label : JsString)
    (h : c.summaries.lookup label = none ∨ c.summaries.lookup label = some []) :
    (primaryEntry userMessageText c label).summary = userMessageText.take 80 := by
  rcases h with h | h <;> simp [primaryEntry, summaryFor, h]

/-- C5, amended. For every message and every categorization whose category list
is non-empty and does not contain general, whose summaries are read as members
of the object `summaries` itself (`ReadsOwnSummaries`: no label without a
recorded summary names a member of `Object.prototype`), and with no AsyncStorage
call rejecting: the callback of `sendMessage` takes the saving branch and its first
calls of `saveTrackingEntry` are those of the loop, one per category in the order
of the list; the entry of a label has that label as category, the message, the
shared keywords, the foodCategory of the categorization when the label is dietary
and null otherwise, and as summary the one recorded for the label when it is
recorded and not empty, and the first 80 characters of the message otherwise. Call
number `i` resolves to null exactly when the pair (category, summary) of its
entry is stored already, in the store as it was or among the entries added by the
earlier calls (so the skip of one category does not stop the others), and to the
new entry otherwise; the store after the loop is the previous sequence followed
by the new entries. With pairwise distinct labels and none of the pairs stored,
exactly one entry per category is added. -/
theorem C5_primary_writes (envs : Nat → CallEnv) (userMessageText : JsString)
    (c : Categorization) (st : Stored) (hok : NoFailure envs)
    (hne : c.categories ≠ []) (hgen : CATEGORIES.GENERAL ∉ c.categories)
    (hlab : ReadsOwnSummaries c) :
    (sendMessage.track envs userMessageText c st).1.saved = true ∧
    (sendMessage.track envs userMessageText c st).2.log.take c.categories.length =
      (sendMessage.saveLoop envs userMessageText c st).log ∧
    (sendMessage.saveLoop envs userMessageText c st).log.map Prod.fst =
      c.categories.map (primaryEntry userMessageText c) ∧
    (∀ label,
      (primaryEntry userMessageText c label).category = label ∧
      (primaryEntry userMessageText c label).message = userMessageText ∧
      (primaryEntry userMessageText c label).keywords = c.keywords ∧
      (primaryEntry userMessageText c label).foodCategory =
        (if label = CATEGORIES.DIETARY then c.foodCategory else none) ∧
      (∀ s, c.summaries.lookup label = some s → s ≠ [] →
        (primaryEntry userMessageText c label).summary = s) ∧
      (c.summaries.lookup label = none ∨ c.summaries.lookup label = some [] →
        (primaryEntry userMessageText c label).summary = userMessageText.take 80)) ∧
    (∀ i label, c.categories[i]? = some label →
      ((sendMessage.saveLoop envs userMessageText c st).log.map Prod.snd)[i]? =
        some (if isDuplicate (getTrackingData false st ++
            ((sendMessage.saveLoop envs userMessageText c st).log.take i).filterMap Prod.snd)
            (primaryEntry userMessageText c label) then none
          else some (newEntry (envs i) (primaryEntry userMessageText c label)))) ∧
    getTrackingData false (sendMessage.saveLoop envs userMessageText c st).store =
      getTrackingData false st ++
        (sendMessage.saveLoop envs userMessageText c st).log.filterMap Prod.snd ∧
    (c.categories.Nodup →
      (∀ label ∈ c.categories, ∀ e ∈ getTrackingData false st,
        ¬ (e.category = label ∧ e.summary = summaryFor userMessageText c label)) →
      ((sendMessage.saveLoop envs userMessageText c st).log.filterMap Prod.snd).map
          TrackingEntry.toEntryFields = c.categories.map (primaryEntry userMessageText c) ∧
      ((sendMessage.saveLoop envs userMessageText c st).log.filterMap Prod.snd).length =
        c.categories.length) := by
  have _ := hlab
  have hs : shouldSave c = true := (shouldSave_eq_true_iff c).2 ⟨hne, hgen⟩
  obtain ⟨_, hB, hE, hD⟩ := saveAll_noFailure envs hok
    (c.categories.map (primaryEntry userMessageText c)) 0 st
  refine ⟨?_, ?_, hB, ?_, ?_, hE, ?_⟩
  · simp [sendMessage.track, hs]
  · simp only [sendMessage.track, hs, if_true]
    exact saveStep_log_take envs hok userMessageText c st
  · intro label
    exact ⟨rfl, rfl, rfl, rfl, primaryEntry_summary_of_recorded userMessageText c label,
      primaryEntry_summary_of_absent userMessageText c label⟩
  · intro i label hi
    have h := hD i (primaryEntry userMessageText c label) (by simp [List.getElem?_map, hi])
    simpa [sendMessage.saveLoop] using h
  · intro hnd hnone
    have hpair : (c.categories.map (primaryEntry userMessageText c)).Pairwise
        (fun a b => ¬ (a.category = b.category ∧ a.summary = b.summary)) := by
      rw [List.pairwise_map]
      exact hnd.imp (fun hab h => hab h.1)
    have hnone2 : ∀ x ∈ c.categories.map (primaryEntry userMessageText c),
        isDuplicate (getTrackingData false st) x = false := by
      intro x hx
      obtain ⟨label, hl, rfl⟩ := List.mem_map.1 hx
      exact (isDuplicate_eq_false_iff _ _).2 (hnone label hl)
    have h1 := (saveAll_all_new envs hok _ 0 st hpair hnone2).1
    refine ⟨h1, ?_⟩
    have h2 := congrArg List.length h1
    simpa [sendMessage.saveLoop] using h2

/-- C5, counterexample. (1) The list general, dietary is non-empty and its category set
is not the set with general alone, yet no `saveTrackingEntry` call is made and
the store stays empty. (2) With the empty string recorded as the summary of
dietary, the entry handed over carries the message, not the recorded summary.
(3) When the write of the first category rejects, the call for the second
category is not made: nothing is stored although its own write would succeed. -/
theorem C5_counterexample :
    (Example.generalAndDietary.categories ≠ [] ∧
      ¬ IsExactlyGeneral Example.generalAndDietary.categories ∧
      (sendMessage.track Example.okEnvs Example.breadMessage Example.generalAndDietary .absent).2 =
        { store := .absent, log := [], error := none }) ∧
    (Example.emptySummary.summaries.lookup CATEGORIES.DIETARY = some [] ∧
      (sendMessage.track Example.okEnvs Example.breadMessage Example.emptySummary .absent).2.log.map
        (fun p => p.1.summary) = [Example.breadMessage]) ∧
    (Example.firstWriteFails 1).writeFails = false ∧
    (sendMessage.track Example.firstWriteFails Example.pizzaMessage Example.pizza .absent).2 =
      { store := .absent, log := [], error := some .storage } := by
  refine ⟨⟨by decide, ?_, by decide⟩, ⟨by decide, by decide⟩, by decide, by decide⟩
  intro h
  exact absurd (h.2 CATEGORIES.DIETARY (by decide)) (by decide)

/-- C5, witness: the example scenario on the empty store. -/
theorem C5_primary_writes_witness :
    NoFailure Example.okEnvs ∧ Example.pizza.categories ≠ [] ∧
    CATEGORIES.GENERAL ∉ Example.pizza.categories ∧ ReadsOwnSummaries Example.pizza ∧
    ((sendMessage.saveLoop Example.okEnvs Example.pizzaMessage Example.pizza .absent).log.filterMap
        Prod.snd).map TrackingEntry.toEntryFields =
      Example.pizza.categories.map (primaryEntry Example.pizzaMessage Example.pizza) :=
  ⟨fun _ => ⟨rfl, rfl⟩, by decide, by decide, readsOwnSummaries_pizza,
    ((C5_primary_writes Example.okEnvs Example.pizzaMessage Example.pizza .absent
      (fun _ => ⟨rfl, rfl⟩) (by decide) (by decide) readsOwnSummaries_pizza).2.2.2.2.2.2
      (by decide)
      (by intro label _ e he; simp [getTrackingData] at he)).1⟩

theorem saveAll_appended_mem (envs : Nat → CallEnv) (hok : NoFailure envs)
    (entries : List EntryFields) (k : Nat) (st : Stored) :
    ∀ e ∈ (saveAll envs k st entries).log.filterMap Prod.snd, e.toEntryFields ∈ entries := by
  induction entries generalizing k st with
  | nil => simp [saveAll_nil]
  | cons x rest ih =>
    obtain ⟨st1, hsave, _⟩ :=
      saveTrackingEntry_noFailure (envs k) st x (hok k).1 (hok k).2
    rw [saveAll_cons_ok envs k st st1 x rest _ hsave]
    intro e he
    simp only [filterMap_snd_cons, List.mem_append] at he
    rcases he with he | he
    · by_cases hd : isDuplicate (getTrackingData false st) x = true
      · simp [hd] at he
      · rw [Bool.not_eq_true] at hd
        simp only [hd, Bool.false_eq_true, if_false, Option.toList, List.mem_singleton] at he
        subst he
        exact List.mem_cons_self _ _
    · exact List.mem_cons_of_mem _ (ih (k + 1) st1 e he)

theorem secondarySymptom_eq_some (c : Categorization) (x : JsString)
    (htrig : CATEGORIES.TRIGGER ∈ c.categories) (hsym : CATEGORIES.SYMPTOM ∉ c.categories)
    (hx : c.extractedSymptom = some x) (hne : x ≠ []) :
    secondarySymptom c = some x := by
  cases x with
  | nil => exact absurd rfl hne
  | cons a t => simp [secondarySymptom, htrig, hsym, hx]

/-- C6, amended. For every message and every categorization in which trigger is
among the categories, general and symptom are not, and extractedSymptom is a
non-empty string `x`, on a store that holds no entry with category symptom and
summary "Experiencing " + x, and with no AsyncStorage call rejecting: after the
calls of the loop the callback makes exactly one more call, which adds one
entry, placed after the entries of the loop, with category symptom, summary
"Experiencing " + x, keywords [x] and foodCategory null. -/
theorem C6_secondary_symptom_entry (envs : Nat → CallEnv) (userMessageText : JsString)
    (c : Categorization) (st : Stored) (x : JsString) (hok : NoFailure envs)
    (htrig : CATEGORIES.TRIGGER ∈ c.categories) (hgen : CATEGORIES.GENERAL ∉ c.categories)
    (hsym : CATEGORIES.SYMPTOM ∉ c.categories)
    (hx : c.extractedSymptom = some x) (hne : x ≠ [])
    (hnew : ∀ e ∈ getTrackingData false st,
      ¬ (e.category = CATEGORIES.SYMPTOM ∧ e.summary = "Experiencing ".toList ++ x)) :
    ∃ e : TrackingEntry,
      (sendMessage.track envs userMessageText c st).2.log =
        (sendMessage.saveLoop envs userMessageText c st).log ++ [(symptomEntry userMessageText x, some e)] ∧
      getTrackingData false (sendMessage.track envs userMessageText c st).2.store =
        getTrackingData false (sendMessage.saveLoop envs userMessageText c st).store ++ [e] ∧
      e.category = CATEGORIES.SYMPTOM ∧
      e.summary = "Experiencing ".toList ++ x ∧
      e.keywords = [x] ∧ e.foodCategory = none ∧ e.message = userMessageText := by
  have hs : shouldSave c = true :=
    (shouldSave_eq_true_iff c).2 ⟨List.ne_nil_of_mem htrig, hgen⟩
  have hsec := secondarySymptom_eq_some c x htrig hsym hx hne
  have hfresh : isDuplicate (getTrackingData false (sendMessage.saveLoop envs userMessageText c st).store)
      (symptomEntry userMessageText x) = false := by
    rw [isDuplicate_eq_false_iff]
    intro e he hk
    unfold sendMessage.saveLoop at he
    rw [(saveAll_noFailure envs hok _ 0 st).2.2.1, List.mem_append] at he
    rcases he with he | he
    · exact hnew e he hk
    · have hmem := saveAll_appended_mem envs hok _ 0 st e he
      obtain ⟨label, hl, hlabel⟩ := List.mem_map.1 hmem
      have hcat : e.category = label := by rw [← hlabel]; rfl
      have hk1 : e.category = CATEGORIES.SYMPTOM := hk.1
      exact hsym (hk1 ▸ hcat ▸ hl)
  refine ⟨newEntry (envs c.categories.length) (symptomEntry userMessageText x),
    ?_, ?_, rfl, rfl, rfl, rfl, rfl⟩
  · simp only [sendMessage.track, hs, if_true, sendMessage.saveStep, saveLoop_error envs hok, hsec]
    rw [saveAll_cons_ok envs _ _ _ _ [] _
      (saveTrackingEntry_of_new _ _ _ (hok _).1 (hok _).2 hfresh), saveAll_nil]
  · simp only [sendMessage.track, hs, if_true, sendMessage.saveStep, saveLoop_error envs hok, hsec]
    rw [saveAll_cons_ok envs _ _ _ _ [] _
      (saveTrackingEntry_of_new _ _ _ (hok _).1 (hok _).2 hfresh), saveAll_nil]
    rfl

/-- C6, counterexample. (1) With the list trigger, general and the extracted symptom
"bloating", on the empty store, no call is made and nothing is stored. (2) With
the empty string as extracted symptom, only the entry of trigger is written.
(3) When the write of the first category rejects, the symptom is not written. -/
theorem C6_counterexample :
    (CATEGORIES.TRIGGER ∈ Example.triggerAndGeneral.categories ∧
      CATEGORIES.SYMPTOM ∉ Example.triggerAndGeneral.categories ∧
      Example.triggerAndGeneral.extractedSymptom = some "bloating".toList ∧
      (sendMessage.track Example.okEnvs Example.pizzaMessage Example.triggerAndGeneral .absent).2 =
        { store := .absent, log := [], error := none }) ∧
    (Example.emptySymptom.extractedSymptom = some [] ∧
      (getTrackingData false (sendMessage.track Example.okEnvs Example.pizzaMessage
        Example.emptySymptom .absent).2.store).map (fun e => e.category) =
        [CATEGORIES.TRIGGER]) ∧
    (sendMessage.track Example.firstWriteFails Example.pizzaMessage Example.pizza .absent).2.store =
      .absent := by
  decide

/-- C6, witness: the example scenario. On the empty store the message "I ate pizza
and got bloated" with categories dietary and trigger, foodCategory carbs and
extracted symptom bloating leaves exactly three entries. -/
theorem C6_secondary_symptom_entry_witness :
    (∃ e : TrackingEntry,
      (sendMessage.track Example.okEnvs Example.pizzaMessage Example.pizza .absent).2.log =
        (sendMessage.saveLoop Example.okEnvs Example.pizzaMessage Example.pizza .absent).log ++
          [(symptomEntry Example.pizzaMessage "bloating".toList, some e)] ∧
      getTrackingData false
          (sendMessage.track Example.okEnvs Example.pizzaMessage Example.pizza .absent).2.store =
        getTrackingData false
          (sendMessage.saveLoop Example.okEnvs Example.pizzaMessage Example.pizza .absent).store ++ [e] ∧
      e.category = CATEGORIES.SYMPTOM ∧
      e.summary = "Experiencing ".toList ++ "bloating".toList ∧
      e.keywords = ["bloating".toList] ∧ e.foodCategory = none ∧
      e.message = Example.pizzaMessage) ∧
    (getTrackingData false
        (sendMessage.track Example.okEnvs Example.pizzaMessage Example.pizza .absent).2.store).map
      (fun e => (e.category, e.summary, e.foodCategory)) =
      [("dietary".toList, "Ate pizza".toList, some "carbs".toList),
        ("trigger".toList, "Pizza may trigger bloating - watch out".toList, none),
        ("symptom".toList, "Experiencing bloating".toList, none)] :=
  ⟨C6_secondary_symptom_entry Example.okEnvs Example.pizzaMessage Example.pizza .absent
      "bloating".toList (fun _ => ⟨rfl, rfl⟩) (by decide) (by decide) (by decide) rfl
      (by decide) (by intro e he; simp [getTrackingData] at he),
    by decide⟩

theorem track_of_general (envs : Nat → CallEnv) (userMessageText : JsString)
    (c : Categorization) (st : Stored) (h : CATEGORIES.GENERAL ∈ c.categories) :
    sendMessage.track envs userMessageText c st =
      (notSavedBadge, { store := st, log := [], error := none }) := by
  have hs : shouldSave c = false := by
    rw [← Bool.not_eq_true, shouldSave_eq_true_iff]
    exact fun hh => hh.2 h
  simp [sendMessage.track, hs]

/-- C7. When the category set of the categorization is exactly the set with general
alone, the callback of `sendMessage` makes no call on the store, which is left as
it was, and sets a badge with saved = false and the one label general. -/
theorem C7_general_is_not_saved (envs : Nat → CallEnv) (userMessageText : JsString)
    (c : Categorization) (st : Stored) (h : IsExactlyGeneral c.categories) :
    (sendMessage.track envs userMessageText c st).2 = { store := st, log := [], error := none } ∧
    (sendMessage.track envs userMessageText c st).1.saved = false ∧
    (sendMessage.track envs userMessageText c st).1.categories = [CATEGORIES.GENERAL] := by
  obtain ⟨x, hx⟩ := List.exists_mem_of_ne_nil _ h.1
  have hg : CATEGORIES.GENERAL ∈ c.categories := h.2 x hx ▸ hx
  rw [track_of_general envs userMessageText c st hg]
  exact ⟨rfl, rfl, rfl⟩

/-- C7, witness: the categorization with the one category general. -/
theorem C7_general_is_not_saved_witness :
    IsExactlyGeneral Example.onlyGeneral.categories ∧
    (sendMessage.track Example.okEnvs Example.breadMessage Example.onlyGeneral .absent).2 =
      { store := .absent, log := [], error := none } ∧
    (sendMessage.track Example.okEnvs Example.breadMessage Example.onlyGeneral .absent).1.saved =
      false ∧
    (sendMessage.track Example.okEnvs Example.breadMessage Example.onlyGeneral .absent).1.categories =
      [CATEGORIES.GENERAL] :=
  ⟨⟨by decide, by decide⟩,
    C7_general_is_not_saved Example.okEnvs Example.breadMessage Example.onlyGeneral .absent
      ⟨by decide, by decide⟩⟩

/-- C8, counterexample. The list general, dietary holds general together with a
specific category and its category set is not the set with general alone, yet
the callback takes the branch of the unsaved message: saved = false, the one
label general, no call on the store and nothing stored. -/
theorem C8_counterexample :
    CATEGORIES.GENERAL ∈ Example.generalAndDietary.categories ∧
    CATEGORIES.DIETARY ∈ Example.generalAndDietary.categories ∧
    ¬ IsExactlyGeneral Example.generalAndDietary.categories ∧
    (sendMessage.track Example.okEnvs Example.breadMessage Example.generalAndDietary .absent).1.saved =
      false ∧
    (sendMessage.track Example.okEnvs Example.breadMessage
      Example.generalAndDietary .absent).1.categories = [CATEGORIES.GENERAL] ∧
    (sendMessage.track Example.okEnvs Example.breadMessage Example.generalAndDietary .absent).2 =
      { store := .absent, log := [], error := none } := by
  refine ⟨by decide, by decide, ?_, by decide, by decide, by decide⟩
  intro h
  exact absurd (h.2 CATEGORIES.DIETARY (by decide)) (by decide)

/-- C8, amended. General overrides the specific categories: for every categorization
whose category list holds general together with at least one specific category
(symptom, dietary or trigger), the category set is not the set with general
alone, and still the callback takes the branch of the unsaved message: it makes
no call on the store, which is left as it was, and sets a badge with
saved = false and the one label general. -/
theorem C8_general_overrides_specific (envs : Nat → CallEnv) (userMessageText : JsString)
    (c : Categorization) (st : Stored) (specific : JsString)
    (hg : CATEGORIES.GENERAL ∈ c.categories) (hs : specific ∈ c.categories)
    (hspec : specific = CATEGORIES.SYMPTOM ∨ specific = CATEGORIES.DIETARY ∨
      specific = CATEGORIES.TRIGGER) :
    ¬ IsExactlyGeneral c.categories ∧
    (sendMessage.track envs userMessageText c st).2 = { store := st, log := [], error := none } ∧
    (sendMessage.track envs userMessageText c st).1.saved = false ∧
    (sendMessage.track envs userMessageText c st).1.categories = [CATEGORIES.GENERAL] := by
  refine ⟨?_, ?_⟩
  · intro h
    have := h.2 specific hs
    rcases hspec with h1 | h1 | h1 <;> rw [h1] at this <;> exact absurd this (by decide)
  · rw [track_of_general envs userMessageText c st hg]
    exact ⟨rfl, rfl, rfl⟩

/-- C8, witness: the list general, dietary. -/
theorem C8_general_overrides_specific_witness :
    ¬ IsExactlyGeneral Example.generalAndDietary.categories ∧
    (sendMessage.track Example.okEnvs Example.breadMessage Example.generalAndDietary .absent).2 =
      { store := .absent, log := [], error := none } ∧
    (sendMessage.track Example.okEnvs Example.breadMessage Example.generalAndDietary .absent).1.saved =
      false ∧
    (sendMessage.track Example.okEnvs Example.breadMessage
      Example.generalAndDietary .absent).1.categories = [CATEGORIES.GENERAL] :=
  C8_general_overrides_specific Example.okEnvs Example.breadMessage Example.generalAndDietary
    .absent CATEGORIES.DIETARY (by decide) (by decide) (Or.inr (Or.inl rfl))

/-! ### `categorizeMessage` -/

/-- C9. For every message and every outcome of the classifier call (a reply with any
text, a response that is not ok, a body of another shape, a failed call),
whatever `JSON.parse` does and whether or not the file runs as strict code,
`categorizeMessage` resolves to a categorization object: it never rejects. -/
theorem C9_categorizeMessage_never_rejects (strictCode : Bool)
    (parse : JsString → Option JVal) (message : JsString) (outcome : ClassifierOutcome) :
    ∃ c : CategorizationObject,
      categorizeMessage strictCode parse message outcome = .ok c := by
  unfold categorizeMessage
  cases categorizeMessage.tryBlock strictCode parse message outcome with
  | ok c => exact ⟨c, rfl⟩
  | error e => exact ⟨categorizeMessage.catchBlock message, rfl⟩

theorem catchBlock_summary (message : JsString) :
    message.take 77 ++ (if message.length > 77 then "...".toList else []) =
      (if message.length > 77 then message.take 77 ++ "...".toList else message) := by
  by_cases h : message.length > 77
  · simp only [h, if_true]
  · simp only [h, if_false, List.append_nil]
    exact List.take_of_length_le (by omega)

theorem orElse_null_ne_empty (v : JVal) : v.orElse .null ≠ .str [] := by
  unfold JVal.orElse
  by_cases h : v.truthy = true
  · simp only [h, if_true]
    intro hv
    rw [hv] at h
    exact absurd h (by decide)
  · simp only [h]
    intro hv
    cases hv

theorem build_extractedSymptom (strictCode : Bool) (message : JsString) (result : JVal)
    (c : CategorizationObject)
    (h : categorizeMessage.build strictCode message result = .ok c) :
    c.extractedSymptom = (result.get "extractedSymptom".toList).orElse .null := by
  unfold categorizeMessage.build at h
  split at h
  · cases h
  · cases h
  · dsimp only at h
    split at h
    · cases h
    · cases h
      rfl

/-- The symptom `categorizeMessage` returns is never the empty string: a falsy
value of the reply is turned to null. -/
theorem categorizeMessage_extractedSymptom_ne_empty (strictCode : Bool)
    (parse : JsString → Option JVal) (message : JsString) (outcome : ClassifierOutcome)
    (c : CategorizationObject)
    (h : categorizeMessage strictCode parse message outcome = .ok c) :
    c.extractedSymptom ≠ .str [] := by
  unfold categorizeMessage at h
  split at h
  · rename_i c1 hc
    cases h
    unfold categorizeMessage.tryBlock at hc
    split at hc
    · cases hc
    · cases hc
    · cases hc
    · split at hc
      · cases hc
      · rw [build_extractedSymptom strictCode message _ c hc]
        exact orElse_null_ne_empty _
  · cases h
    intro hv
    cases hv

/-- C10. For every message and every reply whose text, as the code hands it to
`JSON.parse` (trimmed, the fences and backticks removed), is not valid JSON, the
result is exactly: categories [general], foodCategory null, no keywords,
summaries with the one member general, and extractedSymptom null; the summary of
general is the first 77 characters of the message followed by "..." when the
message is longer than 77 characters, and the message itself otherwise. -/
theorem C10_fallback_on_invalid_json (strictCode : Bool) (parse : JsString → Option JVal)
    (message content : JsString) (h : parse (cleanContent content) = none) :
    categorizeMessage strictCode parse message (.reply content) =
      .ok
        { categories := [.str CATEGORIES.GENERAL]
          foodCategory := .null
          keywords := []
          summaries := .obj [(CATEGORIES.GENERAL,
            .str (if message.length > 77 then message.take 77 ++ "...".toList else message))]
          extractedSymptom := .null } := by
  simp only [categorizeMessage, categorizeMessage.tryBlock, h, categorizeMessage.catchBlock,
    catchBlock_summary]
  rfl

/-- C10, witness: the reply "not json at all". -/
theorem C10_fallback_on_invalid_json_witness :
    cleanContent "not json at all".toList = "not json at all".toList ∧
    Json.parse (cleanContent "not json at all".toList) = none ∧
    categorizeMessage false Json.parse Example.pizzaMessage
        (.reply "not json at all".toList) =
      .ok
        { categories := [.str CATEGORIES.GENERAL]
          foodCategory := .null
          keywords := []
          summaries := .obj [(CATEGORIES.GENERAL,
            .str (if Example.pizzaMessage.length > 77 then
              Example.pizzaMessage.take 77 ++ "...".toList else Example.pizzaMessage))]
          extractedSymptom := .null } :=
  ⟨by decide, rfl,
    C10_fallback_on_invalid_json false Json.parse Example.pizzaMessage
      "not json at all".toList rfl⟩

/-! ### The fallback summary and the request -/

/-- C15. For every message, the object of the `catch` block, which is what
`categorizeMessage` returns on a decode failure, holds one summary, that of
general; it has at most 80 characters, it is the first 77 characters of the
message followed by the marker "..." when the message has more than 77
characters, and it is the whole message, with no marker added, when the message
has at most 77 characters. -/
theorem C15_fallback_summary_bound (message : JsString) :
    ∃ s : JsString,
      (categorizeMessage.catchBlock message).summaries = .obj [(CATEGORIES.GENERAL, .str s)] ∧
      s.length ≤ 80 ∧
      (77 < message.length → s = message.take 77 ++ "...".toList) ∧
      (message.length ≤ 77 → s = message) ∧
      (∀ (strictCode : Bool) (parse : JsString → Option JVal) (content : JsString),
        parse (cleanContent content) = none →
        categorizeMessage strictCode parse message (.reply content) =
          .ok (categorizeMessage.catchBlock message)) := by
  refine ⟨message.take 77 ++ (if message.length > 77 then "...".toList else []),
    rfl, ?_, ?_, ?_, ?_⟩
  · by_cases h : message.length > 77
    · simp only [h, if_true, List.length_append, List.length_take]
      have : "...".toList.length = 3 := rfl
      omega
    · simp only [h, if_false, List.append_nil, List.length_take]
      omega
  · intro h
    simp only [gt_iff_lt, h, if_true]
  · intro h
    have h1 : ¬ message.length > 77 := by omega
    simp only [h1, if_false, List.append_nil]
    exact List.take_of_length_le h
  · intro strictCode parse content h
    simp only [categorizeMessage, categorizeMessage.tryBlock, h]

/-- C15, witness: a message of 78 characters and one of 11. -/
theorem C15_fallback_summary_bound_witness :
    (∃ s : JsString,
      (categorizeMessage.catchBlock (List.replicate 78 'a')).summaries =
        .obj [(CATEGORIES.GENERAL, .str s)] ∧
      s.length ≤ 80 ∧
      (77 < (List.replicate 78 'a').length →
        s = (List.replicate 78 'a').take 77 ++ "...".toList) ∧
      ((List.replicate 78 'a').length ≤ 77 → s = List.replicate 78 'a') ∧
      (∀ (strictCode : Bool) (parse : JsString → Option JVal) (content : JsString),
        parse (cleanContent content) = none →
        categorizeMessage strictCode parse (List.replicate 78 'a') (.reply content) =
          .ok (categorizeMessage.catchBlock (List.replicate 78 'a')))) ∧
    77 < (List.replicate 78 'a').length ∧
    Json.parse (cleanContent "not json at all".toList) = none :=
  ⟨C15_fallback_summary_bound (List.replicate 78 'a'), by decide, rfl⟩

/-- C17. For every message and key, the request `categorizeMessage` sends is a POST
whose body has two messages, the fixed system message and a user message; the
content of the user message is the fixed categorization prompt followed by
exactly the first 500 characters of the message, which is the whole message
when it has at most 500 characters. The request is built for every message:
for the empty one the user content is the prompt alone. -/
theorem C17_request_truncation (message groqApiKey : JsString) :
    (categorizeMessage.request message groqApiKey).messages =
      [{ role := "system".toList, content := categorizeMessage.systemContent },
        { role := "user".toList, content := CATEGORIZATION_PROMPT ++ message.take 500 }] ∧
    (message.take 500).length = min 500 message.length ∧
    message.take 500 = (if message.length ≤ 500 then message else message.take 500) ∧
    (∀ i, i < 500 → (message.take 500)[i]? = message[i]?) ∧
    (categorizeMessage.request [] groqApiKey).messages =
      [{ role := "system".toList, content := categorizeMessage.systemContent },
        { role := "user".toList, content := CATEGORIZATION_PROMPT }] ∧
    (categorizeMessage.request message groqApiKey).method = "POST".toList ∧
    (categorizeMessage.request message groqApiKey).max_tokens = 200 := by
  refine ⟨rfl, List.length_take _ _, ?_, ?_, ?_, rfl, rfl⟩
  · by_cases h : message.length ≤ 500
    · simp only [h, if_true]
      exact List.take_of_length_le h
    · simp only [h, if_false]
  · intro i hi
    rw [List.getElem?_take]
    simp only [hi, if_true]
  · simp [categorizeMessage.request]

/-! ### `getTrackingSummary` -/

/-- C19. For every sequence of stored entries, read without failure, the field
`totalEntries` of the summary is the length of the sequence: every entry
counts, whatever its category and its foodCategory. More generally the field
is the length of what `getTrackingData` returns. -/
theorem C19_totalEntries_is_length (es : List TrackingEntry) :
    (getTrackingSummary false (.entries es)).totalEntries = es.length ∧
    ∀ (readFails : Bool) (st : Stored),
      (getTrackingSummary readFails st).totalEntries = (getTrackingData readFails st).length :=
  ⟨rfl, fun _ _ => rfl⟩

/-- C20. For every sequence of stored entries, read without failure, the list `symptoms`
of the summary is the subsequence of the entries with category symptom, in the
order of the sequence, each entry giving its summary, keywords and timestamp;
the list `triggers` is the same for the entries with category trigger. -/
theorem C20_buckets_keep_order (es : List TrackingEntry) :
    (getTrackingSummary false (.entries es)).symptoms =
      (es.filter (fun e => decide (e.category = CATEGORIES.SYMPTOM))).map
        (fun e => { summary := e.summary, keywords := e.keywords, timestamp := e.timestamp }) ∧
    (es.filter (fun e => decide (e.category = CATEGORIES.SYMPTOM))).Sublist es ∧
    (getTrackingSummary false (.entries es)).triggers =
      (es.filter (fun e => decide (e.category = CATEGORIES.TRIGGER))).map
        (fun e => { summary := e.summary, keywords := e.keywords, timestamp := e.timestamp }) ∧
    (es.filter (fun e => decide (e.category = CATEGORIES.TRIGGER))).Sublist es := by
  refine ⟨?_, List.filter_sublist _, ?_, List.filter_sublist _⟩
  · simp only [getTrackingSummary, getTrackingData, Bool.false_eq_true, if_false]
    congr 1
    apply List.filter_congr
    intro e _
    rw [Bool.eq_iff_iff]
    simp
  · simp only [getTrackingSummary, getTrackingData, Bool.false_eq_true, if_false]
    congr 1
    apply List.filter_congr
    intro e _
    rw [Bool.eq_iff_iff]
    simp

/-! ### The normalization of the decoded reply -/

theorem build_fields (strictCode : Bool) (message : JsString) (result : JVal)
    (c : CategorizationObject)
    (h : categorizeMessage.build strictCode message result = .ok c) :
    result ≠ .null ∧ result ≠ .undefined ∧
    c.categories =
      (match (result.get "categories".toList).items? with
        | some xs => xs
        | none => [(result.get "category".toList).orElse (.str CATEGORIES.GENERAL)]) ∧
    c.foodCategory = (result.get "foodCategory".toList).orElse .null ∧
    c.keywords =
      (match (result.get "keywords".toList).items? with
        | some ks => ks.take 5
        | none => []) ∧
    c.extractedSymptom = (result.get "extractedSymptom".toList).orElse .null ∧
    (if ((result.get "summaries".toList).orElse (.obj [])).keyCount = 0 then
        assignSummaries strictCode ((result.get "summaries".toList).orElse (.obj []))
          c.categories ((result.get "summary".toList).orElse (.str (message.take 80)))
      else .ok ((result.get "summaries".toList).orElse (.obj []))) = .ok c.summaries := by
  unfold categorizeMessage.build at h
  split at h
  · cases h
  · cases h
  · rename_i hn hu
    dsimp only at h
    split at h
    · cases h
    · rename_i s1 hs
      cases h
      exact ⟨fun hh => hn hh, fun hh => hu hh, rfl, rfl, rfl, rfl, hs⟩

theorem build_null (strictCode : Bool) (message : JsString) (result : JVal)
    (h : result = .null ∨ result = .undefined) :
    ∃ e, categorizeMessage.build strictCode message result = .error e := by
  rcases h with rfl | rfl <;> exact ⟨_, rfl⟩

theorem tryBlock_reply (strictCode : Bool) (parse : JsString → Option JVal)
    (message content : JsString) (result : JVal)
    (hp : parse (cleanContent content) = some result) :
    categorizeMessage.tryBlock strictCode parse message (.reply content) =
      categorizeMessage.build strictCode message result := by
  simp only [categorizeMessage.tryBlock, hp]

theorem categorizeMessage_cases (strictCode : Bool) (parse : JsString → Option JVal)
    (message : JsString) (outcome : ClassifierOutcome) (c : CategorizationObject)
    (hc : categorizeMessage strictCode parse message outcome = .ok c) :
    categorizeMessage.tryBlock strictCode parse message outcome = .ok c ∨
      c = categorizeMessage.catchBlock message := by
  unfold categorizeMessage at hc
  split at hc
  · rename_i c1 h1
    cases hc
    exact Or.inl h1
  · cases hc
    exact Or.inr rfl

theorem tryBlock_ok (strictCode : Bool) (parse : JsString → Option JVal)
    (message : JsString) (outcome : ClassifierOutcome) (c : CategorizationObject)
    (h : categorizeMessage.tryBlock strictCode parse message outcome = .ok c) :
    ∃ content result, outcome = .reply content ∧ parse (cleanContent content) = some result ∧
      categorizeMessage.build strictCode message result = .ok c := by
  unfold categorizeMessage.tryBlock at h
  split at h
  · cases h
  · cases h
  · cases h
  · rename_i content
    split at h
    · cases h
    · rename_i result hp
      exact ⟨content, result, rfl, hp, h⟩

theorem get_of_null (result : JVal) (key : JsString)
    (h : result = .null ∨ result = .undefined) : result.get key = .undefined := by
  rcases h with rfl | rfl <;> rfl

/-- C14, counterexample. (1) In strict code, the reply with the keywords ["bread"] and
with `summaries` the number 5 is decoded, the assignment of the summaries loop
throws, and the result is the object of the `catch` block, with no keywords. (2)
In any code, the reply with the keywords ["a"] and with a category that is an
object with a member `toString` is decoded, the conversion of the category to a
property name throws, and the result has no keywords. -/
theorem C14_counterexample :
    (Json.parse (cleanContent Example.summariesNumberReply)).map
        (fun v => (v.get "keywords".toList).items?) = some (some [.str "bread".toList]) ∧
    categorizeMessage true Json.parse Example.breadMessage
        (.reply Example.summariesNumberReply) =
      .ok { categories := [.str CATEGORIES.GENERAL], foodCategory := .null, keywords := [],
            summaries := .obj [(CATEGORIES.GENERAL, .str Example.breadMessage)],
            extractedSymptom := .null } ∧
    (Json.parse (cleanContent Example.toStringCategoryReply)).map
        (fun v => (v.get "keywords".toList).items?) = some (some [.str "a".toList]) ∧
    categorizeMessage false Json.parse Example.breadMessage
        (.reply Example.toStringCategoryReply) =
      .ok { categories := [.str CATEGORIES.GENERAL], foodCategory := .null, keywords := [],
            summaries := .obj [(CATEGORIES.GENERAL, .str Example.breadMessage)],
            extractedSymptom := .null } ∧
    categorizeMessage false Json.parse Example.breadMessage
        (.reply Example.summariesNumberReply) =
      .ok { categories := [.str "dietary".toList], foodCategory := .null,
            keywords := [.str "bread".toList], summaries := .num "5".toList,
            extractedSymptom := .null } :=
  ⟨rfl, rfl, rfl, rfl, rfl⟩

/-- C14, amended. For every message and every reply, the keywords of the result have
at most 5 items. When the reply decodes and its `keywords` is absent or not a
list, they are the empty sequence. When `keywords` is a list, they are its
first five items, in order, whenever the `try` block returns the result, which
it does not when a statement of the block throws after the decoding. -/
theorem C14_keywords_clamp (strictCode : Bool) (parse : JsString → Option JVal)
    (message content : JsString) (c : CategorizationObject)
    (hc : categorizeMessage strictCode parse message (.reply content) = .ok c) :
    c.keywords.length ≤ 5 ∧
    ∀ result, parse (cleanContent content) = some result →
      ((result.get "keywords".toList).items? = none → c.keywords = []) ∧
      (∀ ks, (result.get "keywords".toList).items? = some ks →
        categorizeMessage.tryBlock strictCode parse message (.reply content) = .ok c →
        c.keywords = ks.take 5) := by
  refine ⟨?_, ?_⟩
  · rcases categorizeMessage_cases strictCode parse message _ c hc with h | h
    · obtain ⟨_, result, _, _, hb⟩ := tryBlock_ok strictCode parse message _ c h
      rw [(build_fields strictCode message result c hb).2.2.2.2.1]
      split
      · simp only [List.length_take]
        omega
      · simp
    · rw [h]
      simp [categorizeMessage.catchBlock]
  · intro result hp
    refine ⟨?_, ?_⟩
    · intro hnone
      rcases categorizeMessage_cases strictCode parse message _ c hc with h | h
      · rw [tryBlock_reply strictCode parse message content result hp] at h
        rw [(build_fields strictCode message result c h).2.2.2.2.1, hnone]
      · rw [h]
        rfl
    · intro ks hks hret
      rw [tryBlock_reply strictCode parse message content result hp] at hret
      rw [(build_fields strictCode message result c hret).2.2.2.2.1, hks]

/-- C14, witness: a reply with six keywords. -/
theorem C14_keywords_clamp_witness :
    categorizeMessage true Json.parse Example.breadMessage (.reply Example.sixKeywordsReply) =
      .ok Example.sixKeywordsObject ∧
    categorizeMessage.tryBlock true Json.parse Example.breadMessage
      (.reply Example.sixKeywordsReply) = .ok Example.sixKeywordsObject ∧
    Example.sixKeywordsObject.keywords.length ≤ 5 ∧
    ∀ result, Json.parse (cleanContent Example.sixKeywordsReply) = some result →
      ((result.get "keywords".toList).items? = none → Example.sixKeywordsObject.keywords = []) ∧
      (∀ ks, (result.get "keywords".toList).items? = some ks →
        categorizeMessage.tryBlock true Json.parse Example.breadMessage
          (.reply Example.sixKeywordsReply) = .ok Example.sixKeywordsObject →
        Example.sixKeywordsObject.keywords = ks.take 5) :=
  ⟨rfl, rfl, C14_keywords_clamp true Json.parse Example.breadMessage Example.sixKeywordsReply
    Example.sixKeywordsObject rfl⟩

theorem items?_eq_some_iff (v : JVal) (xs : List JVal) :
    v.items? = some xs ↔ v = .arr xs := by
  cases v <;> simp [JVal.items?]

/-- C12, counterexample. The reply with `categories` the empty list is decoded, and the
result has the empty list of categories, not a list with general, whether or not
the file runs as strict code. -/
theorem C12_counterexample :
    Json.parse (cleanContent Example.emptyCategoriesReply) =
      some (.obj [("categories".toList, .arr [])]) ∧
    categorizeMessage false Json.parse Example.breadMessage
        (.reply Example.emptyCategoriesReply) =
      .ok { categories := [], foodCategory := .null, keywords := [], summaries := .obj [],
            extractedSymptom := .null } ∧
    categorizeMessage true Json.parse Example.breadMessage
        (.reply Example.emptyCategoriesReply) =
      .ok { categories := [], foodCategory := .null, keywords := [], summaries := .obj [],
            extractedSymptom := .null } :=
  ⟨rfl, rfl, rfl⟩

/-- C12, amended. For every decoded reply from which the `try` block returns the
result, the categories of the result are the decoded `categories` whenever that
is a list, also when it is the empty list, and otherwise (absent or not a
list) the single legacy `category` value when it is present as a truthy value,
else the single category general. So the categories of the result are empty
exactly when the decoded `categories` is the empty list. -/
theorem C12_categories_normalization (strictCode : Bool) (parse : JsString → Option JVal)
    (message content : JsString) (result : JVal) (c : CategorizationObject)
    (hp : parse (cleanContent content) = some result)
    (hret : categorizeMessage.tryBlock strictCode parse message (.reply content) = .ok c) :
    categorizeMessage strictCode parse message (.reply content) = .ok c ∧
    (∀ xs, result.get "categories".toList = .arr xs → c.categories = xs) ∧
    ((∀ xs, result.get "categories".toList ≠ .arr xs) →
      c.categories =
        [if (result.get "category".toList).truthy then result.get "category".toList
          else .str CATEGORIES.GENERAL]) ∧
    (c.categories = [] ↔ result.get "categories".toList = .arr []) := by
  have key : c.categories =
      (match (result.get "categories".toList).items? with
        | some xs => xs
        | none => [(result.get "category".toList).orElse (.str CATEGORIES.GENERAL)]) := by
    rw [tryBlock_reply strictCode parse message content result hp] at hret
    exact (build_fields strictCode message result c hret).2.2.1
  refine ⟨?_, ?_, ?_, ?_⟩
  · simp only [categorizeMessage, hret]
  · intro xs hxs
    rw [key, hxs]
    rfl
  · intro hno
    have hnone : (result.get "categories".toList).items? = none := by
      cases hi : (result.get "categories".toList).items? with
      | none => rfl
      | some xs => exact absurd ((items?_eq_some_iff _ xs).1 hi) (hno xs)
    rw [key, hnone]
    rfl
  · rw [key]
    cases hi : (result.get "categories".toList).items? with
    | none =>
      simp only [List.cons_ne_nil, false_iff]
      intro hh
      rw [hh] at hi
      cases hi
    | some xs =>
      have hx := (items?_eq_some_iff _ xs).1 hi
      rw [hx]
      simp

/-- C12, witness: the reply with the legacy field `category`. -/
theorem C12_categories_normalization_witness :
    Json.parse (cleanContent Example.sixKeywordsReply) = some Example.sixKeywordsValue ∧
    categorizeMessage.tryBlock true Json.parse Example.breadMessage
      (.reply Example.sixKeywordsReply) = .ok Example.sixKeywordsObject ∧
    (∀ xs, Example.sixKeywordsValue.get "categories".toList = .arr xs →
      Example.sixKeywordsObject.categories = xs) ∧
    ((∀ xs, Example.sixKeywordsValue.get "categories".toList ≠ .arr xs) →
      Example.sixKeywordsObject.categories =
        [if (Example.sixKeywordsValue.get "category".toList).truthy then
            Example.sixKeywordsValue.get "category".toList
          else .str CATEGORIES.GENERAL]) ∧
    (Example.sixKeywordsObject.categories = [] ↔
      Example.sixKeywordsValue.get "categories".toList = .arr []) :=
  ⟨rfl, rfl, (C12_categories_normalization true Json.parse Example.breadMessage
    Example.sixKeywordsReply Example.sixKeywordsValue Example.sixKeywordsObject rfl rfl).2⟩

/-- C11, counterexample. The reply `5` is valid JSON, a number. For a message of 78
characters the result holds, as the summary of general, the whole message (its
first 80 characters) and not its first 77 characters followed by "...": it is
not the object returned for invalid JSON. -/
theorem C11_counterexample :
    Json.parse (cleanContent Example.numberReply) = some (.num "5".toList) ∧
    categorizeMessage true Json.parse Example.longMessage (.reply Example.numberReply) =
      .ok { categories := [.str CATEGORIES.GENERAL], foodCategory := .null, keywords := [],
            summaries := .obj [(CATEGORIES.GENERAL, .str Example.longMessage)],
            extractedSymptom := .null } ∧
    categorizeMessage false Json.parse Example.longMessage (.reply Example.numberReply) =
      .ok { categories := [.str CATEGORIES.GENERAL], foodCategory := .null, keywords := [],
            summaries := .obj [(CATEGORIES.GENERAL, .str Example.longMessage)],
            extractedSymptom := .null } ∧
    (categorizeMessage.catchBlock Example.longMessage).summaries =
      .obj [(CATEGORIES.GENERAL, .str (List.replicate 77 'a' ++ "...".toList))] ∧
    Example.longMessage ≠ List.replicate 77 'a' ++ "...".toList :=
  ⟨rfl, rfl, rfl, rfl, by decide⟩

/-- C11, amended. For every message and every reply that is valid JSON, is not null
and carries none of the fields the code reads (a number, a string, true or
false, an array, or an object without them such as the empty object), the
result is: categories [general], foodCategory null, no keywords,
extractedSymptom null, and summaries with the one member general whose value is
the first 80 characters of the message, with no marker added. This is the
object returned for invalid JSON when the message has at most 77 characters.
The reply null gives the object returned for invalid JSON. -/
theorem C11_reply_without_fields (strictCode : Bool) (parse : JsString → Option JVal)
    (message content : JsString) (result : JVal)
    (hp : parse (cleanContent content) = some result) :
    (result ≠ .null → result ≠ .undefined →
      (∀ key ∈ categorizeMessage.fieldNames, result.get key = .undefined) →
      categorizeMessage strictCode parse message (.reply content) =
        .ok { categories := [.str CATEGORIES.GENERAL], foodCategory := .null, keywords := [],
              summaries := .obj [(CATEGORIES.GENERAL, .str (message.take 80))],
              extractedSymptom := .null }) ∧
    (result = .null →
      categorizeMessage strictCode parse message (.reply content) =
        .ok (categorizeMessage.catchBlock message)) ∧
    (message.length ≤ 77 →
      ({ categories := [.str CATEGORIES.GENERAL], foodCategory := .null, keywords := [],
         summaries := .obj [(CATEGORIES.GENERAL, .str (message.take 80))],
         extractedSymptom := .null } : CategorizationObject) =
        categorizeMessage.catchBlock message) ∧
    (∀ (key text s : JsString) (b : Bool) (xs : List JVal),
      (JVal.num text).get key = .undefined ∧ (JVal.str s).get key = .undefined ∧
      (JVal.bool b).get key = .undefined ∧ (JVal.arr xs).get key = .undefined ∧
      (JVal.obj []).get key = .undefined) := by
  refine ⟨?_, ?_, ?_, ?_⟩
  · intro hn hu hf
    have h1 := hf "categories".toList (by simp [categorizeMessage.fieldNames])
    have h2 := hf "category".toList (by simp [categorizeMessage.fieldNames])
    have h3 := hf "summaries".toList (by simp [categorizeMessage.fieldNames])
    have h4 := hf "summary".toList (by simp [categorizeMessage.fieldNames])
    have h5 := hf "foodCategory".toList (by simp [categorizeMessage.fieldNames])
    have h6 := hf "keywords".toList (by simp [categorizeMessage.fieldNames])
    have h7 := hf "extractedSymptom".toList (by simp [categorizeMessage.fieldNames])
    have hb : categorizeMessage.build strictCode message result =
        .ok { categories := [.str CATEGORIES.GENERAL], foodCategory := .null, keywords := [],
              summaries := .obj [(CATEGORIES.GENERAL, .str (message.take 80))],
              extractedSymptom := .null } := by
      unfold categorizeMessage.build
      split
      · exact absurd rfl hn
      · exact absurd rfl hu
      · simp only [h1, h2, h3, h4, h5, h6, h7]
        rfl
    simp only [categorizeMessage, tryBlock_reply strictCode parse message content result hp, hb]
  · intro hnull
    subst hnull
    simp only [categorizeMessage, tryBlock_reply strictCode parse message content _ hp]
    rfl
  · intro hlen
    have e1 : message.take 80 = message := List.take_of_length_le (by omega)
    have e2 : message.take 77 = message := List.take_of_length_le hlen
    have e3 : ¬ message.length > 77 := by omega
    simp only [categorizeMessage.catchBlock, e1, e2, e3, if_false, List.append_nil]
    rfl
  · intro key text s b xs
    exact ⟨rfl, rfl, rfl, rfl, rfl⟩

/-- C11, witness: the reply `5` and the message "I ate bread". -/
theorem C11_reply_without_fields_witness :
    Json.parse (cleanContent Example.numberReply) = some (.num "5".toList) ∧
    JVal.num "5".toList ≠ .null ∧
    (∀ key ∈ categorizeMessage.fieldNames, (JVal.num "5".toList).get key = .undefined) ∧
    Example.breadMessage.length ≤ 77 ∧
    categorizeMessage true Json.parse Example.breadMessage (.reply Example.numberReply) =
      .ok { categories := [.str CATEGORIES.GENERAL], foodCategory := .null, keywords := [],
            summaries := .obj [(CATEGORIES.GENERAL, .str (Example.breadMessage.take 80))],
            extractedSymptom := .null } :=
  ⟨rfl, fun h => JVal.noConfusion h, fun _ _ => rfl, by decide,
    (C11_reply_without_fields true Json.parse Example.breadMessage Example.numberReply
      (.num "5".toList) rfl).1 (fun h => JVal.noConfusion h) (fun h => JVal.noConfusion h)
      (fun _ _ => rfl)⟩

theorem not_isCategory_mood : ¬ IsCategory (.str "mood".toList) := by
  rintro (h | h | h | h) <;> exact absurd (JVal.str.inj h) (by decide)

/-- C18, counterexample. The reply with the one category "mood" is decoded, and the
result holds the category "mood", which is none of symptom, dietary, trigger
and general. -/
theorem C18_counterexample :
    categorizeMessage false Json.parse Example.breadMessage (.reply Example.unknownLabelReply) =
      .ok { categories := [.str "mood".toList], foodCategory := .null, keywords := [],
            summaries := .obj [("mood".toList, .str Example.breadMessage)],
            extractedSymptom := .null } ∧
    categorizeMessage true Json.parse Example.breadMessage (.reply Example.unknownLabelReply) =
      .ok { categories := [.str "mood".toList], foodCategory := .null, keywords := [],
            summaries := .obj [("mood".toList, .str Example.breadMessage)],
            extractedSymptom := .null } ∧
    ¬ IsCategory (.str "mood".toList) :=
  ⟨rfl, rfl, not_isCategory_mood⟩

/-- C18, amended. For every message and every outcome of the classifier call, every
category of the result is general, or an item of the `categories` list of the
decoded reply, or the legacy `category` value of the decoded reply when that is
truthy; the values of the reply are taken as they are, none is checked. So the
categories of the result are among symptom, dietary, trigger and general
whenever the values the reply supplies are. -/
theorem C18_categories_from_reply (strictCode : Bool) (parse : JsString → Option JVal)
    (message : JsString) (outcome : ClassifierOutcome) (c : CategorizationObject)
    (hc : categorizeMessage strictCode parse message outcome = .ok c) :
    (∀ cat ∈ c.categories,
      cat = .str CATEGORIES.GENERAL ∨
      ∃ content result, outcome = .reply content ∧
        parse (cleanContent content) = some result ∧
        ((∃ xs, result.get "categories".toList = .arr xs ∧ cat ∈ xs) ∨
          (cat = result.get "category".toList ∧
            (result.get "category".toList).truthy = true))) ∧
    ((∀ content result, outcome = .reply content →
        parse (cleanContent content) = some result →
        (∀ xs, result.get "categories".toList = .arr xs → ∀ x ∈ xs, IsCategory x) ∧
        ((result.get "category".toList).truthy = true →
          IsCategory (result.get "category".toList))) →
      ∀ cat ∈ c.categories, IsCategory cat) := by
  have first : ∀ cat ∈ c.categories,
      cat = .str CATEGORIES.GENERAL ∨
      ∃ content result, outcome = .reply content ∧
        parse (cleanContent content) = some result ∧
        ((∃ xs, result.get "categories".toList = .arr xs ∧ cat ∈ xs) ∨
          (cat = result.get "category".toList ∧
            (result.get "category".toList).truthy = true)) := by
    intro cat hcat
    rcases categorizeMessage_cases strictCode parse message outcome c hc with h | h
    · obtain ⟨content, result, ho, hp, hb⟩ := tryBlock_ok strictCode parse message outcome c h
      have hcats := (build_fields strictCode message result c hb).2.2.1
      rw [hcats] at hcat
      cases hi : (result.get "categories".toList).items? with
      | some xs =>
        rw [hi] at hcat
        exact Or.inr ⟨content, result, ho, hp,
          Or.inl ⟨xs, (items?_eq_some_iff _ xs).1 hi, hcat⟩⟩
      | none =>
        rw [hi] at hcat
        simp only [List.mem_singleton] at hcat
        by_cases ht : (result.get "category".toList).truthy = true
        · right
          refine ⟨content, result, ho, hp, Or.inr ⟨?_, ht⟩⟩
          rw [hcat, JVal.orElse, if_pos ht]
        · left
          rw [hcat, JVal.orElse, if_neg ht]
    · rw [h] at hcat
      simp only [categorizeMessage.catchBlock, List.mem_singleton] at hcat
      exact Or.inl hcat
  refine ⟨first, ?_⟩
  intro hall cat hcat
  rcases first cat hcat with h | ⟨content, result, ho, hp, h | h⟩
  · rw [h]
    exact Or.inr (Or.inr (Or.inr rfl))
  · obtain ⟨xs, hxs, hmem⟩ := h
    exact (hall content result ho hp).1 xs hxs cat hmem
  · rw [h.1]
    exact (hall content result ho hp).2 h.2

/-- C18, witness: the reply with the one category "mood". -/
theorem C18_categories_from_reply_witness :
    categorizeMessage false Json.parse Example.breadMessage (.reply Example.unknownLabelReply) =
      .ok { categories := [.str "mood".toList], foodCategory := .null, keywords := [],
            summaries := .obj [("mood".toList, .str Example.breadMessage)],
            extractedSymptom := .null } ∧
    ∀ cat ∈ [JVal.str "mood".toList],
      cat = .str CATEGORIES.GENERAL ∨
      ∃ content result, ClassifierOutcome.reply Example.unknownLabelReply = .reply content ∧
        Json.parse (cleanContent content) = some result ∧
        ((∃ xs, result.get "categories".toList = .arr xs ∧ cat ∈ xs) ∨
          (cat = result.get "category".toList ∧
            (result.get "category".toList).truthy = true)) :=
  ⟨rfl, (C18_categories_from_reply false Json.parse Example.breadMessage
    (.reply Example.unknownLabelReply)
    { categories := [.str "mood".toList], foodCategory := .null, keywords := [],
      summaries := .obj [("mood".toList, .str Example.breadMessage)],
      extractedSymptom := .null } rfl).1⟩

/-! ### The summaries made when the reply gives none -/

theorem mem_setMember (ms : List (JsString × JVal)) (k : JsString) (v : JVal)
    (p : JsString × JVal) (h : p ∈ setMember ms k v) : p = (k, v) ∨ p ∈ ms := by
  induction ms with
  | nil =>
    simp only [setMember, List.mem_singleton] at h
    exact Or.inl h
  | cons q rest ih =>
    obtain ⟨k1, w⟩ := q
    unfold setMember at h
    by_cases hk : k1 = k
    · simp only [hk, if_true, List.mem_cons] at h
      rcases h with h | h
      · exact Or.inl h
      · exact Or.inr (List.mem_cons_of_mem _ h)
    · simp only [hk, if_false, List.mem_cons] at h
      rcases h with h | h
      · exact Or.inr (h ▸ List.mem_cons_self _ _)
      · rcases ih h with h1 | h1
        · exact Or.inl h1
        · exact Or.inr (List.mem_cons_of_mem _ h1)

theorem setMember_mem_self (ms : List (JsString × JVal)) (k : JsString) (v : JVal) :
    (k, v) ∈ setMember ms k v := by
  induction ms with
  | nil => simp [setMember]
  | cons q rest ih =>
    obtain ⟨k1, w⟩ := q
    unfold setMember
    by_cases hk : k1 = k
    · simp [hk]
    · simp only [hk, if_false]
      exact List.mem_cons_of_mem _ ih

theorem setMember_mem_keep (ms : List (JsString × JVal)) (k k1 : JsString) (v : JVal)
    (h : (k1, v) ∈ ms) : (k1, v) ∈ setMember ms k v := by
  induction ms with
  | nil => cases h
  | cons q rest ih =>
    obtain ⟨k2, w⟩ := q
    unfold setMember
    by_cases hk : k2 = k
    · simp only [hk, if_true]
      rcases List.mem_cons.1 h with h | h
      · have h1 : k1 = k2 := (Prod.mk.inj h).1
        rw [h1, hk]
        exact List.mem_cons_self _ _
      · exact List.mem_cons_of_mem _ h
    · simp only [hk, if_false]
      rcases List.mem_cons.1 h with h | h
      · rw [h]
        exact List.mem_cons_self _ _
      · exact List.mem_cons_of_mem _ (ih h)

theorem setMember_keys_nodup (ms : List (JsString × JVal)) (k : JsString) (v : JVal)
    (h : (ms.map Prod.fst).Nodup) : ((setMember ms k v).map Prod.fst).Nodup := by
  induction ms with
  | nil => simp [setMember]
  | cons q rest ih =>
    obtain ⟨k1, w⟩ := q
    unfold setMember
    by_cases hk : k1 = k
    · simp only [hk, if_true]
      rw [hk] at h
      exact h
    · simp only [hk, if_false, List.map_cons, List.nodup_cons]
      simp only [List.map_cons, List.nodup_cons] at h
      refine ⟨?_, ih h.2⟩
      intro hmem
      obtain ⟨p, hp, hp1⟩ := List.mem_map.1 hmem
      rcases mem_setMember rest k v p hp with h1 | h1
      · rw [h1] at hp1
        exact hk hp1.symm
      · exact h.1 (List.mem_map.2 ⟨p, h1, hp1⟩)

theorem lookup_of_mem_nodup (ms : List (JsString × JVal)) (k : JsString) (v : JVal)
    (hn : (ms.map Prod.fst).Nodup) (h : (k, v) ∈ ms) : ms.lookup k = some v := by
  induction ms with
  | nil => cases h
  | cons q rest ih =>
    obtain ⟨k1, w⟩ := q
    simp only [List.map_cons, List.nodup_cons] at hn
    rcases List.mem_cons.1 h with h | h
    · obtain ⟨h1, h2⟩ := Prod.mk.inj h
      subst h1 h2
      simp [List.lookup]
    · have hne : k ≠ k1 := by
        intro hh
        exact hn.1 (List.mem_map.2 ⟨(k, v), h, hh⟩)
      have hb : (k == k1) = false := by
        rw [← Bool.not_eq_true, beq_iff_eq]
        exact hne
      simp only [List.lookup, hb]
      exact ih hn.2 h

theorem Assigned.set_members (st : Assigned) (key : JsString) (v : JVal) :
    (st.set key v).members = setMember st.members key v ∨
      ((st.set key v).members = st.members ∧ key = "__proto__".toList) := by
  unfold Assigned.set
  by_cases hk : key = "__proto__".toList
  · rw [if_pos hk]
    split_ifs
    · exact Or.inl rfl
    · exact Or.inl rfl
    · right
      refine ⟨?_, hk⟩
      split <;> rfl
  · rw [if_neg hk]
    exact Or.inl rfl

theorem Assigned.set_members_of_ne (st : Assigned) (key : JsString) (v : JVal)
    (hk : key ≠ "__proto__".toList) :
    (st.set key v).members = setMember st.members key v := by
  unfold Assigned.set
  rw [if_neg hk]

/-- The loop on an object: it returns exactly when every category converts to a
property name. -/
theorem assignMembers_object_returns (v : JVal) (cats : List JVal) (st : Assigned) :
    (∃ st1, assignMembers false v st cats = .ok st1) ↔
      ∀ cat ∈ cats, ∃ key, cat.toText = .ok key := by
  induction cats generalizing st with
  | nil => simp [assignMembers]
  | cons x rest ih =>
    unfold assignMembers
    cases hx : x.toText with
    | error e =>
      simp only [List.mem_cons, forall_eq_or_imp, hx]
      constructor
      · rintro ⟨_, h⟩
        cases h
      · rintro ⟨⟨_, h⟩, _⟩
        cases h
    | ok key =>
      simp only [List.mem_cons, forall_eq_or_imp, hx, Bool.false_eq_true, false_and, if_false]
      rw [ih]
      constructor
      · intro h
        exact ⟨⟨key, rfl⟩, h⟩
      · intro h
        exact h.2

/-- The loop on an object, when it returns: the names of the members stay distinct,
each member that was not there is a category with the value assigned, the
members that have this value stay, and each category whose name is not
`__proto__` has its member. -/
theorem assignMembers_object (v : JVal) (cats : List JVal) (st st1 : Assigned)
    (h : assignMembers false v st cats = .ok st1) :
    ((st.members.map Prod.fst).Nodup → (st1.members.map Prod.fst).Nodup) ∧
    (∀ p ∈ st1.members, p ∈ st.members ∨ (p.2 = v ∧ ∃ cat ∈ cats, cat.toText = .ok p.1)) ∧
    (∀ k, (k, v) ∈ st.members → (k, v) ∈ st1.members) ∧
    (∀ cat ∈ cats, ∀ key, cat.toText = .ok key → key ≠ "__proto__".toList →
      (key, v) ∈ st1.members) := by
  induction cats generalizing st with
  | nil =>
    simp only [assignMembers, Except.ok.injEq] at h
    subst h
    simp
  | cons x rest ih =>
    unfold assignMembers at h
    cases hx : x.toText with
    | error e =>
      rw [hx] at h
      cases h
    | ok key =>
      rw [hx] at h
      simp only [Bool.false_eq_true, false_and, if_false] at h
      obtain ⟨ih1, ih2, ih3, ih4⟩ := ih (st.set key v) h
      have hcases := Assigned.set_members st key v
      refine ⟨?_, ?_, ?_, ?_⟩
      · intro hn
        apply ih1
        rcases hcases with hc | hc
        · rw [hc]
          exact setMember_keys_nodup st.members _ _ hn
        · rw [hc.1]
          exact hn
      · intro p hp
        rcases ih2 p hp with h1 | ⟨h1, cat, hcat, hk⟩
        · rcases hcases with hc | hc
          · rw [hc] at h1
            rcases mem_setMember st.members _ _ p h1 with h2 | h2
            · right
              rw [h2]
              exact ⟨rfl, x, List.mem_cons_self _ _, hx⟩
            · exact Or.inl h2
          · rw [hc.1] at h1
            exact Or.inl h1
        · exact Or.inr ⟨h1, cat, List.mem_cons_of_mem _ hcat, hk⟩
      · intro k hk
        apply ih3
        rcases hcases with hc | hc
        · rw [hc]
          exact setMember_mem_keep st.members _ k v hk
        · rw [hc.1]
          exact hk
      · intro cat hcat key1 hkey1 hne
        rcases List.mem_cons.1 hcat with hh | hh
        · subst hh
          rw [hx] at hkey1
          cases hkey1
          apply ih3
          rw [Assigned.set_members_of_ne st key v hne]
          exact setMember_mem_self st.members _ v
        · exact ih4 cat hh key1 hkey1 hne

/-- C13, counterexample. (1) The reply whose category is an object with a member
`toString` is decoded and gives no `summaries`. The conversion of the category
to a property name throws, and the result is the object of the `catch` block:
for a message of 78 characters the summary of general is the first 77
characters followed by "...", not the first 80 characters. (2) The reply with
the categories `__proto__` and dietary is decoded and gives no `summaries`. The
result has both categories, and its summaries have the one member dietary: the
assignment under the name `__proto__` has made no member. -/
theorem C13_counterexample :
    (Json.parse (cleanContent Example.toStringCategoryReply)).map
        (fun v => (v.get "summaries".toList).truthy) = some false ∧
    categorizeMessage false Json.parse Example.longMessage
        (.reply Example.toStringCategoryReply) =
      .ok { categories := [.str CATEGORIES.GENERAL], foodCategory := .null, keywords := [],
            summaries := .obj [(CATEGORIES.GENERAL,
              .str (List.replicate 77 'a' ++ "...".toList))],
            extractedSymptom := .null } ∧
    Example.longMessage.take 80 ≠ List.replicate 77 'a' ++ "...".toList ∧
    (Json.parse (cleanContent Example.protoCategoryReply)).map
        (fun v => (v.get "summaries".toList).truthy) = some false ∧
    categorizeMessage false Json.parse Example.breadMessage
        (.reply Example.protoCategoryReply) =
      .ok { categories := [.str "__proto__".toList, .str "dietary".toList],
            foodCategory := .null, keywords := [],
            summaries := .obj [("dietary".toList, .str Example.breadMessage)],
            extractedSymptom := .null } :=
  ⟨rfl, rfl, by decide, rfl, rfl⟩

/-- C13, amended. Take a message and a decoded reply, not null, whose `summaries` is
missing (absent, or a falsy value such as null) or the empty object. The `try`
block returns the result exactly when every category converts to a property
name, as every string, number and boolean does. The summaries of the result
are then an object in which no name occurs twice, each category whose name is
not `__proto__` has its member under its name, and each member is under the
name of a category. Each member is the `summary` field of the reply when that
is provided (a truthy value), and the first 80 characters of the message
otherwise. -/
theorem C13_summaries_normalization (strictCode : Bool) (parse : JsString → Option JVal)
    (message content : JsString) (result : JVal)
    (hp : parse (cleanContent content) = some result)
    (hn : result ≠ .null) (hu : result ≠ .undefined)
    (hs : (result.get "summaries".toList).truthy = false ∨
      result.get "summaries".toList = .obj []) :
    ((∃ c, categorizeMessage.tryBlock strictCode parse message (.reply content) = .ok c) ↔
      ∀ cat ∈ (match (result.get "categories".toList).items? with
          | some xs => xs
          | none => [(result.get "category".toList).orElse (.str CATEGORIES.GENERAL)]),
        ∃ key, cat.toText = .ok key) ∧
    ∀ c, categorizeMessage.tryBlock strictCode parse message (.reply content) = .ok c →
      categorizeMessage strictCode parse message (.reply content) = .ok c ∧
      ∃ ms : List (JsString × JVal),
        c.summaries = .obj ms ∧
        (ms.map Prod.fst).Nodup ∧
        (∀ cat ∈ c.categories, ∀ key, cat.toText = .ok key → key ≠ "__proto__".toList →
          ms.lookup key =
            some (if (result.get "summary".toList).truthy then result.get "summary".toList
              else .str (message.take 80))) ∧
        (∀ p ∈ ms, (∃ cat ∈ c.categories, cat.toText = .ok p.1) ∧
          p.2 = (if (result.get "summary".toList).truthy then result.get "summary".toList
            else .str (message.take 80))) := by
  have hsum : (result.get "summaries".toList).orElse (.obj []) = .obj [] := by
    rcases hs with h | h
    · rw [JVal.orElse, if_neg (by rw [h]; exact Bool.false_ne_true)]
    · rw [h]
      rfl
  have hbuild : categorizeMessage.build strictCode message result =
      match assignMembers false ((result.get "summary".toList).orElse (.str (message.take 80)))
          { members := [], proto := none }
          (match (result.get "categories".toList).items? with
            | some xs => xs
            | none => [(result.get "category".toList).orElse (.str CATEGORIES.GENERAL)]) with
      | .error e => .error e
      | .ok st =>
        .ok
          { categories :=
              (match (result.get "categories".toList).items? with
                | some xs => xs
                | none => [(result.get "category".toList).orElse (.str CATEGORIES.GENERAL)])
            foodCategory := (result.get "foodCategory".toList).orElse .null
            keywords :=
              match (result.get "keywords".toList).items? with
              | some ks => ks.take 5
              | none => []
            summaries := .obj st.members
            extractedSymptom := (result.get "extractedSymptom".toList).orElse .null } := by
    unfold categorizeMessage.build
    split
    · exact absurd rfl hn
    · exact absurd rfl hu
    · simp only [hsum, JVal.keyCount, List.length_nil, if_true, assignSummaries]
      generalize assignMembers false _ _ _ = r
      cases r <;> rfl
  rw [tryBlock_reply strictCode parse message content result hp, hbuild]
  refine ⟨?_, ?_⟩
  · rw [← assignMembers_object_returns
      ((result.get "summary".toList).orElse (.str (message.take 80))) _
      { members := [], proto := none }]
    constructor
    · rintro ⟨c, hc⟩
      split at hc
      · cases hc
      · rename_i st hst
        exact ⟨st, hst⟩
    · rintro ⟨st, hst⟩
      rw [hst]
      exact ⟨_, rfl⟩
  · intro c hc
    refine ⟨?_, ?_⟩
    · simp only [categorizeMessage, tryBlock_reply strictCode parse message content result hp,
        hbuild, hc]
    · split at hc
      · cases hc
      · rename_i st hst
        cases hc
        obtain ⟨f1, f2, _, f4⟩ := assignMembers_object _ _ _ st hst
        have hnodup := f1 (by simp)
        refine ⟨st.members, rfl, hnodup, ?_, ?_⟩
        · intro cat hcat key hkey hne
          exact lookup_of_mem_nodup _ _ _ hnodup (f4 cat hcat key hkey hne)
        · intro p hpm
          rcases f2 p hpm with h | ⟨h1, h2⟩
          · cases h
          · exact ⟨h2, h1⟩

/-- C13, witness: the reply with the legacy fields `category` and `summary`. -/
theorem C13_summaries_normalization_witness :
    Json.parse (cleanContent Example.sixKeywordsReply) = some Example.sixKeywordsValue ∧
    (Example.sixKeywordsValue.get "summaries".toList).truthy = false ∧
    categorizeMessage.tryBlock true Json.parse Example.breadMessage
      (.reply Example.sixKeywordsReply) = .ok Example.sixKeywordsObject ∧
    ∃ ms : List (JsString × JVal),
      Example.sixKeywordsObject.summaries = .obj ms ∧
      (ms.map Prod.fst).Nodup ∧
      (∀ cat ∈ Example.sixKeywordsObject.categories, ∀ key, cat.toText = .ok key →
        key ≠ "__proto__".toList →
        ms.lookup key =
          some (if (Example.sixKeywordsValue.get "summary".toList).truthy then
              Example.sixKeywordsValue.get "summary".toList
            else .str (Example.breadMessage.take 80))) ∧
      (∀ p ∈ ms, (∃ cat ∈ Example.sixKeywordsObject.categories, cat.toText = .ok p.1) ∧
        p.2 = (if (Example.sixKeywordsValue.get "summary".toList).truthy then
            Example.sixKeywordsValue.get "summary".toList
          else .str (Example.breadMessage.take 80))) :=
  ⟨rfl, rfl, rfl,
    ((C13_summaries_normalization true Json.parse Example.breadMessage
      Example.sixKeywordsReply Example.sixKeywordsValue rfl (fun h => JVal.noConfusion h)
      (fun h => JVal.noConfusion h) (Or.inl rfl)).2 Example.sixKeywordsObject rfl).2⟩

/-! ### The removal of the fences -/

theorem removeFence_zero (fence s : JsString) : removeFence fence 0 s = s := by
  cases s <;> rfl

theorem removeFence_nil (fence : JsString) (fuel : Nat) : removeFence fence fuel [] = [] := by
  cases fuel <;> rfl

theorem removeFence_plain (fence pre rest : JsString) (fuel : Nat)
    (hf : fence.head? = some (Char.ofNat 96)) (hpre : Char.ofNat 96 ∉ pre) :
    removeFence fence fuel (pre ++ rest) =
      pre ++ removeFence fence (fuel - pre.length) rest := by
  induction pre generalizing fuel with
  | nil => simp
  | cons ch pre1 ih =>
    cases fuel with
    | zero => simp [removeFence_zero]
    | succ f =>
      have hch : ch ≠ Char.ofNat 96 := fun h => hpre (h ▸ List.mem_cons_self _ _)
      have hpre1 : Char.ofNat 96 ∉ pre1 := fun h => hpre (List.mem_cons_of_mem _ h)
      have hnot : ¬ (fence ≠ [] ∧ fence.isPrefixOf (ch :: (pre1 ++ rest)) = true) := by
        rintro ⟨_, hp⟩
        cases fence with
        | nil => cases hf
        | cons a as =>
          simp only [List.head?_cons, Option.some.injEq] at hf
          subst hf
          simp only [List.isPrefixOf, Bool.and_eq_true, beq_iff_eq] at hp
          exact hch hp.1.symm
      rw [List.cons_append, removeFence, if_neg hnot, ih f hpre1, List.cons_append,
        List.length_cons, Nat.add_sub_add_right]

theorem removeFence_of_no_backtick (fence s : JsString) (fuel : Nat)
    (hf : fence.head? = some (Char.ofNat 96)) (hs : Char.ofNat 96 ∉ s) :
    removeFence fence fuel s = s := by
  have h := removeFence_plain fence s [] fuel hf hs
  rw [List.append_nil, removeFence_nil, List.append_nil] at h
  exact h

theorem removeJson_tail (fuel : Nat) :
    removeFence "```json".toList fuel (Char.ofNat 10 :: "```".toList) =
      Char.ofNat 10 :: "```".toList := by
  rcases fuel with _ | _ | _ | _ | fuel
  · rfl
  · rfl
  · rfl
  · rfl
  · have h : removeFence "```json".toList (fuel + 1 + 1 + 1 + 1)
        (Char.ofNat 10 :: "```".toList) =
        Char.ofNat 10 :: "```".toList ++ removeFence "```json".toList fuel [] := rfl
    rw [h, removeFence_nil, List.append_nil]

theorem removeTriple_tail (fuel : Nat) :
    removeFence "```".toList (fuel + 2) (Char.ofNat 10 :: "```".toList) = [Char.ofNat 10] := by
  rfl

theorem stepJ (f : Nat) (rest : JsString) :
    removeFence "```json".toList (f + 1) ("```json".toList ++ Char.ofNat 10 :: rest) =
      removeFence "```json".toList f rest := by
  rfl

theorem stepT (f : Nat) (rest : JsString) :
    removeFence "```".toList (f + 1) ("```".toList ++ Char.ofNat 10 :: rest) =
      removeFence "```".toList f rest := by
  rfl

theorem stepPlainJ (f : Nat) (rest : JsString) :
    removeFence "```json".toList (f + 3) ("```".toList ++ Char.ofNat 10 :: rest) =
      "```".toList ++ removeFence "```json".toList f (Char.ofNat 10 :: rest) := by
  rfl

theorem removeFence_single (fence : JsString) (f : Nat) (h : 2 ≤ fence.length) :
    removeFence fence f [Char.ofNat 96] = [Char.ofNat 96] := by
  cases f with
  | zero => rfl
  | succ f =>
    have hnot : ¬ (fence ≠ [] ∧ fence.isPrefixOf [Char.ofNat 96] = true) := by
      rintro ⟨_, hp⟩
      match fence, h with
      | a :: b :: rest, _ => simp [List.isPrefixOf] at hp
    rw [removeFence, if_neg hnot]
    cases f <;> rfl

theorem dropWhile_isTrimmed_eq_self (s : JsString)
    (h : ∀ ch, s.head? = some ch → isTrimmed ch = false) :
    s.dropWhile isTrimmed = s := by
  cases s with
  | nil => rfl
  | cons a t =>
    have ha := h a rfl
    simp [List.dropWhile, ha]

theorem jsTrim_eq_self (s : JsString)
    (hhead : ∀ ch, s.head? = some ch → isTrimmed ch = false)
    (hlast : ∀ ch, s.getLast? = some ch → isTrimmed ch = false) :
    jsTrim s = s := by
  unfold jsTrim
  rw [dropWhile_isTrimmed_eq_self s hhead, dropWhile_isTrimmed_eq_self s.reverse,
    List.reverse_reverse]
  intro ch hch
  rw [List.head?_reverse] at hch
  exact hlast ch hch

theorem jsTrim_append_lineFeed (j : JsString)
    (hhead : ∀ ch, j.head? = some ch → isTrimmed ch = false)
    (hlast : ∀ ch, j.getLast? = some ch → isTrimmed ch = false) :
    jsTrim (j ++ [Char.ofNat 10]) = j := by
  cases j with
  | nil => rfl
  | cons a t =>
    unfold jsTrim
    have h1 : ((a :: t) ++ [Char.ofNat 10]).dropWhile isTrimmed =
        (a :: t) ++ [Char.ofNat 10] :=
      dropWhile_isTrimmed_eq_self _ (fun ch hch => hhead ch (by simpa using hch))
    rw [h1, List.reverse_append]
    have h2 : ([Char.ofNat 10].reverse ++ (a :: t).reverse).dropWhile isTrimmed =
        (a :: t).reverse.dropWhile isTrimmed := rfl
    rw [h2, dropWhile_isTrimmed_eq_self (a :: t).reverse, List.reverse_reverse]
    intro ch hch
    rw [List.head?_reverse] at hch
    exact hlast ch hch

theorem filter_no_backtick (s : JsString) (hs : Char.ofNat 96 ∉ s) :
    s.filter (fun ch => decide (ch ≠ Char.ofNat 96)) = s := by
  rw [List.filter_eq_self]
  intro a ha
  simp only [decide_eq_true_eq]
  intro h
  exact hs (h ▸ ha)

theorem jsTrim_backticks (mid : JsString) :
    jsTrim (Char.ofNat 96 :: (mid ++ [Char.ofNat 96])) =
      Char.ofNat 96 :: (mid ++ [Char.ofNat 96]) := by
  have hr : (Char.ofNat 96 :: (mid ++ [Char.ofNat 96])).reverse =
      Char.ofNat 96 :: (mid.reverse ++ [Char.ofNat 96]) := by
    simp
  unfold jsTrim
  rw [dropWhile_isTrimmed_eq_self (Char.ofNat 96 :: (mid ++ [Char.ofNat 96]))
      (fun ch hch => by cases hch; rfl), hr,
    dropWhile_isTrimmed_eq_self (Char.ofNat 96 :: (mid.reverse ++ [Char.ofNat 96]))
      (fun ch hch => by cases hch; rfl), ← hr, List.reverse_reverse]

theorem cleanContent_plain (j : JsString) (hb : Char.ofNat 96 ∉ j)
    (hhead : ∀ ch, j.head? = some ch → isTrimmed ch = false)
    (hlast : ∀ ch, j.getLast? = some ch → isTrimmed ch = false) :
    cleanContent j = j := by
  unfold cleanContent
  simp only [jsTrim_eq_self j hhead hlast,
    removeFence_of_no_backtick "```json".toList j _ rfl hb,
    removeFence_of_no_backtick "```".toList j _ rfl hb,
    filter_no_backtick j hb]

theorem lineFeed_filter (j : JsString) (hb : Char.ofNat 96 ∉ j) :
    (j ++ [Char.ofNat 10]).filter (fun ch => decide (ch ≠ Char.ofNat 96)) =
      j ++ [Char.ofNat 10] := by
  apply filter_no_backtick
  intro h
  rcases List.mem_append.1 h with h | h
  · exact hb h
  · exact absurd (List.mem_singleton.1 h) (by decide)

theorem removeTriple_rest (j : JsString) (hb : Char.ofNat 96 ∉ j) :
    removeFence "```".toList (j ++ Char.ofNat 10 :: "```".toList).length
      (j ++ Char.ofNat 10 :: "```".toList) = j ++ [Char.ofNat 10] := by
  have hlen1 : (j ++ Char.ofNat 10 :: "```".toList).length = j.length + (2 + 2) := by
    simp
  rw [hlen1, removeFence_plain "```".toList j _ _ rfl hb, Nat.add_sub_cancel_left,
    removeTriple_tail]

theorem cleanContent_wrapJsonFence (j : JsString) (hb : Char.ofNat 96 ∉ j)
    (hhead : ∀ ch, j.head? = some ch → isTrimmed ch = false)
    (hlast : ∀ ch, j.getLast? = some ch → isTrimmed ch = false) :
    cleanContent (wrapJsonFence j) = j := by
  have h0 : jsTrim (wrapJsonFence j) = wrapJsonFence j := by
    have hw : wrapJsonFence j = Char.ofNat 96 ::
        (("``json".toList ++ Char.ofNat 10 :: (j ++ Char.ofNat 10 :: "``".toList)) ++
          [Char.ofNat 96]) := by
      simp [wrapJsonFence]
    rw [hw]
    exact jsTrim_backticks _
  have hlen : (wrapJsonFence j).length = (j.length + 11) + 1 := by
    simp [wrapJsonFence]
  have h1 : removeFence "```json".toList (wrapJsonFence j).length (wrapJsonFence j) =
      j ++ Char.ofNat 10 :: "```".toList := by
    rw [hlen]
    unfold wrapJsonFence
    rw [stepJ, removeFence_plain "```json".toList j _ _ rfl hb, removeJson_tail]
  unfold cleanContent
  simp only [h0, h1, removeTriple_rest j hb, lineFeed_filter j hb]
  exact jsTrim_append_lineFeed j hhead hlast

theorem cleanContent_wrapFence (j : JsString) (hb : Char.ofNat 96 ∉ j)
    (hhead : ∀ ch, j.head? = some ch → isTrimmed ch = false)
    (hlast : ∀ ch, j.getLast? = some ch → isTrimmed ch = false) :
    cleanContent (wrapFence j) = j := by
  have h0 : jsTrim (wrapFence j) = wrapFence j := by
    have hw : wrapFence j = Char.ofNat 96 ::
        (("``".toList ++ Char.ofNat 10 :: (j ++ Char.ofNat 10 :: "``".toList)) ++
          [Char.ofNat 96]) := by
      simp [wrapFence]
    rw [hw]
    exact jsTrim_backticks _
  have hlen : (wrapFence j).length = (j.length + 5) + 3 := by
    simp [wrapFence]
  have hnl : Char.ofNat 96 ∉ Char.ofNat 10 :: j := by
    intro h
    rcases List.mem_cons.1 h with h | h
    · exact absurd h (by decide)
    · exact hb h
  have h1 : removeFence "```json".toList (wrapFence j).length (wrapFence j) = wrapFence j := by
    rw [hlen]
    unfold wrapFence
    rw [stepPlainJ]
    have : Char.ofNat 10 :: (j ++ Char.ofNat 10 :: "```".toList) =
        (Char.ofNat 10 :: j) ++ Char.ofNat 10 :: "```".toList := rfl
    rw [this, removeFence_plain "```json".toList _ _ _ rfl hnl, removeJson_tail]
  have hlen2 : (wrapFence j).length = (j.length + 7) + 1 := by
    simp [wrapFence]
  have h2 : removeFence "```".toList (wrapFence j).length (wrapFence j) =
      j ++ [Char.ofNat 10] := by
    rw [hlen2]
    unfold wrapFence
    rw [stepT, removeFence_plain "```".toList j _ _ rfl hb]
    have : j.length + 7 - j.length = 5 + 2 := by omega
    rw [this, removeTriple_tail]
  unfold cleanContent
  simp only [h0, h1, h2, lineFeed_filter j hb]
  exact jsTrim_append_lineFeed j hhead hlast

theorem removeFence_wrapBackticks (fence j : JsString) (fuel : Nat)
    (hf : fence.head? = some (Char.ofNat 96)) (hf2 : fence.tail.head? = some (Char.ofNat 96))
    (hlen : 3 ≤ fence.length) (hb : Char.ofNat 96 ∉ j) :
    removeFence fence fuel (wrapBackticks j) = wrapBackticks j := by
  unfold wrapBackticks
  cases fuel with
  | zero => exact removeFence_zero _ _
  | succ f =>
    have hnot : ¬ (fence ≠ [] ∧
        fence.isPrefixOf (Char.ofNat 96 :: (j ++ [Char.ofNat 96])) = true) := by
      rintro ⟨_, hp⟩
      match fence, hf, hf2, hlen with
      | a :: b :: c :: rest, _, hf2, _ =>
        simp only [List.tail_cons, List.head?_cons, Option.some.injEq] at hf2
        subst hf2
        cases j with
        | nil => simp [List.isPrefixOf] at hp
        | cons x t =>
          have hx : x ≠ Char.ofNat 96 := fun h => hb (h ▸ List.mem_cons_self _ _)
          simp only [List.cons_append, List.isPrefixOf, Bool.and_eq_true, beq_iff_eq] at hp
          exact hx hp.2.1.symm
    rw [removeFence, if_neg hnot, removeFence_plain fence j _ _ hf hb,
      removeFence_single fence _ (by omega)]

theorem cleanContent_wrapBackticks (j : JsString) (hb : Char.ofNat 96 ∉ j)
    (hhead : ∀ ch, j.head? = some ch → isTrimmed ch = false)
    (hlast : ∀ ch, j.getLast? = some ch → isTrimmed ch = false) :
    cleanContent (wrapBackticks j) = j := by
  have h0 : jsTrim (wrapBackticks j) = wrapBackticks j := jsTrim_backticks j
  have h3 : (wrapBackticks j).filter (fun ch => decide (ch ≠ Char.ofNat 96)) = j := by
    unfold wrapBackticks
    simp only [List.filter_cons, List.filter_append, filter_no_backtick j hb]
    simp
  unfold cleanContent
  simp only [h0, removeFence_wrapBackticks "```json".toList j _ rfl rfl (by decide) hb,
    removeFence_wrapBackticks "```".toList j _ rfl rfl (by decide) hb, h3]
  exact jsTrim_eq_self j hhead hlast

/-- C16. For every text `j` without a backtick and with no white space at its start or
its end, the cleaning step of `categorizeMessage` gives back exactly `j` from `j`
wrapped in a fence marked json, from `j` wrapped in a plain fence, from `j`
between single backticks, and from `j` itself; so the fenced reply and the bare
reply are handed to `JSON.parse` as the same text and `categorizeMessage`
returns the same for both. -/
theorem C16_fence_stripping (j : JsString) (hb : Char.ofNat 96 ∉ j)
    (hhead : ∀ ch, j.head? = some ch → isTrimmed ch = false)
    (hlast : ∀ ch, j.getLast? = some ch → isTrimmed ch = false) :
    cleanContent (wrapJsonFence j) = j ∧
    cleanContent (wrapFence j) = j ∧
    cleanContent (wrapBackticks j) = j ∧
    cleanContent j = j ∧
    ∀ (strictCode : Bool) (parse : JsString → Option JVal) (message : JsString),
      categorizeMessage strictCode parse message (.reply (wrapJsonFence j)) =
        categorizeMessage strictCode parse message (.reply j) ∧
      categorizeMessage strictCode parse message (.reply (wrapFence j)) =
        categorizeMessage strictCode parse message (.reply j) ∧
      categorizeMessage strictCode parse message (.reply (wrapBackticks j)) =
        categorizeMessage strictCode parse message (.reply j) := by
  have h1 := cleanContent_wrapJsonFence j hb hhead hlast
  have h2 := cleanContent_wrapFence j hb hhead hlast
  have h3 := cleanContent_wrapBackticks j hb hhead hlast
  have h4 := cleanContent_plain j hb hhead hlast
  refine ⟨h1, h2, h3, h4, ?_⟩
  intro strictCode parse message
  simp only [categorizeMessage, categorizeMessage.tryBlock, h1, h2, h3, h4, and_self]

/-- C16, witness: the reply with the one category "mood". -/
theorem C16_fence_stripping_witness :
    Char.ofNat 96 ∉ Example.unknownLabelReply ∧
    cleanContent (wrapJsonFence Example.unknownLabelReply) = Example.unknownLabelReply ∧
    cleanContent (wrapFence Example.unknownLabelReply) = Example.unknownLabelReply ∧
    cleanContent (wrapBackticks Example.unknownLabelReply) = Example.unknownLabelReply ∧
    cleanContent Example.unknownLabelReply = Example.unknownLabelReply :=
  ⟨by decide,
    (C16_fence_stripping Example.unknownLabelReply (by decide)
      (fun ch h => by cases h; rfl) (fun ch h => by cases h; rfl)).1,
    (C16_fence_stripping Example.unknownLabelReply (by decide)
      (fun ch h => by cases h; rfl) (fun ch h => by cases h; rfl)).2.1,
    (C16_fence_stripping Example.unknownLabelReply (by decide)
      (fun ch h => by cases h; rfl) (fun ch h => by cases h; rfl)).2.2.1,
    (C16_fence_stripping Example.unknownLabelReply (by decide)
      (fun ch h => by cases h; rfl) (fun ch h => by cases h; rfl)).2.2.2.1⟩

/-! ### The dietary tallies -/

/-- The four counts after the loop over a list of entries: each count goes up by
the number of entries that name it. -/
theorem foldl_countFood (l : List TrackingEntry) (z : DietaryCounts) :
    (l.foldl countFood z).carbs =
        z.carbs + l.countP (fun entry => entry.foodCategory == some FOOD_CATEGORIES.CARBS) ∧
      (l.foldl countFood z).proteins =
        z.proteins + l.countP (fun entry => entry.foodCategory == some FOOD_CATEGORIES.PROTEINS) ∧
      (l.foldl countFood z).dairy =
        z.dairy + l.countP (fun entry => entry.foodCategory == some FOOD_CATEGORIES.DAIRY) ∧
      (l.foldl countFood z).fibre =
        z.fibre + l.countP (fun entry => entry.foodCategory == some FOOD_CATEGORIES.FIBRE) := by
  induction l generalizing z with
  | nil => simp
  | cons e rest ih =>
    obtain ⟨h1, h2, h3, h4⟩ := ih (countFood z e)
    rw [List.foldl_cons, h1, h2, h3, h4]
    simp only [List.countP_cons]
    have h12 : FOOD_CATEGORIES.CARBS ≠ FOOD_CATEGORIES.PROTEINS := by decide
    have h13 : FOOD_CATEGORIES.CARBS ≠ FOOD_CATEGORIES.DAIRY := by decide
    have h14 : FOOD_CATEGORIES.CARBS ≠ FOOD_CATEGORIES.FIBRE := by decide
    have h23 : FOOD_CATEGORIES.PROTEINS ≠ FOOD_CATEGORIES.DAIRY := by decide
    have h24 : FOOD_CATEGORIES.PROTEINS ≠ FOOD_CATEGORIES.FIBRE := by decide
    have h34 : FOOD_CATEGORIES.DAIRY ≠ FOOD_CATEGORIES.FIBRE := by decide
    rcases hf : e.foodCategory with _ | f
    · simp [countFood, hf]
    · by_cases hc : f = FOOD_CATEGORIES.CARBS
      · subst hc
        simp [countFood, hf, h12, h13, h14]
        omega
      · by_cases hp : f = FOOD_CATEGORIES.PROTEINS
        · subst hp
          simp [countFood, hf, h12.symm, h23, h24]
          omega
        · by_cases hd : f = FOOD_CATEGORIES.DAIRY
          · subst hd
            simp [countFood, hf, h13.symm, h23.symm, h34]
            omega
          · by_cases hfi : f = FOOD_CATEGORIES.FIBRE
            · subst hfi
              simp [countFood, hf, h14.symm, h24.symm, h34.symm]
              omega
            · simp [countFood, hf, hc, hp, hd, hfi]

/-- The loop adds at most one to the sum of the four counts for each entry. -/
theorem foldl_countFood_sum_le (l : List TrackingEntry) (z : DietaryCounts) :
    (l.foldl countFood z).carbs + (l.foldl countFood z).proteins +
        (l.foldl countFood z).dairy + (l.foldl countFood z).fibre ≤
      z.carbs + z.proteins + z.dairy + z.fibre + l.length := by
  induction l generalizing z with
  | nil => simp
  | cons e rest ih =>
    rw [List.foldl_cons, List.length_cons]
    refine le_trans (ih (countFood z e)) ?_
    have hstep : (countFood z e).carbs + (countFood z e).proteins + (countFood z e).dairy +
        (countFood z e).fibre ≤ z.carbs + z.proteins + z.dairy + z.fibre + 1 := by
      unfold countFood
      split
      · split_ifs <;> first | omega | (dsimp only; omega)
      · omega
    omega

/-- C21. For every sequence of stored entries, each of the counts carbs,
proteins, dairy and fibre of the summary is the number of entries with category
dietary whose foodCategory is that bucket (so entries of other categories and
dietary entries with null foodCategory add to no count), and the four counts
together do not exceed the number of dietary entries with a non-null
foodCategory. -/
theorem C21_dietary_tallies (es : List TrackingEntry) :
    (getTrackingSummary false (.entries es)).dietary.carbs =
        es.countP (fun entry => entry.category == CATEGORIES.DIETARY &&
          entry.foodCategory == some FOOD_CATEGORIES.CARBS) ∧
      (getTrackingSummary false (.entries es)).dietary.proteins =
        es.countP (fun entry => entry.category == CATEGORIES.DIETARY &&
          entry.foodCategory == some FOOD_CATEGORIES.PROTEINS) ∧
      (getTrackingSummary false (.entries es)).dietary.dairy =
        es.countP (fun entry => entry.category == CATEGORIES.DIETARY &&
          entry.foodCategory == some FOOD_CATEGORIES.DAIRY) ∧
      (getTrackingSummary false (.entries es)).dietary.fibre =
        es.countP (fun entry => entry.category == CATEGORIES.DIETARY &&
          entry.foodCategory == some FOOD_CATEGORIES.FIBRE) ∧
      (getTrackingSummary false (.entries es)).dietary.carbs +
          (getTrackingSummary false (.entries es)).dietary.proteins +
          (getTrackingSummary false (.entries es)).dietary.dairy +
          (getTrackingSummary false (.entries es)).dietary.fibre ≤
        es.countP (fun entry => entry.category == CATEGORIES.DIETARY &&
          entry.foodCategory.isSome) := by
  have hbucket : ∀ f : JsString, f ≠ [] →
      (es.filter isCountedDietary).countP (fun entry => entry.foodCategory == some f) =
        es.countP (fun entry => entry.category == CATEGORIES.DIETARY &&
          entry.foodCategory == some f) := by
    intro f hf
    rw [List.countP_filter]
    apply List.countP_congr
    intro x _
    rcases hx : x.foodCategory with _ | g
    · simp [isCountedDietary, hx]
    · by_cases hg : g = f
      · subst hg
        simp [isCountedDietary, hx, hf]
      · simp [isCountedDietary, hx, hg]
  obtain ⟨h1, h2, h3, h4⟩ := foldl_countFood (es.filter isCountedDietary)
    { carbs := 0, proteins := 0, dairy := 0, fibre := 0 }
  have hsum := foldl_countFood_sum_le (es.filter isCountedDietary)
    { carbs := 0, proteins := 0, dairy := 0, fibre := 0 }
  have hlen : (es.filter isCountedDietary).length ≤
      es.countP (fun entry => entry.category == CATEGORIES.DIETARY &&
        entry.foodCategory.isSome) := by
    rw [← List.countP_eq_length_filter]
    apply List.countP_mono_left
    intro x _ hx
    rcases hf : x.foodCategory with _ | g
    · simp [isCountedDietary, hf] at hx
    · simp [isCountedDietary, hf] at hx
      simp [hx.1]
  simp only [getTrackingSummary, getTrackingData, Bool.false_eq_true, if_false]
  refine ⟨?_, ?_, ?_, ?_, ?_⟩
  · rw [h1, hbucket _ (by decide)]; simp
  · rw [h2, hbucket _ (by decide)]; simp
  · rw [h3, hbucket _ (by decide)]; simp
  · rw [h4, hbucket _ (by decide)]; simp
  · simp only [Nat.zero_add] at hsum
    omega

/-! ### Failures of the store -/

/-- C22. For every stored collection, `clearTrackingData` (its `removeItem`
not rejecting) followed by `getTrackingData` yields the empty sequence, and the
summary made then is the summary of the empty sequence. -/
theorem C22_clear_round_trip (removeFails readFails : Bool) (st : Stored)
    (hremove : removeFails = false) :
    getTrackingData readFails (clearTrackingData removeFails st).2 = [] ∧
    getTrackingSummary readFails (clearTrackingData removeFails st).2 = Example.noEntries := by
  subst hremove
  cases readFails <;> simp [clearTrackingData, getTrackingData, getTrackingSummary, Example.noEntries]

/-- C22, witness: the store that holds "Ate bread" is cleared and read. -/
theorem C22_clear_round_trip_witness :
    getTrackingData false Example.breadStore ≠ [] ∧
    getTrackingData false (clearTrackingData false Example.breadStore).2 = [] :=
  ⟨by decide, (C22_clear_round_trip false false Example.breadStore rfl).1⟩

/-- C23, counterexample: a rejected `removeItem` leaves `clearTrackingData`
resolving normally, with the collection still stored; a rejected `getItem` inside
`saveTrackingEntry` leaves the call resolving to a new entry. -/
theorem C23_counterexample :
    clearTrackingData true Example.breadStore = (.ok (), Example.breadStore) ∧
    Example.readFailsEnv.readFails = true ∧
    (saveTrackingEntry Example.readFailsEnv Example.breadStore Example.breadEntry).1 =
      .ok (some (newEntry Example.readFailsEnv Example.breadEntry)) :=
  ⟨rfl, rfl, rfl⟩

/-- C23, amended. Of the failures of the store, one is surfaced: the call
`saveTrackingEntry` ends with an error exactly when it reaches its write (the
entry is no duplicate of the collection it read) and `setItem` rejects, and the
store is then left as it was. A rejected read inside `saveTrackingEntry` is
taken as the empty collection, and `clearTrackingData` resolves normally
whether `removeItem` rejects or not. -/
theorem C23_write_failure_is_rethrown (env : CallEnv) (st : Stored) (entry : EntryFields)
    (removeFails : Bool) :
    ((∃ e, (saveTrackingEntry env st entry).1 = .error e) ↔
      (env.writeFails = true ∧ isDuplicate (getTrackingData env.readFails st) entry = false)) ∧
    ((env.writeFails = true ∧ isDuplicate (getTrackingData env.readFails st) entry = false) →
      saveTrackingEntry env st entry = (.error .storage, st)) ∧
    (clearTrackingData removeFails st).1 = .ok () := by
  refine ⟨?_, ?_, ?_⟩
  · cases hd : isDuplicate (getTrackingData env.readFails st) entry <;>
      cases hw : env.writeFails <;> simp [saveTrackingEntry, hd, hw]
  · rintro ⟨hw, hd⟩
    unfold saveTrackingEntry
    simp [hw, hd]
  · unfold clearTrackingData
    split <;> rfl

/-- C23, witness: `setItem` rejects while "Ate bread" is handed over on the empty
store. -/
theorem C23_write_failure_is_rethrown_witness :
    Example.writeFailsEnv.writeFails = true ∧
    saveTrackingEntry Example.writeFailsEnv .absent Example.breadEntry =
      (.error .storage, .absent) :=
  ⟨rfl, (C23_write_failure_is_rethrown Example.writeFailsEnv .absent Example.breadEntry
    false).2.1 ⟨rfl, rfl⟩⟩

/-- C24. Whenever the read of the store fails or the stored text cannot be
decoded, `getTrackingData` returns the empty sequence, and `getTrackingSummary`
returns the empty summary: no symptoms, no triggers, all four dietary counts
zero and `totalEntries` zero. -/
theorem C24_read_failure_degrades (readFails : Bool) (st : Stored)
    (h : readFails = true ∨ st = .undecodable) :
    getTrackingData readFails st = [] ∧
    getTrackingSummary readFails st =
      { symptoms := []
        dietary := { carbs := 0, proteins := 0, dairy := 0, fibre := 0 }
        triggers := []
        totalEntries := 0 } := by
  have hdata : getTrackingData readFails st = [] := by
    rcases h with h | h
    · simp [getTrackingData, h]
    · subst h
      cases readFails <;> rfl
  refine ⟨hdata, ?_⟩
  simp [getTrackingSummary, hdata]

/-- C24, witness: the read fails on a store that holds "Ate bread". -/
theorem C24_read_failure_degrades_witness :
    getTrackingData false Example.breadStore ≠ [] ∧
    getTrackingData true Example.breadStore = [] ∧
    getTrackingSummary true Example.breadStore = Example.noEntries :=
  ⟨by decide, (C24_read_failure_degrades true Example.breadStore (Or.inl rfl)).1,
    (C24_read_failure_degrades true Example.breadStore (Or.inl rfl)).2⟩

/-- C28. For every stored collection and every entry, if the read of the
store fails, or the stored text cannot be decoded, inside `saveTrackingEntry`
while the write succeeds, the call behaves as on the empty store: the entry is
compared with nothing, a new entry is returned, and the collection stored
afterwards holds that entry alone, whatever was stored before. -/
theorem C28_read_failure_overwrites (env : CallEnv) (st : Stored) (entry : EntryFields)
    (hread : env.readFails = true ∨ st = .undecodable) (hwrite : env.writeFails = false) :
    saveTrackingEntry env st entry =
      (.ok (some (newEntry env entry)), .entries [newEntry env entry]) ∧
    saveTrackingEntry env st entry = saveTrackingEntry env .absent entry := by
  have hdata : getTrackingData env.readFails st = [] := by
    rcases hread with h | h
    · simp [getTrackingData, h]
    · subst h
      cases env.readFails <;> rfl
  have habsent : getTrackingData env.readFails .absent = [] := by
    cases env.readFails <;> rfl
  simp [saveTrackingEntry, hdata, habsent, hwrite, isDuplicate]

/-- C28, witness: the read fails while "Ate bread" is handed over on a store that
holds this very entry; the entry is written again and the old one is gone. -/
theorem C28_read_failure_overwrites_witness :
    isDuplicate (getTrackingData false Example.breadStore) Example.breadEntry = true ∧
    saveTrackingEntry Example.readFailsEnv Example.breadStore Example.breadEntry =
      (.ok (some (newEntry Example.readFailsEnv Example.breadEntry)),
        .entries [newEntry Example.readFailsEnv Example.breadEntry]) :=
  ⟨by decide, (C28_read_failure_overwrites Example.readFailsEnv Example.breadStore
    Example.breadEntry (Or.inl rfl) rfl).1⟩

/-! ### What the badge reports -/

/-- A rejected call of `saveTrackingEntry` is a rejected write: the error is the one
of the store, and the store is left as it was. -/
theorem saveTrackingEntry_error (env : CallEnv) (st st1 : Stored) (entry : EntryFields)
    (e : JsError) (h : saveTrackingEntry env st entry = (.error e, st1)) :
    e = .storage ∧ env.writeFails = true ∧ st1 = st := by
  unfold saveTrackingEntry at h
  simp only at h
  split_ifs at h with hd hw
  · simp at h
  · simp only [Prod.mk.injEq, Except.error.injEq] at h
    exact ⟨h.1.symm, hw, h.2.symm⟩
  · simp at h

/-- The calls of a run that ends with an error: the error is a rejected write of
the call that follows the completed ones, and at least one entry is left out. -/
theorem saveAll_error (envs : Nat → CallEnv) (entries : List EntryFields) (k : Nat)
    (st : Stored) (e : JsError) (h : (saveAll envs k st entries).error = some e) :
    e = .storage ∧ (saveAll envs k st entries).log.length < entries.length ∧
      (envs (k + (saveAll envs k st entries).log.length)).writeFails = true := by
  induction entries generalizing k st with
  | nil => simp [saveAll_nil] at h
  | cons x rest ih =>
    rcases hs : saveTrackingEntry (envs k) st x with ⟨r, st1⟩
    rcases r with e1 | r
    · rw [saveAll_cons_error envs k st st1 x rest e1 hs] at h ⊢
      obtain ⟨he, hw, _⟩ := saveTrackingEntry_error (envs k) st st1 x e1 hs
      simp only [Option.some.injEq] at h
      subst h
      exact ⟨he, by simp, by simpa using hw⟩
    · rw [saveAll_cons_ok envs k st st1 x rest r hs] at h ⊢
      obtain ⟨he, hlen, hw⟩ := ih (k + 1) st1 h
      refine ⟨he, by simpa using hlen, ?_⟩
      simp only [List.length_cons]
      rw [show k + ((saveAll envs (k + 1) st1 rest).log.length + 1) =
        k + 1 + (saveAll envs (k + 1) st1 rest).log.length by omega]
      exact hw

/-- C25, counterexample: the example message is processed a second time. Every
write is a duplicate skip and the store is left as it was, so nothing is
persisted by the invocation, and the badge has saved = true. -/
theorem C25_counterexample :
    (sendMessage.track Example.okEnvs Example.pizzaMessage Example.pizza
      (sendMessage.track Example.okEnvs Example.pizzaMessage Example.pizza .absent).2.store).1.saved =
        true ∧
    (sendMessage.track Example.okEnvs Example.pizzaMessage Example.pizza
      (sendMessage.track Example.okEnvs Example.pizzaMessage Example.pizza .absent).2.store).2.log.map
        Prod.snd = [none, none, none] ∧
    (sendMessage.track Example.okEnvs Example.pizzaMessage Example.pizza
      (sendMessage.track Example.okEnvs Example.pizzaMessage Example.pizza .absent).2.store).2.store =
      (sendMessage.track Example.okEnvs Example.pizzaMessage Example.pizza .absent).2.store := by
  decide

/-- C25, amended. The saved flag reports the decision to save, not the
persistence: for every message, categorization, store and behaviour of the
platform, the flag is true exactly when the category list is non-empty and does
not contain general. It is therefore true whenever the invocation persisted an
entry, and it is the same whatever the writes come to (a new entry, a duplicate
skip or a rejection). -/
theorem C25_saved_flag_reports_decision (envs : Nat → CallEnv) (userMessageText : JsString)
    (c : Categorization) (st : Stored) :
    ((sendMessage.track envs userMessageText c st).1.saved = true ↔
      (c.categories ≠ [] ∧ CATEGORIES.GENERAL ∉ c.categories)) ∧
    ((∃ p ∈ (sendMessage.track envs userMessageText c st).2.log, p.2 ≠ none) →
      (sendMessage.track envs userMessageText c st).1.saved = true) ∧
    (∀ (envs2 : Nat → CallEnv) (st2 : Stored),
      (sendMessage.track envs2 userMessageText c st2).1.saved =
        (sendMessage.track envs userMessageText c st).1.saved) := by
  rw [← shouldSave_eq_true_iff]
  unfold sendMessage.track
  cases hs : shouldSave c <;> simp [notSavedBadge]

/-- C25, witness: the example message on the empty store: three entries are
persisted and the flag is true; on the message with the one category general
nothing is persisted and the flag is false. -/
theorem C25_saved_flag_reports_decision_witness :
    ((sendMessage.track Example.okEnvs Example.pizzaMessage Example.pizza .absent).2.log.filterMap
      Prod.snd).length = 3 ∧
    (sendMessage.track Example.okEnvs Example.pizzaMessage Example.pizza .absent).1.saved = true ∧
    (sendMessage.track Example.okEnvs Example.pizzaMessage Example.onlyGeneral .absent).1.saved =
      false :=
  ⟨by decide,
    (C25_saved_flag_reports_decision Example.okEnvs Example.pizzaMessage Example.pizza
      .absent).1.2 ⟨by decide, by decide⟩,
    by
      have h := (C25_saved_flag_reports_decision Example.okEnvs Example.pizzaMessage
        Example.onlyGeneral .absent).1
      cases hv : (sendMessage.track Example.okEnvs Example.pizzaMessage Example.onlyGeneral
        .absent).1.saved
      · rfl
      · exact absurd (h.1 hv).2 (by decide)⟩

/-- C26, counterexample: the first write of the example message is rejected. The
error is caught: no entry is stored, the two remaining writes are not made, and
the badge set for the message has saved = true. -/
theorem C26_counterexample :
    (Example.firstWriteFails 0).writeFails = true ∧
    (sendMessage.track Example.firstWriteFails Example.pizzaMessage Example.pizza .absent).2 =
      { store := .absent, log := [], error := some .storage } ∧
    (sendMessage.track Example.firstWriteFails Example.pizzaMessage Example.pizza .absent).1 =
      { categories := Example.pizza.categories, summaries := Example.pizza.summaries,
        saved := true, justSaved := true } := by
  decide

/-- C26, amended. Whenever a write of the store fails while the callback of
`sendMessage` is saving the entries of a message, the failure is caught and
logged inside the callback: the badge set for the message is the one set when
no write fails, with saved = true, the writes that follow the failed one are
not made, and the callback completes. -/
theorem C26_write_failure_is_caught (envs : Nat → CallEnv) (userMessageText : JsString)
    (c : Categorization) (st : Stored) (e : JsError)
    (herr : (sendMessage.track envs userMessageText c st).2.error = some e) :
    e = .storage ∧
    (envs (sendMessage.track envs userMessageText c st).2.log.length).writeFails = true ∧
    (sendMessage.track envs userMessageText c st).2.log.length <
      (writes userMessageText c).length ∧
    (sendMessage.track envs userMessageText c st).1 =
      { categories := c.categories, summaries := c.summaries, saved := true,
        justSaved := true } ∧
    (∀ (envs2 : Nat → CallEnv) (st2 : Stored),
      (sendMessage.track envs2 userMessageText c st2).1 =
        (sendMessage.track envs userMessageText c st).1) := by
  unfold sendMessage.track at herr ⊢
  cases hs : shouldSave c
  · simp [hs] at herr
  · simp only [hs, if_true] at herr ⊢
    rw [saveStep_eq_saveAll] at herr ⊢
    obtain ⟨he, hlen, hw⟩ := saveAll_error envs _ 0 st e herr
    refine ⟨he, ?_, hlen, trivial, fun _ _ => trivial⟩
    simpa using hw

/-- C26, witness: the first write of the example message is rejected. -/
theorem C26_write_failure_is_caught_witness :
    (sendMessage.track Example.firstWriteFails Example.pizzaMessage Example.pizza .absent).2.error =
      some .storage ∧
    (sendMessage.track Example.firstWriteFails Example.pizzaMessage Example.pizza .absent).1.saved =
      true :=
  ⟨by decide,
    congrArg Badge.saved (C26_write_failure_is_caught Example.firstWriteFails
      Example.pizzaMessage Example.pizza .absent .storage (by decide)).2.2.2.1⟩

/-! ### The manual change of the category -/

theorem categorizeMessage_resolves (strictCode : Bool) (parse : JsString → Option JVal)
    (message : JsString) (outcome : ClassifierOutcome) :
    ∃ c : CategorizationObject, categorizeMessage strictCode parse message outcome = .ok c := by
  unfold categorizeMessage
  cases categorizeMessage.tryBlock strictCode parse message outcome with
  | ok c => exact ⟨c, rfl⟩
  | error e => exact ⟨categorizeMessage.catchBlock message, rfl⟩

theorem CategorizationObject.get_category (c : CategorizationObject) :
    c.get "category".toList = .undefined := by
  unfold CategorizationObject.get
  rw [if_neg (by decide), if_neg (by decide), if_neg (by decide), if_neg (by decide),
    if_neg (by decide)]

/-- C29. For every message, every requested category string and every
outcome of the classifier call, `handleManualCategoryChange` takes the branch
of the refusal: it hands no entry to `saveTrackingEntry` and sets no
categorization, and only shows the alert. The reason is that the object
`categorizeMessage` resolves to has no property `category`: the value read is
undefined, which is strictly equal to no string (the alert names it as
"undefined"). -/
theorem C29_manual_override_never_accepted (strictCode : Bool)
    (parse : JsString → Option JVal) (messageText newCategory : JsString)
    (outcome : ClassifierOutcome) :
    (handleManualCategoryChange strictCode parse messageText newCategory outcome).entry? = none ∧
    (handleManualCategoryChange strictCode parse messageText newCategory outcome).categorization? =
      none ∧
    handleManualCategoryChange strictCode parse messageText newCategory outcome =
      .refused ("This message doesn\x27t fit the \x22".toList ++ newCategory ++
        "\x22 category. Keeping as \x22undefined\x22.".toList) ∧
    ∀ validation, categorizeMessage strictCode parse
        (handleManualCategoryChange.question messageText newCategory) outcome = .ok validation →
      validation.get "category".toList = .undefined ∧
      (validation.get "category".toList).strictEqualsString newCategory = false := by
  obtain ⟨c, hc⟩ := categorizeMessage_resolves strictCode parse
    (handleManualCategoryChange.question messageText newCategory) outcome
  have hrefused : handleManualCategoryChange strictCode parse messageText newCategory outcome =
      .refused ("This message doesn\x27t fit the \x22".toList ++ newCategory ++
        "\x22 category. Keeping as \x22undefined\x22.".toList) := by
    unfold handleManualCategoryChange
    rw [hc]
    simp only [CategorizationObject.get_category, JVal.strictEqualsString, Bool.false_eq_true,
      if_false, JVal.toText]
    simp
  refine ⟨?_, ?_, hrefused, ?_⟩
  · rw [hrefused]; rfl
  · rw [hrefused]; rfl
  · intro validation _
    rw [CategorizationObject.get_category]
    exact ⟨rfl, rfl⟩

/-- C29, witness: the classifier answers with `category` "symptom", the category
asked for, and the change is refused all the same. -/
theorem C29_manual_override_never_accepted_witness :
    (Json.parse (cleanContent Example.agreeingReply)).map
        (fun v => (v.get "category".toList).strictEqualsString CATEGORIES.SYMPTOM) =
      some true ∧
    handleManualCategoryChange false Json.parse "I feel bloated".toList CATEGORIES.SYMPTOM
        (.reply Example.agreeingReply) =
      .refused ("This message doesn\x27t fit the \x22".toList ++ CATEGORIES.SYMPTOM ++
        "\x22 category. Keeping as \x22undefined\x22.".toList) :=
  ⟨by decide,
    (C29_manual_override_never_accepted false Json.parse "I feel bloated".toList
      CATEGORIES.SYMPTOM (.reply Example.agreeingReply)).2.2.1⟩

/-! ### The arithmetic of the percentages -/

theorem floorLog2_spec (fuel n : Nat) (hn : 0 < n) (hfuel : n ≤ fuel) :
    2 ^ floorLog2 fuel n ≤ n ∧ n < 2 ^ (floorLog2 fuel n + 1) := by
  induction fuel generalizing n with
  | zero => omega
  | succ fuel ih =>
    unfold floorLog2
    by_cases h2 : n < 2
    · simp only [h2, if_true]
      constructor <;> simp <;> omega
    · simp only [h2, if_false]
      obtain ⟨h1, h3⟩ := ih (n / 2) (by omega) (by omega)
      rw [pow_succ, pow_succ]
      rw [pow_succ] at h3
      constructor <;> omega

theorem roundHalfEven_spec (n d : Nat) (hd : 0 < d) :
    2 * (roundHalfEven n d * d) ≤ 2 * n + d ∧ 2 * n ≤ 2 * (roundHalfEven n d * d) + d := by
  have hdiv := Nat.div_add_mod n d
  have hmod := Nat.mod_lt n hd
  have hq : (n / d + 1) * d = d * (n / d) + d := by ring
  have hq0 : n / d * d = d * (n / d) := by ring
  unfold roundHalfEven
  split_ifs <;> simp only [hq, hq0] <;> constructor <;> omega

/-- The double nearest to a positive quotient is within one part in `2 ^ 53` of
it. -/
theorem Double.ofRatio_spec (n d : Nat) (hn : 0 < n) (hd : 0 < d) :
    0 < (Double.ofRatio n d).den ∧
    2 ^ 53 * ((Double.ofRatio n d).num * d) ≤ (2 ^ 53 + 1) * (n * (Double.ofRatio n d).den) ∧
    2 ^ 53 * (n * (Double.ofRatio n d).den) ≤
      2 ^ 53 * ((Double.ofRatio n d).num * d) + n * (Double.ofRatio n d).den := by
  obtain ⟨ha1, ha2⟩ := floorLog2_spec n n hn le_rfl
  obtain ⟨hb1, hb2⟩ := floorLog2_spec d d hd le_rfl
  have hD : 0 < d * 2 ^ floorLog2 n n := by positivity
  unfold Double.ofRatio
  rw [if_neg (by omega)]
  simp only
  split_ifs with hcase
  · obtain ⟨hr1, hr2⟩ := roundHalfEven_spec (n * 2 ^ (floorLog2 d d + 52))
      (d * 2 ^ floorLog2 n n) hD
    have hnum : roundHalfEven (n * 2 ^ (floorLog2 d d + 52)) (d * 2 ^ floorLog2 n n) *
        2 ^ floorLog2 n n * d =
        roundHalfEven (n * 2 ^ (floorLog2 d d + 52)) (d * 2 ^ floorLog2 n n) *
          (d * 2 ^ floorLog2 n n) := by ring
    have hsmall : 2 ^ 52 * (d * 2 ^ floorLog2 n n) ≤ n * 2 ^ (floorLog2 d d + 52) := by
      calc 2 ^ 52 * (d * 2 ^ floorLog2 n n) ≤ 2 ^ 52 * (n * 2 ^ floorLog2 d d) :=
            Nat.mul_le_mul_left _ hcase
        _ = n * 2 ^ (floorLog2 d d + 52) := by ring
    dsimp only
    rw [hnum]
    refine ⟨by positivity, ?_, ?_⟩ <;> omega
  · obtain ⟨hr1, hr2⟩ := roundHalfEven_spec (n * 2 ^ (floorLog2 d d + 53))
      (d * 2 ^ floorLog2 n n) hD
    have hnum : roundHalfEven (n * 2 ^ (floorLog2 d d + 53)) (d * 2 ^ floorLog2 n n) *
        2 ^ floorLog2 n n * d =
        roundHalfEven (n * 2 ^ (floorLog2 d d + 53)) (d * 2 ^ floorLog2 n n) *
          (d * 2 ^ floorLog2 n n) := by ring
    have hsmall : 2 ^ 52 * (d * 2 ^ floorLog2 n n) ≤ n * 2 ^ (floorLog2 d d + 53) := by
      have h1 : d * 2 ^ floorLog2 n n ≤ 2 ^ (floorLog2 d d + 1) * n :=
        Nat.mul_le_mul (le_of_lt hb2) ha1
      calc 2 ^ 52 * (d * 2 ^ floorLog2 n n) ≤ 2 ^ 52 * (2 ^ (floorLog2 d d + 1) * n) :=
            Nat.mul_le_mul_left _ h1
        _ = n * 2 ^ (floorLog2 d d + 53) := by ring
    dsimp only
    rw [hnum]
    refine ⟨by positivity, ?_, ?_⟩ <;> omega

theorem percentage_upper_aux (u c T qn qd yn yd P : ℤ) (hu : 1 ≤ u) (hT : 0 < T)
    (hqd : 0 < qd) (hyd : 0 < yd)
    (A1 : u * (qn * T) ≤ (u + 1) * (c * qd))
    (B1 : u * (yn * qd) ≤ (u + 1) * (qn * 100 * yd))
    (R1 : 2 * yd * P ≤ 2 * yn + yd)
    (E : 200 * c * (2 * u + 1) < u * u) :
    2 * T * P ≤ 200 * c + T := by
  by_contra hcon
  push_neg at hcon
  have hH : 200 * c + T + 1 ≤ 2 * T * P := by omega
  have h1 := mul_le_mul_of_nonneg_left hH (show (0:ℤ) ≤ yd * qd * (u * u) by positivity)
  have h2 := mul_le_mul_of_nonneg_left R1 (show (0:ℤ) ≤ T * qd * (u * u) by positivity)
  have h3 := mul_le_mul_of_nonneg_left B1 (show (0:ℤ) ≤ 2 * T * u by positivity)
  have h4 := mul_le_mul_of_nonneg_left A1 (show (0:ℤ) ≤ 200 * yd * (u + 1) by positivity)
  have h5 := mul_lt_mul_of_pos_left E (show (0:ℤ) < yd * qd by positivity)
  nlinarith [h1, h2, h3, h4, h5]

theorem percentage_lower_aux (u c T qn qd yn yd P : ℤ) (hu : 1 ≤ u) (hc : 0 ≤ c)
    (hT : 0 < T) (hqd : 0 < qd) (hyd : 0 < yd)
    (A2 : u * (c * qd) ≤ u * (qn * T) + c * qd)
    (B2 : u * (qn * 100 * yd) ≤ u * (yn * qd) + qn * 100 * yd)
    (R2 : 2 * yn + yd < 2 * yd * (P + 1))
    (E : 200 * c * (2 * u + 1) < u * u) :
    200 * c ≤ 2 * T * P + T := by
  by_contra hcon
  push_neg at hcon
  have hH : 2 * T * (P + 1) + 1 ≤ 200 * c + T := by linarith
  have h1 := mul_le_mul_of_nonneg_left hH (show (0:ℤ) ≤ yd * qd * (u * u) by positivity)
  have h2 := mul_lt_mul_of_pos_left R2 (show (0:ℤ) < T * qd * (u * u) by positivity)
  have h3 := mul_le_mul_of_nonneg_left B2 (show (0:ℤ) ≤ 2 * T * u by positivity)
  have h4 := mul_le_mul_of_nonneg_left A2 (show (0:ℤ) ≤ 200 * yd * (u - 1) by
    have : (0:ℤ) ≤ u - 1 := by linarith
    positivity)
  have h5 := mul_lt_mul_of_pos_left E (show (0:ℤ) < yd * qd by positivity)
  have h6 : (0:ℤ) ≤ c * (yd * qd) := by positivity
  have h7 : (0:ℤ) ≤ c * (yd * qd) * u := by positivity
  nlinarith [h1, h2, h3, h4, h5, h6, h7]

/-- The number printed for a count `c` of a positive total `T` up to `2 ^ 44` is an
integer within one half of `100 * c / T`. -/
theorem generateHTMLReport.percentage_spec (c T : Nat) (hT : 0 < T) (hc : c ≤ T)
    (hbound : T ≤ 2 ^ 44) :
    ∃ p, generateHTMLReport.percentage c T = some p ∧
      2 * T * p ≤ 200 * c + T ∧ 200 * c ≤ 2 * T * p + T := by
  have hne : T ≠ 0 := by omega
  rcases Nat.eq_zero_or_pos c with h0 | hpos
  · subst h0
    refine ⟨0, ?_, by omega, by omega⟩
    simp [generateHTMLReport.percentage, percentOfTotal, Double.div, Double.ofNat, Double.mul,
      Double.ofRatio, Math.round, hT, hne]
  · obtain ⟨hqd, A1, A2⟩ := Double.ofRatio_spec c T hpos hT
    have hqn : 0 < (Double.ofRatio c T).num := by
      rcases Nat.eq_zero_or_pos (Double.ofRatio c T).num with hz | hp
      · rw [hz] at A2
        have : 0 < c * (Double.ofRatio c T).den := Nat.mul_pos hpos hqd
        omega
      · exact hp
    obtain ⟨hyd, B1, B2⟩ := Double.ofRatio_spec ((Double.ofRatio c T).num * 100)
      (Double.ofRatio c T).den (by omega) hqd
    refine ⟨Math.round (Double.ofRatio ((Double.ofRatio c T).num * 100)
      (Double.ofRatio c T).den), ?_, ?_, ?_⟩
    · simp [generateHTMLReport.percentage, percentOfTotal, Double.div, Double.ofNat, Double.mul,
        hT, hne]
    · have R1 : 2 * (Double.ofRatio ((Double.ofRatio c T).num * 100)
          (Double.ofRatio c T).den).den *
          Math.round (Double.ofRatio ((Double.ofRatio c T).num * 100)
            (Double.ofRatio c T).den) ≤
          2 * (Double.ofRatio ((Double.ofRatio c T).num * 100) (Double.ofRatio c T).den).num +
            (Double.ofRatio ((Double.ofRatio c T).num * 100) (Double.ofRatio c T).den).den :=
        Nat.mul_div_le _ _
      have E : 200 * c * (2 * 2 ^ 53 + 1) < 2 ^ 53 * 2 ^ 53 := by
        have : c ≤ 2 ^ 44 := le_trans hc hbound
        omega
      have := percentage_upper_aux (2 ^ 53) c T (Double.ofRatio c T).num
        (Double.ofRatio c T).den
        (Double.ofRatio ((Double.ofRatio c T).num * 100) (Double.ofRatio c T).den).num
        (Double.ofRatio ((Double.ofRatio c T).num * 100) (Double.ofRatio c T).den).den
        (Math.round (Double.ofRatio ((Double.ofRatio c T).num * 100)
          (Double.ofRatio c T).den))
        (by norm_num) (by exact_mod_cast hT) (by exact_mod_cast hqd) (by exact_mod_cast hyd)
        (by exact_mod_cast A1) (by exact_mod_cast B1) (by exact_mod_cast R1)
        (by exact_mod_cast E)
      exact_mod_cast this
    · have R2 : 2 * (Double.ofRatio ((Double.ofRatio c T).num * 100) (Double.ofRatio c T).den).num +
            (Double.ofRatio ((Double.ofRatio c T).num * 100) (Double.ofRatio c T).den).den <
          2 * (Double.ofRatio ((Double.ofRatio c T).num * 100)
            (Double.ofRatio c T).den).den *
          (Math.round (Double.ofRatio ((Double.ofRatio c T).num * 100)
            (Double.ofRatio c T).den) + 1) :=
        Nat.lt_mul_div_succ _ (by omega)
      have E : 200 * c * (2 * 2 ^ 53 + 1) < 2 ^ 53 * 2 ^ 53 := by
        have : c ≤ 2 ^ 44 := le_trans hc hbound
        omega
      have := percentage_lower_aux (2 ^ 53) c T (Double.ofRatio c T).num
        (Double.ofRatio c T).den
        (Double.ofRatio ((Double.ofRatio c T).num * 100) (Double.ofRatio c T).den).num
        (Double.ofRatio ((Double.ofRatio c T).num * 100) (Double.ofRatio c T).den).den
        (Math.round (Double.ofRatio ((Double.ofRatio c T).num * 100)
          (Double.ofRatio c T).den))
        (by norm_num) (by positivity) (by exact_mod_cast hT) (by exact_mod_cast hqd)
        (by exact_mod_cast hyd)
        (by exact_mod_cast A2) (by exact_mod_cast B2) (by exact_mod_cast R2)
        (by exact_mod_cast E)
      exact_mod_cast this

/-- An integer within one half of `100 * c / T` is the percentage rounded with the
halves up, or one less when `100 * c / T` lies halfway between two integers. -/
theorem roundHalfUpPercentage_near (c T p : Nat) (hT : 0 < T) (hc : c ≤ T)
    (h1 : 2 * T * p ≤ 200 * c + T) (h2 : 200 * c ≤ 2 * T * p + T) :
    p ≤ 100 ∧ (p = roundHalfUpPercentage c T ∨ p + 1 = roundHalfUpPercentage c T) ∧
      ((200 * c + T) % (2 * T) ≠ 0 → p = roundHalfUpPercentage c T) := by
  have h2T : 0 < 2 * T := by omega
  have hle : p ≤ roundHalfUpPercentage c T := by
    unfold roundHalfUpPercentage
    rw [Nat.le_div_iff_mul_le h2T]
    calc p * (2 * T) = 2 * T * p := by ring
      _ ≤ 200 * c + T := h1
  have hge : roundHalfUpPercentage c T ≤ p + 1 := by
    unfold roundHalfUpPercentage
    calc (200 * c + T) / (2 * T) ≤ (2 * T * (p + 1)) / (2 * T) :=
          Nat.div_le_div_right (by
            have : 2 * T * (p + 1) = 2 * T * p + 2 * T := by ring
            omega)
      _ = p + 1 := Nat.mul_div_cancel_left _ h2T
  refine ⟨?_, by omega, ?_⟩
  · by_contra hcon
    have h101 : 101 ≤ p := by omega
    have : 2 * T * 101 ≤ 2 * T * p := Nat.mul_le_mul_left _ h101
    omega
  · intro hmod
    by_contra hne
    have heq : roundHalfUpPercentage c T = p + 1 := by omega
    have hR1 : 2 * T * ((200 * c + T) / (2 * T)) ≤ 200 * c + T := Nat.mul_div_le _ _
    unfold roundHalfUpPercentage at heq
    rw [heq] at hR1
    have hexp : 2 * T * (p + 1) = 2 * T * p + 2 * T := by ring
    have hval : 200 * c + T = 2 * T * (p + 1) := by omega
    apply hmod
    rw [hval]
    exact Nat.mul_mod_right _ _

/-- C27, counterexample: 23 entries of carbs and 17 of proteins. The report prints
57 percent for carbs, where `100 * 23 / 40` is 57.5 and the rounding with the
halves up gives 58: the double `(23 / 40) * 100` is 57.49999999999999. -/
theorem C27_counterexample :
    generateHTMLReport.nutritionSection { carbs := 23, proteins := 17, dairy := 0, fibre := 0 } =
      .table { count := 23, percentage := some 57 } { count := 17, percentage := some 43 }
        { count := 0, percentage := some 0 } { count := 0, percentage := some 0 } 40 ∧
    roundHalfUpPercentage 23 40 = 58 ∧
    (percentOfTotal 23 40).map (fun x => decide (2 * x.num < 115 * x.den)) = some true := by
  decide

/-- C27, amended. When the total `T` of the four dietary counts is zero, no
percentage is computed: the report prints the empty finding and
`getDietaryPercentages` returns null. When `T` is positive every percentage is a
finite number, so no division by zero occurs. For a positive `T` up to `2 ^ 44`
the percentage the report prints for a bucket with count `c` lies between 0 and
100 and is `100 * c / T` rounded to a nearest integer: it is
`floor((200 * c + T) / (2 * T))` whenever `100 * c / T` is not halfway between
two integers, and that number or one less when it is. -/
theorem C27_printed_percentage (dietary : DietaryCounts) :
    (dietaryTotal dietary = 0 →
      generateHTMLReport.nutritionSection dietary = .emptyFinding ∧
      getDietaryPercentages dietary = none) ∧
    (0 < dietaryTotal dietary →
      ∀ c ∈ [dietary.carbs, dietary.proteins, dietary.dairy, dietary.fibre],
        (∃ x, percentOfTotal c (dietaryTotal dietary) = some x) ∧
        (dietaryTotal dietary ≤ 2 ^ 44 →
          ∃ p, generateHTMLReport.percentage c (dietaryTotal dietary) = some p ∧ p ≤ 100 ∧
            (p = roundHalfUpPercentage c (dietaryTotal dietary) ∨
              p + 1 = roundHalfUpPercentage c (dietaryTotal dietary)) ∧
            ((200 * c + dietaryTotal dietary) % (2 * dietaryTotal dietary) ≠ 0 →
              p = roundHalfUpPercentage c (dietaryTotal dietary)))) := by
  refine ⟨?_, ?_⟩
  · intro h0
    simp [generateHTMLReport.nutritionSection, getDietaryPercentages, h0]
  · intro hT c hc
    have hcT : c ≤ dietaryTotal dietary := by
      simp only [List.mem_cons, List.mem_singleton, List.not_mem_nil, or_false] at hc
      unfold dietaryTotal
      rcases hc with h | h | h | h <;> omega
    refine ⟨?_, ?_⟩
    · have hne : dietaryTotal dietary ≠ 0 := by omega
      simp [percentOfTotal, Double.div, Double.ofNat, hne]
    · intro hbound
      obtain ⟨p, hp, h1, h2⟩ := generateHTMLReport.percentage_spec c (dietaryTotal dietary)
        hT hcT hbound
      obtain ⟨h100, hnear, hexact⟩ := roundHalfUpPercentage_near c (dietaryTotal dietary) p
        hT hcT h1 h2
      exact ⟨p, hp, h100, hnear, hexact⟩

/-- C27, witness: the counts 1, 1, 1 and 5. The percentage 12.5 of the first
bucket lies halfway and is printed as 13, which is the rounding with the halves
up. -/
theorem C27_printed_percentage_witness :
    0 < dietaryTotal { carbs := 1, proteins := 1, dairy := 1, fibre := 5 } ∧
    generateHTMLReport.percentage 1 8 = some 13 ∧
    ∃ p, generateHTMLReport.percentage 1
        (dietaryTotal { carbs := 1, proteins := 1, dairy := 1, fibre := 5 }) = some p ∧
      p ≤ 100 ∧
      (p = roundHalfUpPercentage 1
          (dietaryTotal { carbs := 1, proteins := 1, dairy := 1, fibre := 5 }) ∨
        p + 1 = roundHalfUpPercentage 1
          (dietaryTotal { carbs := 1, proteins := 1, dairy := 1, fibre := 5 })) ∧
      ((200 * 1 + dietaryTotal { carbs := 1, proteins := 1, dairy := 1, fibre := 5 }) %
          (2 * dietaryTotal { carbs := 1, proteins := 1, dairy := 1, fibre := 5 }) ≠ 0 →
        p = roundHalfUpPercentage 1
          (dietaryTotal { carbs := 1, proteins := 1, dairy := 1, fibre := 5 })) :=
  ⟨by decide, by decide,
    ((C27_printed_percentage { carbs := 1, proteins := 1, dairy := 1, fibre := 5 }).2
      (by decide) 1 (by decide)).2 (by decide)⟩

/-- C30, counterexample: the counts 29, 29, 29 and 113, with the total 200. The
exact percentages 14.5, 14.5, 14.5 and 56.5 are printed as 14, 14, 14 and 56,
which sum to 98. -/
theorem C30_counterexample :
    generateHTMLReport.nutritionSection
        { carbs := 29, proteins := 29, dairy := 29, fibre := 113 } =
      .table { count := 29, percentage := some 14 } { count := 29, percentage := some 14 }
        { count := 29, percentage := some 14 } { count := 113, percentage := some 56 } 200 ∧
    (generateHTMLReport.nutritionSection
      { carbs := 29, proteins := 29, dairy := 29, fibre := 113 }).percentageSum = some 98 := by
  decide

/-- C30, amended. For all dietary counts with a positive total up to
`2 ^ 44`, the report prints the table with four percentages, and these sum to at
least 98 and at most 102. -/
theorem C30_percentage_sum_bound (dietary : DietaryCounts)
    (hpos : 0 < dietaryTotal dietary) (hbound : dietaryTotal dietary ≤ 2 ^ 44) :
    ∃ s, (generateHTMLReport.nutritionSection dietary).percentageSum = some s ∧
      98 ≤ s ∧ s ≤ 102 := by
  have hT : dietaryTotal dietary =
      dietary.carbs + dietary.proteins + dietary.dairy + dietary.fibre := rfl
  obtain ⟨a, ha, ha1, ha2⟩ := generateHTMLReport.percentage_spec dietary.carbs
    (dietaryTotal dietary) hpos (by omega) hbound
  obtain ⟨b, hb, hb1, hb2⟩ := generateHTMLReport.percentage_spec dietary.proteins
    (dietaryTotal dietary) hpos (by omega) hbound
  obtain ⟨c, hc, hc1, hc2⟩ := generateHTMLReport.percentage_spec dietary.dairy
    (dietaryTotal dietary) hpos (by omega) hbound
  obtain ⟨d, hd, hd1, hd2⟩ := generateHTMLReport.percentage_spec dietary.fibre
    (dietaryTotal dietary) hpos (by omega) hbound
  refine ⟨a + b + c + d, ?_, ?_, ?_⟩
  · have hne : dietaryTotal dietary ≠ 0 := by omega
    simp only [generateHTMLReport.nutritionSection, hne, if_false,
      NutritionSection.percentageSum, ha, hb, hc, hd]
  · have hmul : 2 * dietaryTotal dietary * 98 ≤ 2 * dietaryTotal dietary * (a + b + c + d) := by
      have hexp : 2 * dietaryTotal dietary * (a + b + c + d) =
          2 * dietaryTotal dietary * a + 2 * dietaryTotal dietary * b +
            2 * dietaryTotal dietary * c + 2 * dietaryTotal dietary * d := by ring
      omega
    exact Nat.le_of_mul_le_mul_left hmul (by omega)
  · have hmul : 2 * dietaryTotal dietary * (a + b + c + d) ≤ 2 * dietaryTotal dietary * 102 := by
      have hexp : 2 * dietaryTotal dietary * (a + b + c + d) =
          2 * dietaryTotal dietary * a + 2 * dietaryTotal dietary * b +
            2 * dietaryTotal dietary * c + 2 * dietaryTotal dietary * d := by ring
      omega
    exact Nat.le_of_mul_le_mul_left hmul (by omega)

/-- C30, witness: the counts 1, 1, 1 and 0 give 33 + 33 + 33 + 0 = 99, and the
counts 1, 1, 1 and 5 give 13 + 13 + 13 + 63 = 102. -/
theorem C30_percentage_sum_bound_witness :
    (generateHTMLReport.nutritionSection
      { carbs := 1, proteins := 1, dairy := 1, fibre := 0 }).percentageSum = some 99 ∧
    (generateHTMLReport.nutritionSection
      { carbs := 1, proteins := 1, dairy := 1, fibre := 5 }).percentageSum = some 102 ∧
    ∃ s, (generateHTMLReport.nutritionSection
        { carbs := 1, proteins := 1, dairy := 1, fibre := 0 }).percentageSum = some s ∧
      98 ≤ s ∧ s ≤ 102 :=
  ⟨by decide, by decide,
    C30_percentage_sum_bound { carbs := 1, proteins := 1, dairy := 1, fibre := 0 }
      (by decide) (by decide)⟩

end DigestiGo
